import Mathlib

/-!
# SoftU2F: the U2FHID transport engine of `softu2f.c`

A shallow embedding of the message fragmenter (`softu2f_hid_msg_send`), the
reassembler (`softu2f_hid_msg_read`, `softu2f_hid_msg_frame_read`), the channel
lock (`softu2f_hid_is_unlocked_for_client`, `softu2f_hid_msg_handle_lock`), the
handler table (`softu2f_hid_msg_handler_register`, `softu2f_hid_msg_handler`),
the built-in INIT, PING and WINK handlers and the run loop (`softu2f_run`).

Conventions.
* Bytes, channel ids and times are natural numbers; a truncation that C performs
  on assignment (`uint8_t`, `uint16_t`, `unsigned int`) is written as an explicit `%`.
* A `CFDataRef` / `CFMutableDataRef` is `Option (List Nat)`; `none` is `NULL`.
* The kernel connection `ctx->con` is a log of the frames handed to
  `kSoftU2FUserClientSendFrame` together with the results the coming calls return.
* `time(NULL)` is an argument (`now`).
* A read that C makes outside a request payload is the result `none`.
* The run loop and the reader work through a finite script of transport events;
  when the script runs out the loop is still waiting for frames.
-/

namespace SoftU2F

/-! ## Constants and types of the headers -/

/-- Modelled from the spec: `HID_RPT_SIZE` of the absent header `u2f_hid.h`; the
fixed frame size, 64 bytes (spec section 3). -/
def HID_RPT_SIZE : Nat := 64

/-- Modelled from the spec: `CID_BROADCAST` of the absent header `u2f_hid.h`; the
all-ones 32-bit channel id (spec section 6). -/
def CID_BROADCAST : Nat := 0xffffffff

/-- Modelled from the spec: `TYPE_MASK` of the absent header `u2f_hid.h`; the
high bit of the tag byte (spec section 4.1). -/
def TYPE_MASK : Nat := 0x80

/-- Modelled from the spec: `TYPE_INIT` of the absent header `u2f_hid.h`; INIT
frames have the high bit of the tag byte set (spec section 4.1). -/
def TYPE_INIT : Nat := 0x80

/-- Modelled from the spec: `TYPE_CONT` of the absent header `u2f_hid.h`; CONT
frames have the high bit of the tag byte clear (spec section 4.1). -/
def TYPE_CONT : Nat := 0x00

/-- Modelled from the spec: `U2FHID_PING` of the absent header `u2f_hid.h`
(`TYPE_INIT | 0x01` in the U2FHID transport the spec names in section 6). -/
def U2FHID_PING : Nat := 0x81

/-- Modelled from the spec: `U2FHID_MSG` of the absent header `u2f_hid.h`
(`TYPE_INIT | 0x03`). -/
def U2FHID_MSG : Nat := 0x83

/-- Modelled from the spec: `U2FHID_LOCK` of the absent header `u2f_hid.h`
(`TYPE_INIT | 0x04`). -/
def U2FHID_LOCK : Nat := 0x84

/-- Modelled from the spec: `U2FHID_INIT` of the absent header `u2f_hid.h`
(`TYPE_INIT | 0x06`). -/
def U2FHID_INIT : Nat := 0x86

/-- Modelled from the spec: `U2FHID_WINK` of the absent header `u2f_hid.h`
(`TYPE_INIT | 0x08`). -/
def U2FHID_WINK : Nat := 0x88

/-- Modelled from the spec: `U2FHID_SYNC` of the absent header `u2f_hid.h`
(`TYPE_INIT | 0x3c`). -/
def U2FHID_SYNC : Nat := 0xbc

/-- Modelled from the spec: `U2FHID_ERROR` of the absent header `u2f_hid.h`
(`TYPE_INIT | 0x3f`). -/
def U2FHID_ERROR : Nat := 0xbf

/-- Modelled from the spec: `ERR_INVALID_SEQ` of the absent header `u2f_hid.h`. -/
def ERR_INVALID_SEQ : Nat := 0x04

/-- Modelled from the spec: `ERR_CHANNEL_BUSY` of the absent header `u2f_hid.h`. -/
def ERR_CHANNEL_BUSY : Nat := 0x06

/-- Modelled from the spec: `ERR_OTHER` of the absent header `u2f_hid.h`. -/
def ERR_OTHER : Nat := 0x7f

/-- Modelled from the spec: the struct `U2FHID_FRAME` of the absent header
`u2f_hid.h` (spec sections 3 and 6). Bytes 0-3 are `cid`; byte 4 is the tag byte,
which the union reads as `type`, `init.cmd` or `cont.seq`; `body` is bytes 5-63,
which the union reads either as `init.bcnth`, `init.bcntl`, `init.data[57]` or as
`cont.data[59]`. -/
structure U2FHID_FRAME where
  cid : Nat
  type : Nat
  body : List Nat
deriving DecidableEq, Repr

/-- The field `init.bcnth`: byte 5 of the frame. -/
def U2FHID_FRAME.init_bcnth (f : U2FHID_FRAME) : Nat := f.body.getD 0 0

/-- The field `init.bcntl`: byte 6 of the frame. -/
def U2FHID_FRAME.init_bcntl (f : U2FHID_FRAME) : Nat := f.body.getD 1 0

/-- The field `init.data`: bytes 7-63 of the frame (57 bytes). -/
def U2FHID_FRAME.init_data (f : U2FHID_FRAME) : List Nat := f.body.drop 2

/-- The field `cont.data`: bytes 5-63 of the frame (59 bytes). -/
def U2FHID_FRAME.cont_data (f : U2FHID_FRAME) : List Nat := f.body

/-- The size of a frame in bytes: `cid`, the tag byte, and the body. -/
def U2FHID_FRAME.size (f : U2FHID_FRAME) : Nat := 4 + 1 + f.body.length

/-- Modelled from the spec: the macro `FRAME_TYPE(f)` of the absent header
`u2f_hid.h`, `(f).type & TYPE_MASK`. -/
def FRAME_TYPE (f : U2FHID_FRAME) : Nat := f.type &&& TYPE_MASK

/-- Modelled from the spec: the macro `MSG_LEN(f)` of the absent header
`u2f_hid.h`, `(f).init.bcnth*256 + (f).init.bcntl`. -/
def MSG_LEN (f : U2FHID_FRAME) : Nat := f.init_bcnth * 256 + f.init_bcntl

/-- Modelled from the spec: the macro `FRAME_SEQ(f)` of the absent header
`u2f_hid.h`, `(f).cont.seq & ~TYPE_MASK`: the low seven bits of the tag byte. -/
def FRAME_SEQ (f : U2FHID_FRAME) : Nat := f.type &&& 0x7f

/-- Modelled from the spec: the struct `softu2f_hid_message` of the absent header
`softu2f.h` (spec section 3, LogicalMessage): `cmd` (`uint8_t`), `cid`
(`uint32_t`), `bcnt` (`uint16_t`, the declared length), `buf` (the growing
reassembly buffer, `NULL` when no message is in flight), `data` (the complete
payload) and `lastSeq` (`uint8_t`, the next expected sequence number). -/
structure softu2f_hid_message where
  cmd : Nat
  cid : Nat
  bcnt : Nat
  buf : Option (List Nat)
  data : Option (List Nat)
  lastSeq : Nat
deriving DecidableEq, Repr

/-- Modelled from the spec: the struct `softu2f_hid_lock` of the absent header
`softu2f.h` (spec section 3, ChannelLock): the holder and the absolute expiry. -/
structure softu2f_hid_lock where
  cid : Nat
  expiration : Nat
deriving DecidableEq, Repr

/-- Modelled from the spec: the function-pointer type
`softu2f_hid_message_handler` of the absent header `softu2f.h`. A handler value
is the address of one of the four built-in handlers of `softu2f.c` or of a
function of the embedding application. -/
inductive softu2f_hid_message_handler where
  | handle_ping
  | handle_lock
  | handle_init
  | handle_wink
  | external (addr : Nat)
deriving DecidableEq, Repr

/-- Modelled from the spec: the struct `softu2f_ctx` of the absent header
`softu2f.h` (spec section 3, DeviceContext). The connection `con` is the pair
`sent` (every frame handed to `kSoftU2FUserClientSendFrame` so far, oldest first)
and `send_results` (what the coming calls return, `true` for `kIOReturnSuccess`;
once the list is used up every call succeeds). A `NULL` handler slot or lock is
`none`. -/
structure softu2f_ctx where
  sent : List U2FHID_FRAME
  send_results : List Bool
  next_cid : Nat
  lock : Option softu2f_hid_lock
  shutdown : Bool
  ping_handler : Option softu2f_hid_message_handler
  msg_handler : Option softu2f_hid_message_handler
  lock_handler : Option softu2f_hid_message_handler
  init_handler : Option softu2f_hid_message_handler
  wink_handler : Option softu2f_hid_message_handler
deriving DecidableEq, Repr

/-- The context `softu2f_init` returns when the driver is present: `calloc`
zeroes every field, and nothing has been sent on the fresh connection. -/
def softu2f_init : softu2f_ctx :=
  { sent := [], send_results := [], next_cid := 0, lock := none, shutdown := false,
    ping_handler := none, msg_handler := none, lock_handler := none,
    init_handler := none, wink_handler := none }

/-- The message `calloc` returns at the start of `softu2f_hid_msg_read`: every
field zero, so no message is in flight. -/
def calloc_msg : softu2f_hid_message :=
  { cmd := 0, cid := 0, bcnt := 0, buf := none, data := none, lastSeq := 0 }

/-! ## The sender -/

/-- One call `IOConnectCallStructMethod(ctx->con, kSoftU2FUserClientSendFrame, &frame, ...)`:
the frame is logged and the call returns the next scripted result. -/
def SendFrame (ctx : softu2f_ctx) (frame : U2FHID_FRAME) : softu2f_ctx × Bool :=
  match ctx.send_results with
  | [] => ({ ctx with sent := ctx.sent ++ [frame] }, true)
  | r :: rs => ({ ctx with sent := ctx.sent ++ [frame], send_results := rs }, r)

/-- The call `memcpy(dst, src, n)` where `dst` points `off` bytes into `body` and
`bytes` are the `n` bytes read from `src`. -/
def memcpy (body : List Nat) (off : Nat) (bytes : List Nat) : List Nat :=
  body.take off ++ bytes ++ body.drop (off + bytes.length)

/-- The `while (1)` loop of `softu2f_hid_msg_send`. `dst` and `dst_end` are
offsets into the frame body, `src` is what remains between `src` and `src_end`,
and `seq` is the current value of the local `seq`. The first argument bounds the
number of passes; `softu2f_hid_msg_send` passes a bound the loop never
reaches (`softu2f_hid_msg_send_loop_fuel`). The call `sleep(0.005)` between
frames changes no state and is left out. -/
def softu2f_hid_msg_send_loop :
    Nat → softu2f_ctx → U2FHID_FRAME → Nat → Nat → List Nat → Nat → softu2f_ctx × Bool
  | 0, ctx, _, _, _, _, _ => (ctx, false)
  | fuel + 1, ctx, frame, dst, dst_end, src, seq =>
    let n := if src.length > dst_end - dst then dst_end - dst else src.length
    let frame1 : U2FHID_FRAME := { frame with body := memcpy frame.body dst (src.take n) }
    let src1 := src.drop n
    match SendFrame ctx frame1 with
    | (ctx1, false) => (ctx1, false)
    | (ctx1, true) =>
      if src1.length = 0 then (ctx1, true)
      else
        let frame2 : U2FHID_FRAME :=
          { frame1 with type := seq % 256, body := List.replicate 59 0 }
        softu2f_hid_msg_send_loop fuel ctx1 frame2 0 59 src1 ((seq + 1) % 256)

/-- The function `softu2f_hid_msg_send`. The local `seq` is never initialised in
the source, so the value it happens to hold on entry is the argument `seq`.
`msg->data` is not `NULL` at any call site; a `NULL` is read here as no bytes.
The frame is zeroed, tagged `TYPE_INIT | msg->cmd`, and its length bytes are
`length << 8` and `length & 0xff`, each truncated to `uint8_t`. -/
def softu2f_hid_msg_send (ctx : softu2f_ctx) (msg : softu2f_hid_message) (seq : Nat) :
    softu2f_ctx × Bool :=
  let data := msg.data.getD []
  let zero : List Nat := List.replicate 59 0
  let frame : U2FHID_FRAME :=
    { cid := msg.cid,
      type := (0 ||| TYPE_INIT) ||| msg.cmd,
      body := (zero.set 0 ((data.length <<< 8) % 256)).set 1 (data.length &&& 0xff) }
  softu2f_hid_msg_send_loop (data.length + 1) ctx frame 2 59 data seq

/-- The function `softu2f_hid_err_send`: an ERROR message whose payload is the one
byte `code`. The message fits one frame, so the local `seq` of the sender is
never read (`softu2f_hid_msg_send_seq_unread`). -/
def softu2f_hid_err_send (ctx : softu2f_ctx) (cid : Nat) (code : Nat) : softu2f_ctx × Bool :=
  softu2f_hid_msg_send ctx
    { cmd := U2FHID_ERROR, cid := cid, bcnt := 1, buf := none, data := some [code], lastSeq := 0 } 0

/-! ## The channel lock -/

/-- The function `softu2f_hid_is_unlocked_for_client`, with `now` the value of
`time(NULL)`. Returns the context (the lock is cleared when it has expired) and
the result. -/
def softu2f_hid_is_unlocked_for_client (ctx : softu2f_ctx) (cid : Nat) (now : Nat) :
    softu2f_ctx × Bool :=
  match ctx.lock with
  | none => (ctx, true)
  | some lock =>
    if lock.expiration < now then ({ ctx with lock := none }, true)
    else (ctx, decide (lock.cid = cid))

/-! ## The reassembler -/

/-- Modelled from the spec: `sizeof(U2FHID_SYNC_RESP)` of the absent header
`u2f_hid.h`; the SYNC response is the one-byte nonce of the request. -/
def sizeof_U2FHID_SYNC_RESP : Nat := 1

/-- The function `softu2f_hid_msg_frame_handle_sync`: a SYNC message on the
frame's channel whose payload is the nonce, the first `sizeof(U2FHID_SYNC_RESP)`
bytes of `frame->init.data`. One frame, so the sender never reads `seq`. -/
def softu2f_hid_msg_frame_handle_sync (ctx : softu2f_ctx) (frame : U2FHID_FRAME) :
    softu2f_ctx × Bool :=
  softu2f_hid_msg_send ctx
    { cmd := U2FHID_SYNC, cid := frame.cid, bcnt := sizeof_U2FHID_SYNC_RESP, buf := none,
      data := some (frame.init_data.take sizeof_U2FHID_SYNC_RESP), lastSeq := 0 } 0

/-- The byte count `ndata` that `softu2f_hid_msg_frame_read` takes from an INIT
frame once `msg->bcnt` is set: `sizeof(frame->init.data)` = 57 or `bcnt`. -/
def init_ndata (bcnt : Nat) : Nat := if bcnt > 57 then 57 else bcnt

/-- The byte count `ndata` that `softu2f_hid_msg_frame_read` takes from a CONT
frame: `msg->bcnt - (uint16_t)CFDataGetLength(msg->buf)` as an `unsigned int`
when fewer than `sizeof(frame->cont.data)` = 59 bytes are missing, else 59. -/
def cont_ndata (bcnt : Nat) (buflen : Nat) : Nat :=
  if buflen + 59 > bcnt then (bcnt + 2 ^ 32 - buflen % 65536) % 2 ^ 32 else 59

/-- The function `softu2f_hid_msg_frame_read`. Returns the context, the message
as the call leaves it, and the result. `CFDataAppendBytes(msg->buf, data, ndata)`
appends the first `ndata` bytes of the frame's data area. -/
def softu2f_hid_msg_frame_read (ctx : softu2f_ctx) (msg : softu2f_hid_message)
    (frame : U2FHID_FRAME) : softu2f_ctx × softu2f_hid_message × Bool :=
  if FRAME_TYPE frame = TYPE_INIT then
    if frame.type = U2FHID_SYNC ∧ msg.buf.isSome = true ∧ msg.cid = frame.cid then
      ((softu2f_hid_msg_frame_handle_sync ctx frame).1, msg, false)
    else if msg.buf.isSome = true then
      ((softu2f_hid_err_send ctx frame.cid ERR_CHANNEL_BUSY).1, msg, true)
    else
      let bcnt := MSG_LEN frame % 65536
      let ndata := init_ndata bcnt
      (ctx,
       { msg with cmd := frame.type, cid := frame.cid, bcnt := bcnt,
                  buf := some (frame.init_data.take ndata) },
       true)
  else if FRAME_TYPE frame = TYPE_CONT then
    match msg.buf with
    | none => (ctx, msg, true)
    | some buf =>
      if frame.cid ≠ msg.cid then (ctx, msg, true)
      else if FRAME_SEQ frame ≠ msg.lastSeq then
        ((softu2f_hid_err_send ctx frame.cid ERR_INVALID_SEQ).1,
         { msg with lastSeq := (msg.lastSeq + 1) % 256 }, false)
      else
        let ndata := cont_ndata msg.bcnt buf.length
        (ctx,
         { msg with lastSeq := (msg.lastSeq + 1) % 256,
                    buf := some (buf ++ frame.cont_data.take ndata) },
         true)
  else (ctx, msg, false)

/-- What `IOConnectCallStructMethod(ctx->con, kSoftU2FUserClientGetFrame, ...)`
returns: `kIOReturnNoFrames`, `kIOReturnSuccess` with the output size and the
frame, or any other code. -/
inductive GetFrame where
  | noFrames
  | success (frame_size : Nat) (frame : U2FHID_FRAME)
  | failure (ret : Nat)
deriving DecidableEq, Repr

/-- One pass of the `while (1)` loop of `softu2f_hid_msg_read` as the transport
sees it: what the `GetFrame` call returns and what `time(NULL)` reads during
the pass. -/
structure read_event where
  now : Nat
  ret : GetFrame
deriving DecidableEq, Repr

/-- How one pass of the loop of `softu2f_hid_msg_read` ends: `goto done` (the
message is freed and `NULL` returned), `return msg`, or the next pass with the
message as it stands. -/
inductive read_step where
  | done
  | complete (msg : softu2f_hid_message)
  | next (msg : softu2f_hid_message)
deriving DecidableEq, Repr

/-- The test at the end of the loop body of `softu2f_hid_msg_read`: when the
buffer exists and its length equals `msg->bcnt`, the buffer is copied to
`msg->data`, `msg->buf` is set to `NULL` and the message is returned. -/
def softu2f_hid_msg_read_check (msg : softu2f_hid_message) : read_step :=
  match msg.buf with
  | none => read_step.next msg
  | some buf =>
    if buf.length = msg.bcnt then read_step.complete { msg with data := some buf, buf := none }
    else read_step.next msg

/-- The loop body of `softu2f_hid_msg_read` after the shutdown test, for one
result of `GetFrame`. -/
def softu2f_hid_msg_read_body (ctx : softu2f_ctx) (msg : softu2f_hid_message)
    (ev : read_event) : softu2f_ctx × read_step :=
  match ev.ret with
  | GetFrame.noFrames => (ctx, softu2f_hid_msg_read_check msg)
  | GetFrame.success frame_size frame =>
    if frame_size ≠ HID_RPT_SIZE then (ctx, read_step.done)
    else
      match softu2f_hid_is_unlocked_for_client ctx frame.cid ev.now with
      | (ctx1, false) =>
        ((softu2f_hid_err_send ctx1 frame.cid ERR_CHANNEL_BUSY).1, softu2f_hid_msg_read_check msg)
      | (ctx1, true) =>
        match softu2f_hid_msg_frame_read ctx1 msg frame with
        | (ctx2, _, false) => (ctx2, read_step.done)
        | (ctx2, msg2, true) => (ctx2, softu2f_hid_msg_read_check msg2)
  | GetFrame.failure _ => (ctx, read_step.done)

/-- What a call of `softu2f_hid_msg_read` amounts to on a finite script of
transport events: it returned (a message or `NULL`), or the script ran out while
the loop was still waiting for frames, with the message in flight as shown. -/
inductive read_result where
  | returned (msg : Option softu2f_hid_message)
  | waiting (msg : softu2f_hid_message)
deriving DecidableEq, Repr

/-- The `while (1)` loop of `softu2f_hid_msg_read`, run over the script of
transport events. Returns the context, the outcome and the events not consumed. -/
def softu2f_hid_msg_read_loop :
    List read_event → softu2f_ctx → softu2f_hid_message →
      softu2f_ctx × read_result × List read_event
  | [], ctx, msg =>
    if ctx.shutdown = true then (ctx, read_result.returned none, [])
    else (ctx, read_result.waiting msg, [])
  | ev :: rest, ctx, msg =>
    if ctx.shutdown = true then (ctx, read_result.returned none, ev :: rest)
    else
      match softu2f_hid_msg_read_body ctx msg ev with
      | (ctx1, read_step.done) => (ctx1, read_result.returned none, rest)
      | (ctx1, read_step.complete m) => (ctx1, read_result.returned (some m), rest)
      | (ctx1, read_step.next m) => softu2f_hid_msg_read_loop rest ctx1 m

/-- The function `softu2f_hid_msg_read`: a fresh zeroed message, then the loop.
(The allocation is taken to succeed.) -/
def softu2f_hid_msg_read (ctx : softu2f_ctx) (events : List read_event) :
    softu2f_ctx × read_result × List read_event :=
  softu2f_hid_msg_read_loop events ctx calloc_msg

/-! ## The handler table -/

/-- The function `softu2f_hid_msg_handler_register`. -/
def softu2f_hid_msg_handler_register (ctx : softu2f_ctx) (type : Nat)
    (handler : Option softu2f_hid_message_handler) : softu2f_ctx :=
  if type = U2FHID_PING then { ctx with ping_handler := handler }
  else if type = U2FHID_MSG then { ctx with msg_handler := handler }
  else if type = U2FHID_LOCK then { ctx with lock_handler := handler }
  else if type = U2FHID_INIT then { ctx with init_handler := handler }
  else if type = U2FHID_WINK then { ctx with wink_handler := handler }
  else ctx

/-- The function `softu2f_hid_msg_handler_default`. -/
def softu2f_hid_msg_handler_default (_ctx : softu2f_ctx) (msg : softu2f_hid_message) :
    Option softu2f_hid_message_handler :=
  if msg.cmd = U2FHID_PING then some softu2f_hid_message_handler.handle_ping
  else if msg.cmd = U2FHID_MSG then none
  else if msg.cmd = U2FHID_LOCK then some softu2f_hid_message_handler.handle_lock
  else if msg.cmd = U2FHID_INIT then some softu2f_hid_message_handler.handle_init
  else if msg.cmd = U2FHID_WINK then some softu2f_hid_message_handler.handle_wink
  else none

/-- The slot of the handler table that the `switch` of `softu2f_hid_msg_handler`
reads for a command, `NULL` for a command without a slot. -/
def handler_slot (ctx : softu2f_ctx) (cmd : Nat) : Option softu2f_hid_message_handler :=
  if cmd = U2FHID_PING then ctx.ping_handler
  else if cmd = U2FHID_MSG then ctx.msg_handler
  else if cmd = U2FHID_LOCK then ctx.lock_handler
  else if cmd = U2FHID_INIT then ctx.init_handler
  else if cmd = U2FHID_WINK then ctx.wink_handler
  else none

/-- The function `softu2f_hid_msg_handler`: the non-`NULL` slot of the command,
else the default. -/
def softu2f_hid_msg_handler (ctx : softu2f_ctx) (msg : softu2f_hid_message) :
    Option softu2f_hid_message_handler :=
  match handler_slot ctx msg.cmd with
  | some handler => some handler
  | none => softu2f_hid_msg_handler_default ctx msg

/-! ## The LOCK handler -/

/-- The function `softu2f_hid_msg_handle_lock`, with `now` the value of
`time(NULL)`. The duration is the byte `*CFDataGetBytePtr(req->data)`; a request
without a first payload byte makes that read fall outside the payload, which is
the result `none`. The clamp `*duration = 10` is the local `d`. The response has
`bcnt = 0` and an empty payload, so the sender never reads `seq`. -/
def softu2f_hid_msg_handle_lock (ctx : softu2f_ctx) (req : softu2f_hid_message) (now : Nat) :
    Option (softu2f_ctx × Bool) :=
  match req.data.getD [] with
  | [] => none
  | duration :: _ =>
    let d := if duration > 10 then 10 else duration
    let ctx1 : softu2f_ctx :=
      if d = 0 then
        (match ctx.lock with
         | some _ => { ctx with lock := none }
         | none => ctx)
      else { ctx with lock := some { cid := req.cid, expiration := now + d } }
    some (softu2f_hid_msg_send ctx1
      { cmd := U2FHID_LOCK, cid := req.cid, bcnt := 0, buf := none, data := some [], lastSeq := 0 } 0)

/-! ## The INIT, PING and WINK handlers -/

/-- Modelled from the spec: `INIT_NONCE_SIZE` of the absent header `u2f_hid.h`;
the nonce of an INIT request has 8 bytes (spec section 4.5). -/
def INIT_NONCE_SIZE : Nat := 8

/-- Modelled from the spec: `U2FHID_IF_VERSION` of the absent header `u2f_hid.h`;
the interface version of the U2FHID transport. -/
def U2FHID_IF_VERSION : Nat := 2

/-- Modelled from the spec: `CAPFLAG_WINK` of the absent header `u2f_hid.h`; the
capability flag for WINK support (spec section 4.5). -/
def CAPFLAG_WINK : Nat := 0x01

/-- Modelled from the spec: the struct `U2FHID_INIT_RESP` of the absent header
`u2f_hid.h` (spec section 4.5): the 8-byte nonce, the channel id (`uint32_t`),
the interface, major, minor and build version bytes and the capability flags. -/
structure U2FHID_INIT_RESP where
  nonce : List Nat
  cid : Nat
  versionInterface : Nat
  versionMajor : Nat
  versionMinor : Nat
  versionBuild : Nat
  capFlags : Nat
deriving DecidableEq, Repr

/-- The four bytes of a `uint32_t` in memory, least significant first, as on the
machines the driver runs on. -/
def uint32_bytes (x : Nat) : List Nat :=
  [x % 256, x / 256 % 256, x / 65536 % 256, x / 16777216 % 256]

/-- Modelled from the spec: the bytes of a `U2FHID_INIT_RESP` as
`CFDataCreateWithBytesNoCopy` hands them to the sender; the struct of the
absent header `u2f_hid.h` is packed, fields in declaration order. -/
def U2FHID_INIT_RESP.bytes (r : U2FHID_INIT_RESP) : List Nat :=
  r.nonce ++ uint32_bytes r.cid ++
    [r.versionInterface, r.versionMajor, r.versionMinor, r.versionBuild, r.capFlags]

/-- Modelled from the spec: `sizeof(U2FHID_INIT_RESP)` of the absent header
`u2f_hid.h`: 8 + 4 + 5 bytes. -/
def sizeof_U2FHID_INIT_RESP : Nat := 17

/-- The function `softu2f_hid_msg_handle_init`. The nonce is copied with
`memcpy(resp_data.nonce, req_data->nonce, INIT_NONCE_SIZE)`; a request payload
shorter than that makes the read fall outside the payload, which is the result
`none`. `ctx->next_cid++` is a `uint32_t` increment. The response has 17 bytes,
one frame, so the sender never reads `seq`. -/
def softu2f_hid_msg_handle_init (ctx : softu2f_ctx) (req : softu2f_hid_message) :
    Option (softu2f_ctx × Bool) :=
  let data := req.data.getD []
  if data.length < INIT_NONCE_SIZE then none
  else
    let ctx1 : softu2f_ctx :=
      if req.cid = CID_BROADCAST then { ctx with next_cid := (ctx.next_cid + 1) % 2 ^ 32 }
      else ctx
    let resp_cid := if req.cid = CID_BROADCAST then CID_BROADCAST else req.cid
    let resp_data : U2FHID_INIT_RESP :=
      { nonce := data.take INIT_NONCE_SIZE,
        cid := if req.cid = CID_BROADCAST then ctx.next_cid else req.cid,
        versionInterface := U2FHID_IF_VERSION,
        versionMajor := 0,
        versionMinor := 0,
        versionBuild := 0,
        capFlags := 0 ||| CAPFLAG_WINK }
    some (softu2f_hid_msg_send ctx1
      { cmd := U2FHID_INIT, cid := resp_cid, bcnt := sizeof_U2FHID_INIT_RESP, buf := none,
        data := some resp_data.bytes, lastSeq := 0 } 0)

/-- The function `softu2f_hid_msg_handle_ping`. The response shares the request's
`data` and `bcnt`; `seq` is what the uninitialised local of the sender holds. -/
def softu2f_hid_msg_handle_ping (ctx : softu2f_ctx) (req : softu2f_hid_message) (seq : Nat) :
    softu2f_ctx × Bool :=
  softu2f_hid_msg_send ctx
    { cmd := U2FHID_PING, cid := req.cid, bcnt := req.bcnt, buf := none, data := req.data,
      lastSeq := 0 } seq

/-- The function `softu2f_hid_msg_handle_wink`. -/
def softu2f_hid_msg_handle_wink (ctx : softu2f_ctx) (req : softu2f_hid_message) (seq : Nat) :
    softu2f_ctx × Bool :=
  softu2f_hid_msg_send ctx
    { cmd := U2FHID_WINK, cid := req.cid, bcnt := req.bcnt, buf := none, data := req.data,
      lastSeq := 0 } seq

/-! ## The run loop -/

/-- What `softu2f_run` cannot see in the context: the handlers of the embedding
application by address, the value the uninitialised `seq` of the sender holds
while pass `n` of the loop handles its message, and what `time(NULL)` reads
then. -/
structure run_env where
  external : Nat → softu2f_ctx → softu2f_hid_message → softu2f_ctx × Bool
  seq : Nat → Nat
  now : Nat → Nat

/-- The call `handler(ctx, hidmsg)` through a handler pointer, in pass `n`. The
result `none` is a built-in handler reading outside the request payload. -/
def call_handler (env : run_env) (n : Nat) (handler : softu2f_hid_message_handler)
    (ctx : softu2f_ctx) (hidmsg : softu2f_hid_message) : Option (softu2f_ctx × Bool) :=
  match handler with
  | softu2f_hid_message_handler.handle_ping =>
    some (softu2f_hid_msg_handle_ping ctx hidmsg (env.seq n))
  | softu2f_hid_message_handler.handle_lock =>
    softu2f_hid_msg_handle_lock ctx hidmsg (env.now n)
  | softu2f_hid_message_handler.handle_init => softu2f_hid_msg_handle_init ctx hidmsg
  | softu2f_hid_message_handler.handle_wink =>
    some (softu2f_hid_msg_handle_wink ctx hidmsg (env.seq n))
  | softu2f_hid_message_handler.external addr => some (env.external addr ctx hidmsg)

/-- The block `if (hidmsg) { ... }` of `softu2f_run`: look the handler up and call
it, ignoring its result, or send `ERR_OTHER` when there is none. -/
def softu2f_run_dispatch (env : run_env) (n : Nat) (ctx : softu2f_ctx)
    (hidmsg : softu2f_hid_message) : Option softu2f_ctx :=
  match softu2f_hid_msg_handler ctx hidmsg with
  | some handler =>
    (match call_handler env n handler ctx hidmsg with
     | some (ctx1, _) => some ctx1
     | none => none)
  | none => some (softu2f_hid_err_send ctx hidmsg.cid ERR_OTHER).1

/-- How one pass of the `while (true)` loop of `softu2f_run` ends, after the
shutdown test: the loop goes on to the next test with the events left, or the
script ran out inside `softu2f_hid_msg_read`, or a handler read outside the
request payload. -/
inductive run_step where
  | next (ctx : softu2f_ctx) (events : List read_event)
  | blocked (ctx : softu2f_ctx) (msg : softu2f_hid_message)
  | fault
deriving DecidableEq, Repr

/-- One pass of the loop of `softu2f_run` after the shutdown test. -/
def softu2f_run_body (env : run_env) (n : Nat) (ctx : softu2f_ctx)
    (events : List read_event) : run_step :=
  match softu2f_hid_msg_read ctx events with
  | (ctx1, read_result.returned (some hidmsg), rest) =>
    (match softu2f_run_dispatch env n ctx1 hidmsg with
     | some ctx2 => run_step.next ctx2 rest
     | none => run_step.fault)
  | (ctx1, read_result.returned none, rest) => run_step.next ctx1 rest
  | (ctx1, read_result.waiting msg, _) => run_step.blocked ctx1 msg

/-- The state of the run loop on a finite script: `Stopped` when the loop was
left through `break`, `Running` when the script ran out with the loop waiting
inside `softu2f_hid_msg_read`; `fault` when a handler read outside the request
payload; `unfinished` when the bound on the passes was used up, which
`softu2f_run` never does (`softu2f_run_loop_fuel`). -/
inductive run_state where
  | Stopped (ctx : softu2f_ctx) (events : List read_event)
  | Running (ctx : softu2f_ctx) (msg : softu2f_hid_message)
  | fault
  | unfinished
deriving DecidableEq, Repr

/-- The `while (true)` loop of `softu2f_run` from pass `n` on, at most `fuel`
passes. -/
def softu2f_run_loop (env : run_env) :
    Nat → Nat → softu2f_ctx → List read_event → run_state
  | 0, _, _, _ => run_state.unfinished
  | fuel + 1, n, ctx, events =>
    if ctx.shutdown = true then run_state.Stopped ctx events
    else
      match softu2f_run_body env n ctx events with
      | run_step.next ctx1 rest => softu2f_run_loop env fuel (n + 1) ctx1 rest
      | run_step.blocked ctx1 msg => run_state.Running ctx1 msg
      | run_step.fault => run_state.fault

/-- The function `softu2f_run` on a script of transport events. Every pass that
goes on to the next consumes an event, so one pass more than there are events
is enough. -/
def softu2f_run (env : run_env) (ctx : softu2f_ctx) (events : List read_event) : run_state :=
  softu2f_run_loop env (events.length + 1) 0 ctx events

/-! ## Frames as the specification describes them

These are not translations of source functions: they spell out, field by field,
the frames that the theorems below compare the sender's output with. -/

/-- The INIT frame for a payload: the tag byte is the command with the INIT bit
set, the two length bytes are as `softu2f_hid_msg_send` computes them, and the
57-byte data area holds the first bytes of the payload followed by zeros. -/
def init_frame (cid cmd : Nat) (payload : List Nat) : U2FHID_FRAME :=
  { cid := cid,
    type := (0 ||| TYPE_INIT) ||| cmd,
    body := (payload.length <<< 8) % 256 :: (payload.length &&& 0xff) ::
      (payload.take 57 ++ List.replicate (57 - payload.length) 0) }

/-- The `k`-th CONT frame (counting from 0) for a payload, when the local `seq`
of the sender held `seq` on entry: payload bytes from offset `57 + 59 * k` on,
at most 59 of them, followed by zeros. -/
def cont_frame (cid seq : Nat) (payload : List Nat) (k : Nat) : U2FHID_FRAME :=
  { cid := cid,
    type := (seq + k) % 256,
    body := (payload.drop (57 + 59 * k)).take 59 ++
      List.replicate (59 - (payload.length - (57 + 59 * k))) 0 }

/-- The number of CONT frames a payload of length `len` needs:
`ceil ((len - 57) / 59)`, which is 0 up to 57 bytes. -/
def cont_count (len : Nat) : Nat := (len - 57 + 58) / 59

/-- The frames of a message in order: the INIT frame, then the CONT frames. -/
def message_frames (cid cmd seq : Nat) (payload : List Nat) : List U2FHID_FRAME :=
  init_frame cid cmd payload ::
    (List.range (cont_count payload.length)).map (cont_frame cid seq payload)

/-- The error response of spec section 6: an INIT-type frame with command ERROR,
declared length 1, the error code as the only payload byte, zeros after it. -/
def error_frame (cid code : Nat) : U2FHID_FRAME :=
  { cid := cid, type := U2FHID_ERROR, body := [0, 1, code] ++ List.replicate 56 0 }

/-- A transport on which every coming `kSoftU2FUserClientSendFrame` call succeeds. -/
def accepts_all (ctx : softu2f_ctx) : Prop := ∀ b ∈ ctx.send_results, b = true

/-- The context after `n` more frames went out on an accepting transport. -/
def after_sending (ctx : softu2f_ctx) (frames : List U2FHID_FRAME) : softu2f_ctx :=
  { ctx with sent := ctx.sent ++ frames, send_results := ctx.send_results.drop frames.length }

/-- The script in which the transport delivers the given frames one by one, each
with the full report size, all at time `now`. -/
def deliver (now : Nat) (frames : List U2FHID_FRAME) : List read_event :=
  frames.map (fun f => { now := now, ret := GetFrame.success HID_RPT_SIZE f })

/-! ## Concrete inputs -/

/-- A PING message on channel 1 with the payload size of the repository's test
`test_really_long_ping`: 481 bytes (480 characters and the terminating zero). -/
def really_long_ping : softu2f_hid_message :=
  { cmd := U2FHID_PING, cid := 1, bcnt := 481, buf := none,
    data := some ((List.range 481).map (fun i => (i * 7 + 3) % 256)), lastSeq := 0 }

/-- A PING message on channel 1 with 7610 payload bytes: one more byte than an
INIT frame and 128 CONT frames carry, so it needs 129 CONT frames. -/
def ping_7610 : softu2f_hid_message :=
  { cmd := U2FHID_PING, cid := 1, bcnt := 7610, buf := none,
    data := some (List.replicate 7610 0), lastSeq := 0 }

/-- A fresh context in which channel 7 holds the lock until time 100. -/
def ctx_locked_7 : softu2f_ctx :=
  { softu2f_init with lock := some { cid := 7, expiration := 100 } }

/-- The LOCK response: an INIT-type frame with command LOCK on channel `cid`,
declared length 0 and an all-zero data area. -/
def lock_response_frame (cid : Nat) : U2FHID_FRAME :=
  { cid := cid, type := U2FHID_LOCK, body := List.replicate 59 0 }

/-- A LOCK request on channel `cid` whose payload is the one byte `duration`. -/
def lock_request (cid duration : Nat) : softu2f_hid_message :=
  { cmd := U2FHID_LOCK, cid := cid, bcnt := 1, buf := none, data := some [duration], lastSeq := 0 }

/-- A message in flight on channel 7: a PING that declared 100 bytes, of which
the INIT frame brought three. -/
def in_flight_7 : softu2f_hid_message :=
  { cmd := U2FHID_PING, cid := 7, bcnt := 100, buf := some [1, 2, 3], data := none, lastSeq := 0 }

/-- An INIT frame with command SYNC on channel 7, declared length 1, nonce 0x5a. -/
def sync_frame_7 : U2FHID_FRAME :=
  { cid := 7, type := U2FHID_SYNC, body := [0, 1, 0x5a] ++ List.replicate 56 0 }

/-- The SYNC response to `sync_frame_7`: command SYNC on channel 7, declared
length 1, the nonce echoed. -/
def sync_response_7 : U2FHID_FRAME :=
  { cid := 7, type := U2FHID_SYNC, body := [0, 1, 0x5a] ++ List.replicate 56 0 }

/-- An INIT frame with command PING on channel 9 that declares 2 bytes. -/
def ping_frame_9 : U2FHID_FRAME :=
  { cid := 9, type := U2FHID_PING, body := [0, 2, 0x68, 0x69] ++ List.replicate 55 0 }

/-- A CONT frame on channel 7 with sequence number 5. -/
def cont_frame_7_seq5 : U2FHID_FRAME :=
  { cid := 7, type := 5, body := List.replicate 59 0xaa }

/-- An INIT frame with command PING on channel 7 that declares 2 bytes. -/
def ping_frame_7 : U2FHID_FRAME :=
  { cid := 7, type := U2FHID_PING, body := [0, 2, 0x68, 0x69] ++ List.replicate 55 0 }

/-- Two contexts that differ at most in the connection: same channel counter,
lock, shutdown flag and handler slots. -/
def same_device (a b : softu2f_ctx) : Prop :=
  a.next_cid = b.next_cid ∧ a.lock = b.lock ∧ a.shutdown = b.shutdown ∧
  a.ping_handler = b.ping_handler ∧ a.msg_handler = b.msg_handler ∧
  a.lock_handler = b.lock_handler ∧ a.init_handler = b.init_handler ∧
  a.wink_handler = b.wink_handler

/-- The INIT response of spec section 4.5 for a request payload and an assigned
channel id: the first 8 payload bytes as nonce, the channel id, interface
version `U2FHID_IF_VERSION`, version 0.0.0, and the WINK capability alone. -/
def init_response (assigned : Nat) (payload : List Nat) : U2FHID_INIT_RESP :=
  { nonce := payload.take 8, cid := assigned, versionInterface := U2FHID_IF_VERSION,
    versionMajor := 0, versionMinor := 0, versionBuild := 0, capFlags := CAPFLAG_WINK }

/-- An INIT request on channel `cid` with the 8-byte nonce of the repository's
test `test_init`. -/
def init_request (cid : Nat) : softu2f_hid_message :=
  { cmd := U2FHID_INIT, cid := cid, bcnt := 8, buf := none,
    data := some [0x11, 0x22, 0x33, 0x44, 0x55, 0x66, 0x77, 0x88], lastSeq := 0 }

/-- A PING request on channel 7 with the 6-byte payload of the repository's test
`test_ping` ("hello" and the terminating zero). -/
def ping_hello : softu2f_hid_message :=
  { cmd := U2FHID_PING, cid := 7, bcnt := 6, buf := none,
    data := some [0x68, 0x65, 0x6c, 0x6c, 0x6f, 0], lastSeq := 0 }

/-- A context with no handler registered in any of the five slots. -/
def no_handlers (ctx : softu2f_ctx) : Prop :=
  ctx.ping_handler = none ∧ ctx.msg_handler = none ∧ ctx.lock_handler = none ∧
  ctx.init_handler = none ∧ ctx.wink_handler = none

/-- The context `softu2f_init` returns, on a connection whose coming send
results are `results`. -/
def fresh_ctx (results : List Bool) : softu2f_ctx :=
  { softu2f_init with send_results := results }

/-- Complete messages handled one after another by the dispatch block of
`softu2f_run`, in passes `n`, `n + 1`, ...; `none` when a handler reads outside
a request payload. -/
def handle_messages (env : run_env) :
    Nat → softu2f_ctx → List softu2f_hid_message → Option softu2f_ctx
  | _, ctx, [] => some ctx
  | n, ctx, m :: ms =>
    match softu2f_run_dispatch env n ctx m with
    | some ctx1 => handle_messages env (n + 1) ctx1 ms
    | none => none

/-- The number of INIT requests on the broadcast channel among the messages. -/
def broadcast_inits (ms : List softu2f_hid_message) : Nat :=
  (ms.filter (fun m => decide (m.cmd = U2FHID_INIT ∧ m.cid = CID_BROADCAST))).length

/-- The `uint32_t` that four bytes in memory hold, least significant first. -/
def uint32_of_bytes (bs : List Nat) : Nat :=
  bs.getD 0 0 + 256 * bs.getD 1 0 + 65536 * bs.getD 2 0 + 16777216 * bs.getD 3 0

/-- The channel id a client is told in answer to an INIT request: the channel-id
field (payload bytes 8-11) of the response frame that
`softu2f_hid_msg_handle_init` sends, `none` when the handler reads outside the
request payload. -/
def assigned_cid (ctx : softu2f_ctx) (req : softu2f_hid_message) : Option Nat :=
  match softu2f_hid_msg_handle_init ctx req with
  | none => none
  | some (ctx1, _) =>
    ctx1.sent.getLast?.map (fun f => uint32_of_bytes ((f.init_data.drop 8).take 4))

/-- An environment without external handlers in use: `seq` holds 0 and the clock
reads 0. -/
def quiet_env : run_env :=
  { external := fun _ ctx _ => (ctx, true), seq := fun _ => 0, now := fun _ => 0 }

/-- The fresh context after it has handled the broadcast INIT request of
`test_init` and then the PING of `test_ping`: the two responses went out and
the channel counter is 1. -/
def ctx_after_init_and_ping : softu2f_ctx :=
  { softu2f_init with
    sent := [init_frame CID_BROADCAST U2FHID_INIT
               (init_response 0 [0x11, 0x22, 0x33, 0x44, 0x55, 0x66, 0x77, 0x88]).bytes,
             init_frame 7 U2FHID_PING [0x68, 0x65, 0x6c, 0x6c, 0x6f, 0]],
    next_cid := 1 }

/-- A CONT frame on channel 9 with sequence number 0. -/
def cont_frame_9_seq0 : U2FHID_FRAME :=
  { cid := 9, type := 0, body := List.replicate 59 0xbb }

/-- An INIT frame with command SYNC on channel 9, declared length 1, nonce 0x5a. -/
def sync_frame_9 : U2FHID_FRAME :=
  { cid := 9, type := U2FHID_SYNC, body := [0, 1, 0x5a] ++ List.replicate 56 0 }

/-- A frame as the transport delivers it in a 64-byte report: a 32-bit channel
id, a tag byte and 59 further bytes. -/
def U2FHID_FRAME.wf (f : U2FHID_FRAME) : Prop :=
  f.cid < 2 ^ 32 ∧ f.type < 256 ∧ f.body.length = 59 ∧ ∀ b ∈ f.body, b < 256

/-- An INIT frame with command PING on channel 7 that declares 100 bytes and
carries the first 57. -/
def long_ping_frame_7 : U2FHID_FRAME :=
  { cid := 7, type := U2FHID_PING, body := [0, 100] ++ List.replicate 57 0x61 }

/-- An INIT frame with command MSG on channel 7 that declares 1 byte. -/
def msg_frame_7 : U2FHID_FRAME :=
  { cid := 7, type := U2FHID_MSG, body := [0, 1, 0x42] ++ List.replicate 56 0 }

/-- The complete MSG message that `msg_frame_7` carries. -/
def msg_message_7 : softu2f_hid_message :=
  { cmd := U2FHID_MSG, cid := 7, bcnt := 1, buf := none, data := some [0x42], lastSeq := 0 }

/-- A script in which the first `GetFrame` call fails with `kIOReturnError` and
the second delivers `ping_frame_7`. -/
def failure_then_ping : List read_event :=
  [{ now := 0, ret := GetFrame.failure 0xe00002bc },
   { now := 5, ret := GetFrame.success HID_RPT_SIZE ping_frame_7 }]

/-- Frames fed one after another to `softu2f_hid_msg_frame_read`, each call
getting the context and the message the call before left, whatever that call
reported. -/
def feed_frames :
    softu2f_ctx → softu2f_hid_message → List U2FHID_FRAME → softu2f_ctx × softu2f_hid_message
  | ctx, msg, [] => (ctx, msg)
  | ctx, msg, frame :: frames =>
    feed_frames (softu2f_hid_msg_frame_read ctx msg frame).1
      (softu2f_hid_msg_frame_read ctx msg frame).2.1 frames

/-- The bound that reassembly keeps: a buffer, when there is one, is no longer
than the declared length, and the declared length fits a `uint16_t`. -/
def within_declared (msg : softu2f_hid_message) : Prop :=
  ∀ buf, msg.buf = some buf → buf.length ≤ msg.bcnt ∧ msg.bcnt < 65536

/-- An INIT frame with command LOCK on channel 7 that declares 0 bytes. -/
def empty_lock_frame_7 : U2FHID_FRAME :=
  { cid := 7, type := U2FHID_LOCK, body := List.replicate 59 0 }

/-- The complete LOCK message that `empty_lock_frame_7` carries: no payload. -/
def empty_lock_message_7 : softu2f_hid_message :=
  { cmd := U2FHID_LOCK, cid := 7, bcnt := 0, buf := none, data := some [], lastSeq := 0 }

/-- An INIT frame with command INIT on the broadcast channel that declares 3
bytes. -/
def short_init_frame : U2FHID_FRAME :=
  { cid := CID_BROADCAST, type := U2FHID_INIT,
    body := [0, 3, 0x11, 0x22, 0x33] ++ List.replicate 54 0 }

/-- The complete INIT message that `short_init_frame` carries: 3 payload bytes. -/
def short_init_message : softu2f_hid_message :=
  { cmd := U2FHID_INIT, cid := CID_BROADCAST, bcnt := 3, buf := none,
    data := some [0x11, 0x22, 0x33], lastSeq := 0 }

/-! ## Basic facts about the transport and the sender -/

theorem SendFrame_sent (ctx : softu2f_ctx) (f : U2FHID_FRAME) :
    (SendFrame ctx f).1.sent = ctx.sent ++ [f] := by
  unfold SendFrame
  split <;> rfl

theorem SendFrame_lock (ctx : softu2f_ctx) (f : U2FHID_FRAME) :
    (SendFrame ctx f).1.lock = ctx.lock := by
  unfold SendFrame
  split <;> rfl

theorem SendFrame_next_cid (ctx : softu2f_ctx) (f : U2FHID_FRAME) :
    (SendFrame ctx f).1.next_cid = ctx.next_cid := by
  unfold SendFrame
  split <;> rfl

theorem SendFrame_shutdown (ctx : softu2f_ctx) (f : U2FHID_FRAME) :
    (SendFrame ctx f).1.shutdown = ctx.shutdown := by
  unfold SendFrame
  split <;> rfl

theorem SendFrame_accepts (ctx : softu2f_ctx) (f : U2FHID_FRAME) (h : accepts_all ctx) :
    SendFrame ctx f = (after_sending ctx [f], true) := by
  obtain ⟨sent, res, nc, lk, sd, h1, h2, h3, h4, h5⟩ := ctx
  cases res with
  | nil => rfl
  | cons r rs =>
    have hr : r = true := h r (by simp)
    subst hr
    rfl

theorem after_sending_accepts (ctx : softu2f_ctx) (fs : List U2FHID_FRAME)
    (h : accepts_all ctx) : accepts_all (after_sending ctx fs) := by
  intro b hb
  exact h b (List.mem_of_mem_drop hb)

theorem after_sending_append (ctx : softu2f_ctx) (fs gs : List U2FHID_FRAME) :
    after_sending (after_sending ctx fs) gs = after_sending ctx (fs ++ gs) := by
  simp [after_sending, List.drop_drop, Nat.add_comm]

theorem init_body_zeroed (a b : Nat) :
    ((List.replicate 59 0).set 0 a).set 1 b = a :: b :: List.replicate 57 0 := by
  rfl

theorem memcpy_init (a b : Nat) (rest bytes : List Nat) :
    memcpy (a :: b :: rest) 2 bytes = a :: b :: (bytes ++ rest.drop bytes.length) := by
  simp [memcpy, Nat.add_comm 2]

theorem memcpy_cont (body bytes : List Nat) :
    memcpy body 0 bytes = bytes ++ body.drop bytes.length := by
  simp [memcpy]

/-- The first pass of the loop builds the INIT frame of the specification. -/
theorem first_frame_eq (cid cmd : Nat) (payload : List Nat) :
    ({ cid := cid, type := (0 ||| TYPE_INIT) ||| cmd,
       body := memcpy (((List.replicate 59 0).set 0 ((payload.length <<< 8) % 256)).set 1
                 (payload.length &&& 0xff)) 2
                 (payload.take (if payload.length > 59 - 2 then 59 - 2 else payload.length)) }
      : U2FHID_FRAME) = init_frame cid cmd payload := by
  rw [init_body_zeroed, memcpy_init]
  unfold init_frame
  congr 3
  by_cases h : payload.length > 57
  · have h1 : (59 - 2 : Nat) = 57 := rfl
    simp only [h1, h, if_true, List.length_take, List.drop_replicate]
    congr 2
    omega
  · have h1 : (59 - 2 : Nat) = 57 := rfl
    have h2 : payload.length ≤ 57 := by omega
    simp only [h1, h, if_false, List.length_take, List.drop_replicate]
    rw [List.take_of_length_le (le_refl _), List.take_of_length_le h2]
    congr 2
    omega

/-- A message of at most 57 payload bytes goes out as one INIT frame, whatever
the transport answers and whatever the uninitialised `seq` holds. -/
theorem softu2f_hid_msg_send_short (ctx : softu2f_ctx) (msg : softu2f_hid_message)
    (payload : List Nat) (seq : Nat) (hdata : msg.data = some payload)
    (hlen : payload.length ≤ 57) :
    softu2f_hid_msg_send ctx msg seq = SendFrame ctx (init_frame msg.cid msg.cmd payload) := by
  unfold softu2f_hid_msg_send
  simp only [hdata, Option.getD_some]
  unfold softu2f_hid_msg_send_loop
  simp only [first_frame_eq]
  have hdrop : (payload.drop (if payload.length > 59 - 2 then 59 - 2 else payload.length)).length = 0 := by
    have : ¬ payload.length > 59 - 2 := by omega
    simp [this]
  rcases hs : SendFrame ctx (init_frame msg.cid msg.cmd payload) with ⟨c1, r⟩
  cases r <;> simp [hdrop]

/-- The local `seq` of the sender is not read for a message that fits one frame. -/
theorem softu2f_hid_msg_send_seq_unread (ctx : softu2f_ctx) (msg : softu2f_hid_message)
    (payload : List Nat) (s t : Nat) (hdata : msg.data = some payload)
    (hlen : payload.length ≤ 57) :
    softu2f_hid_msg_send ctx msg s = softu2f_hid_msg_send ctx msg t := by
  rw [softu2f_hid_msg_send_short ctx msg payload s hdata hlen,
    softu2f_hid_msg_send_short ctx msg payload t hdata hlen]

theorem softu2f_hid_err_send_eq (ctx : softu2f_ctx) (cid code : Nat) :
    softu2f_hid_err_send ctx cid code = SendFrame ctx (error_frame cid code) := by
  unfold softu2f_hid_err_send
  rw [softu2f_hid_msg_send_short ctx _ [code] 0 rfl (by simp)]
  have h : init_frame cid U2FHID_ERROR [code] = error_frame cid code := by
    simp [init_frame, error_frame, U2FHID_ERROR, TYPE_INIT, List.replicate]
  exact congrArg (SendFrame ctx) h

theorem cont_body_eq (src : List Nat) :
    memcpy (List.replicate 59 0) 0
        (src.take (if src.length > 59 - 0 then 59 - 0 else src.length)) =
      src.take 59 ++ List.replicate (59 - src.length) 0 := by
  rw [memcpy_cont]
  by_cases h : src.length > 59
  · simp only [Nat.sub_zero, h, if_true, List.length_take, List.drop_replicate]
    congr 2
    omega
  · have h2 : src.length ≤ 59 := by omega
    simp only [Nat.sub_zero, h, if_false, List.length_take, List.drop_replicate]
    rw [List.take_of_length_le (le_refl _), List.take_of_length_le h2]
    congr 2
    omega

theorem softu2f_hid_msg_send_loop_cont (cid s : Nat) (payload : List Nat) :
    ∀ (fuel : Nat) (ctx : softu2f_ctx) (k : Nat), accepts_all ctx →
      57 + 59 * k < payload.length → payload.length ≤ 57 + 59 * (k + fuel) →
      softu2f_hid_msg_send_loop fuel ctx
          { cid := cid, type := (s + k) % 256, body := List.replicate 59 0 } 0 59
          (payload.drop (57 + 59 * k)) ((s + k + 1) % 256) =
        (after_sending ctx
          ((List.range' k (cont_count payload.length - k)).map (cont_frame cid s payload)),
         true) := by
  intro fuel
  induction fuel with
  | zero => intro ctx k _ h1 h2; omega
  | succ fuel ih =>
    intro ctx k hacc h1 h2
    unfold softu2f_hid_msg_send_loop
    simp only [cont_body_eq]
    have hframe : U2FHID_FRAME.mk cid ((s + k) % 256)
        ((payload.drop (57 + 59 * k)).take 59 ++
          List.replicate (59 - (payload.drop (57 + 59 * k)).length) 0) =
        cont_frame cid s payload k := by
      simp [cont_frame]
    rw [hframe, SendFrame_accepts ctx _ hacc]
    simp only []
    by_cases hlast : payload.length ≤ 57 + 59 * (k + 1)
    · have hcnt : cont_count payload.length - k = 1 := by unfold cont_count; omega
      have hz : (List.drop (if (payload.drop (57 + 59 * k)).length > 59 - 0 then 59 - 0
          else (payload.drop (57 + 59 * k)).length) (payload.drop (57 + 59 * k))).length = 0 := by
        simp only [List.length_drop]
        split <;> omega
      rw [if_pos hz, hcnt]
      simp
    · have hcnt : cont_count payload.length - k = (cont_count payload.length - (k + 1)) + 1 := by
        unfold cont_count; omega
      have hgt : (payload.drop (57 + 59 * k)).length > 59 - 0 := by
        rw [List.length_drop]; omega
      have hnz : ¬ (List.drop (59 - 0) (payload.drop (57 + 59 * k))).length = 0 := by
        rw [List.length_drop, List.length_drop]; omega
      simp only [hgt, if_true, hnz, if_false]
      have hd : List.drop (59 - 0) (payload.drop (57 + 59 * k)) = payload.drop (57 + 59 * (k + 1)) := by
        have e : 57 + 59 * k + (59 - 0) = 57 + 59 * (k + 1) := by omega
        rw [List.drop_drop, e]
      have ht : (s + k + 1) % 256 % 256 = (s + (k + 1)) % 256 := by omega
      have hs : ((s + k + 1) % 256 + 1) % 256 = (s + (k + 1) + 1) % 256 := by omega
      have hrec := ih (after_sending ctx [cont_frame cid s payload k]) (k + 1)
        (after_sending_accepts ctx _ hacc) (by omega) (by omega)
      rw [hd, hs]
      simp only [cont_frame, ht] at hrec ⊢
      rw [hrec, after_sending_append, hcnt, List.range'_succ]
      simp [cont_frame]

/-- The bound on the loop of the sender is never reached: with at least
`src.length + 1` passes allowed, allowing more changes nothing, whatever the
transport answers. So the result `false` of `softu2f_hid_msg_send` always comes
from a failed `kSoftU2FUserClientSendFrame` call. -/
theorem softu2f_hid_msg_send_loop_fuel (extra : Nat) :
    ∀ (fuel : Nat) (ctx : softu2f_ctx) (frame : U2FHID_FRAME) (dst : Nat) (src : List Nat)
      (seq : Nat), dst < 59 → src.length + 1 ≤ fuel →
      softu2f_hid_msg_send_loop (fuel + extra) ctx frame dst 59 src seq =
        softu2f_hid_msg_send_loop fuel ctx frame dst 59 src seq := by
  intro fuel
  induction fuel with
  | zero => intro ctx frame dst src seq _ h; omega
  | succ fuel ih =>
    intro ctx frame dst src seq hdst hfuel
    have hsucc : fuel + 1 + extra = (fuel + extra) + 1 := by omega
    rw [hsucc, softu2f_hid_msg_send_loop, softu2f_hid_msg_send_loop]
    simp only []
    rcases SendFrame ctx _ with ⟨c1, r⟩
    cases r with
    | false => rfl
    | true =>
      simp only []
      by_cases hz : (List.drop (if src.length > 59 - dst then 59 - dst else src.length)
          src).length = 0
      · rw [if_pos hz, if_pos hz]
      · rw [if_neg hz, if_neg hz]
        apply ih
        · omega
        · rw [List.length_drop] at hz ⊢
          by_cases hgt : src.length > 59 - dst
          · rw [if_pos hgt] at hz ⊢
            omega
          · rw [if_neg hgt] at hz
            omega

/-- The sequence number read from a frame is below 128. -/
theorem FRAME_SEQ_lt (f : U2FHID_FRAME) : FRAME_SEQ f < 128 := by
  unfold FRAME_SEQ
  exact Nat.lt_succ_of_le Nat.and_le_right

/-- On an accepting transport the sender emits exactly the frames of the message. -/
theorem softu2f_hid_msg_send_accepts (ctx : softu2f_ctx) (msg : softu2f_hid_message)
    (payload : List Nat) (seq : Nat) (hdata : msg.data = some payload)
    (hacc : accepts_all ctx) :
    softu2f_hid_msg_send ctx msg seq =
      (after_sending ctx (message_frames msg.cid msg.cmd seq payload), true) := by
  by_cases hlen : payload.length ≤ 57
  · rw [softu2f_hid_msg_send_short ctx msg payload seq hdata hlen, SendFrame_accepts ctx _ hacc]
    have hc : cont_count payload.length = 0 := by unfold cont_count; omega
    simp [message_frames, hc]
  · unfold softu2f_hid_msg_send
    simp only [hdata, Option.getD_some]
    rw [softu2f_hid_msg_send_loop]
    simp only [first_frame_eq]
    rw [SendFrame_accepts ctx _ hacc]
    simp only []
    have hgt : payload.length > 59 - 2 := by omega
    have hnz : ¬ (List.drop (59 - 2) payload).length = 0 := by
      rw [List.length_drop]; omega
    simp only [hgt, if_true, hnz, if_false]
    have hrec := softu2f_hid_msg_send_loop_cont msg.cid seq payload payload.length
      (after_sending ctx [init_frame msg.cid msg.cmd payload]) 0
      (after_sending_accepts ctx _ hacc) (by omega) (by omega)
    simp only [Nat.mul_zero, Nat.add_zero, Nat.sub_zero] at hrec
    have h57 : (59 - 2 : Nat) = 57 := rfl
    rw [h57, hrec, after_sending_append]
    simp [message_frames, List.range_eq_range']

theorem type_init_lor_mask (c : Nat) : ((0 ||| TYPE_INIT) ||| c) &&& TYPE_MASK = TYPE_INIT := by
  unfold TYPE_INIT TYPE_MASK
  apply Nat.eq_of_testBit_eq
  intro i
  simp only [Nat.testBit_land, Nat.testBit_lor, Nat.zero_or]
  have : (128 : Nat) = 2 ^ 7 := by norm_num
  rw [this, Nat.testBit_two_pow]
  by_cases h : 7 = i <;> simp [h]

theorem type_init_lor_low (c : Nat) : ((0 ||| TYPE_INIT) ||| c) &&& 0x7f = c &&& 0x7f := by
  unfold TYPE_INIT
  apply Nat.eq_of_testBit_eq
  intro i
  simp only [Nat.testBit_land, Nat.testBit_lor, Nat.zero_or]
  have h128 : (128 : Nat) = 2 ^ 7 := by norm_num
  have h127 : (127 : Nat) = 2 ^ 7 - 1 := by norm_num
  rw [h128, h127, Nat.testBit_two_pow, Nat.testBit_two_pow_sub_one]
  by_cases h : 7 = i
  · subst h; simp
  · simp [h]

/-- C4. On a transport that accepts every frame, `softu2f_hid_msg_send` emits for a
payload of length `L` exactly one frame when `L <= 57` and exactly
`1 + ceil ((L - 57) / 59)` frames otherwise. The first frame is an INIT frame with
the message's channel id whose tag byte is the message's command with the INIT
bit set, and whose data area starts with payload bytes `[0, min L 57)`. The
`k`-th following frame has the same channel id and its data area starts with
payload bytes `[57 + 59 k, min L (57 + 59 (k + 1)))`. -/
theorem softu2f_hid_msg_send_frames (ctx : softu2f_ctx) (msg : softu2f_hid_message)
    (payload : List Nat) (seq : Nat) (hdata : msg.data = some payload)
    (hacc : accepts_all ctx) :
    ∃ frames : List U2FHID_FRAME,
      (softu2f_hid_msg_send ctx msg seq).2 = true ∧
      (softu2f_hid_msg_send ctx msg seq).1.sent = ctx.sent ++ frames ∧
      frames.length =
        (if payload.length ≤ 57 then 1 else 1 + (payload.length - 57 + 58) / 59) ∧
      (∃ f0, frames[0]? = some f0 ∧ f0.cid = msg.cid ∧ FRAME_TYPE f0 = TYPE_INIT ∧
        f0.type = TYPE_INIT ||| msg.cmd ∧ f0.type &&& 0x7f = msg.cmd &&& 0x7f ∧
        payload.take 57 <+: f0.init_data) ∧
      (∀ k, k + 1 < frames.length →
        ∃ f, frames[k + 1]? = some f ∧ f.cid = msg.cid ∧
          (payload.drop (57 + 59 * k)).take 59 <+: f.cont_data) := by
  refine ⟨message_frames msg.cid msg.cmd seq payload, ?_, ?_, ?_, ?_, ?_⟩
  · rw [softu2f_hid_msg_send_accepts ctx msg payload seq hdata hacc]
  · rw [softu2f_hid_msg_send_accepts ctx msg payload seq hdata hacc]
    rfl
  · simp only [message_frames, List.length_cons, List.length_map, List.length_range, cont_count]
    split <;> omega
  · refine ⟨init_frame msg.cid msg.cmd payload, ?_, rfl, ?_, ?_, ?_, ?_⟩
    · simp [message_frames]
    · exact type_init_lor_mask msg.cmd
    · simp [init_frame]
    · exact type_init_lor_low msg.cmd
    · simp [init_frame, U2FHID_FRAME.init_data]
  · intro k hk
    simp only [message_frames, List.length_cons, List.length_map, List.length_range] at hk
    refine ⟨cont_frame msg.cid seq payload k, ?_, rfl, ?_⟩
    · simp only [message_frames, List.getElem?_cons_succ, List.getElem?_map]
      rw [List.getElem?_range (by omega)]
      rfl
    · simp [cont_frame, U2FHID_FRAME.cont_data]

/-- Witness for `softu2f_hid_msg_send_frames`: the 481-byte PING of
`test_really_long_ping` on a fresh context goes out as 9 frames. -/
theorem softu2f_hid_msg_send_frames_witness :
    really_long_ping.data = some ((List.range 481).map (fun i => (i * 7 + 3) % 256)) ∧
    accepts_all softu2f_init ∧
    ∃ frames : List U2FHID_FRAME,
      (softu2f_hid_msg_send softu2f_init really_long_ping 0).2 = true ∧
      (softu2f_hid_msg_send softu2f_init really_long_ping 0).1.sent =
        softu2f_init.sent ++ frames ∧
      frames.length =
        (if ((List.range 481).map (fun i => (i * 7 + 3) % 256)).length ≤ 57 then 1
         else 1 + (((List.range 481).map (fun i => (i * 7 + 3) % 256)).length - 57 + 58) / 59) ∧
      (∃ f0, frames[0]? = some f0 ∧ f0.cid = really_long_ping.cid ∧ FRAME_TYPE f0 = TYPE_INIT ∧
        f0.type = TYPE_INIT ||| really_long_ping.cmd ∧
        f0.type &&& 0x7f = really_long_ping.cmd &&& 0x7f ∧
        ((List.range 481).map (fun i => (i * 7 + 3) % 256)).take 57 <+: f0.init_data) ∧
      (∀ k, k + 1 < frames.length →
        ∃ f, frames[k + 1]? = some f ∧ f.cid = really_long_ping.cid ∧
          (((List.range 481).map (fun i => (i * 7 + 3) % 256)).drop (57 + 59 * k)).take 59
            <+: f.cont_data) :=
  ⟨rfl, fun b hb => absurd hb (List.not_mem_nil b),
   softu2f_hid_msg_send_frames softu2f_init really_long_ping
     ((List.range 481).map (fun i => (i * 7 + 3) % 256)) 0 rfl
     (fun b hb => absurd hb (List.not_mem_nil b))⟩

set_option maxRecDepth 100000 in
/-- C1 (defect). The 481-byte PING of `test_really_long_ping`, sent on a fresh
context with `seq` starting at 0 and its frames fed in order to
`softu2f_hid_msg_read`: the INIT frame declares 225 bytes, the reader returns a
PING message on channel 1 holding only the first 225 payload bytes after four
of the nine frames, and the payload differs from the one sent. -/
theorem softu2f_roundtrip_really_long_ping :
    softu2f_hid_msg_read softu2f_init
        (deliver 0 (softu2f_hid_msg_send softu2f_init really_long_ping 0).1.sent) =
      (softu2f_init,
       read_result.returned (some
        { cmd := U2FHID_PING, cid := 1, bcnt := 225, buf := none,
          data := some ((List.range 225).map (fun i => (i * 7 + 3) % 256)), lastSeq := 3 }),
       deliver 0 ((softu2f_hid_msg_send softu2f_init really_long_ping 0).1.sent.drop 4)) ∧
    ((softu2f_hid_msg_send softu2f_init really_long_ping 0).1.sent.drop 4).length = 5 ∧
    some ((List.range 225).map (fun i => (i * 7 + 3) % 256)) ≠ really_long_ping.data := by
  decide

set_option maxRecDepth 100000 in
/-- C2 (defect). For the 481-byte PING of `test_really_long_ping` the INIT frame
that `softu2f_hid_msg_send` emits has `bcnth = 0` and `bcntl = 225`: it
declares 225 bytes, not 481. -/
theorem softu2f_hid_msg_send_really_long_ping_length :
    (softu2f_hid_msg_send softu2f_init really_long_ping 0).1.sent.head?.map
        (fun f => (f.init_bcnth, f.init_bcntl, f.init_bcnth * 256 + f.init_bcntl)) =
      some (0, 225, 225) ∧
    really_long_ping.data.map List.length = some 481 := by
  decide

/-- The length bytes of every INIT frame the sender builds: the high byte is 0
whatever the length, the low byte is the length modulo 256. -/
theorem init_frame_declared_length (cid cmd : Nat) (payload : List Nat) :
    (init_frame cid cmd payload).init_bcnth = 0 ∧
    (init_frame cid cmd payload).init_bcntl = payload.length % 256 := by
  constructor
  · simp [init_frame, U2FHID_FRAME.init_bcnth, Nat.shiftLeft_eq]
  · have h : (255 : Nat) = 2 ^ 8 - 1 := by norm_num
    simp only [init_frame, U2FHID_FRAME.init_bcntl, List.getD_cons_succ, List.getD_cons_zero]
    rw [h, Nat.and_pow_two_sub_one_eq_mod]

/-- C3 (defect). For the 7610-byte PING, whatever value the uninitialised local
`seq` holds on entry, some CONT frame among the first 129 does not carry its
index with the type bit clear: when `seq` starts at a multiple of 256 the frame
of index 128 has tag byte 128 (type bit set), otherwise the frame of index 0
has a tag byte other than 0. -/
theorem softu2f_hid_msg_send_seq_defect (seq : Nat) :
    ∃ k f, k < 129 ∧
      (softu2f_hid_msg_send softu2f_init ping_7610 seq).1.sent[k + 1]? = some f ∧
      ¬ (f.type = k ∧ f.type &&& TYPE_MASK = 0) := by
  have hsend := softu2f_hid_msg_send_accepts softu2f_init ping_7610 (List.replicate 7610 0) seq
    rfl (fun b hb => absurd hb (List.not_mem_nil b))
  have hcnt : cont_count (List.replicate 7610 0).length = 129 := by
    rw [List.length_replicate]; rfl
  have hget : ∀ k, k < 129 →
      (softu2f_hid_msg_send softu2f_init ping_7610 seq).1.sent[k + 1]? =
        some (cont_frame ping_7610.cid seq (List.replicate 7610 0) k) := by
    intro k hk
    rw [hsend]
    simp only [after_sending, softu2f_init, List.nil_append, message_frames, hcnt,
      List.getElem?_cons_succ, List.getElem?_map]
    rw [List.getElem?_range hk]
    rfl
  by_cases h0 : seq % 256 = 0
  · refine ⟨128, _, by omega, hget 128 (by omega), ?_⟩
    have ht : (cont_frame ping_7610.cid seq (List.replicate 7610 0) 128).type = 128 := by
      simp only [cont_frame]; omega
    rw [ht]
    simp [TYPE_MASK]
  · refine ⟨0, _, by omega, hget 0 (by omega), ?_⟩
    have ht : (cont_frame ping_7610.cid seq (List.replicate 7610 0) 0).type = seq % 256 := by
      simp only [cont_frame]; omega
    rw [ht]
    intro h
    exact h0 h.1

/-- C7. `softu2f_hid_is_unlocked_for_client ctx cid` at time `now`: with no lock it
returns true and leaves the context unchanged; with a lock whose expiration is
before `now` it returns true and clears the lock; with a lock whose expiration is
`now` or later it leaves the context unchanged and returns true exactly when
`cid` is the holder's channel id. -/
theorem softu2f_hid_is_unlocked_for_client_spec (ctx : softu2f_ctx) (cid now : Nat) :
    (ctx.lock = none →
      softu2f_hid_is_unlocked_for_client ctx cid now = (ctx, true)) ∧
    (∀ lock, ctx.lock = some lock → lock.expiration < now →
      softu2f_hid_is_unlocked_for_client ctx cid now = ({ ctx with lock := none }, true)) ∧
    (∀ lock, ctx.lock = some lock → now ≤ lock.expiration →
      (softu2f_hid_is_unlocked_for_client ctx cid now).1 = ctx ∧
      ((softu2f_hid_is_unlocked_for_client ctx cid now).2 = true ↔ cid = lock.cid)) := by
  refine ⟨?_, ?_, ?_⟩
  · intro h
    simp [softu2f_hid_is_unlocked_for_client, h]
  · intro lock h hexp
    simp [softu2f_hid_is_unlocked_for_client, h, hexp]
  · intro lock h hexp
    have hn : ¬ lock.expiration < now := by omega
    simp only [softu2f_hid_is_unlocked_for_client, h, hn, if_false, decide_eq_true_eq, true_and]
    exact eq_comm

/-- Witness for `softu2f_hid_is_unlocked_for_client_spec`: without a lock channel 3
is admitted; with channel 7 holding the lock until 100, channel 3 is admitted at
time 101 and the lock is cleared, and at time 100 channel 3 is refused while
channel 7 is admitted. -/
theorem softu2f_hid_is_unlocked_for_client_spec_witness :
    softu2f_hid_is_unlocked_for_client softu2f_init 3 50 = (softu2f_init, true) ∧
    softu2f_hid_is_unlocked_for_client ctx_locked_7 3 101 = (softu2f_init, true) ∧
    ((softu2f_hid_is_unlocked_for_client ctx_locked_7 3 100).1 = ctx_locked_7 ∧
      ¬ (softu2f_hid_is_unlocked_for_client ctx_locked_7 3 100).2 = true) ∧
    (softu2f_hid_is_unlocked_for_client ctx_locked_7 7 100).2 = true :=
  ⟨(softu2f_hid_is_unlocked_for_client_spec softu2f_init 3 50).1 rfl,
   (softu2f_hid_is_unlocked_for_client_spec ctx_locked_7 3 101).2.1
     { cid := 7, expiration := 100 } rfl (by decide),
   ⟨((softu2f_hid_is_unlocked_for_client_spec ctx_locked_7 3 100).2.2
       { cid := 7, expiration := 100 } rfl (by decide)).1,
    fun h => absurd (((softu2f_hid_is_unlocked_for_client_spec ctx_locked_7 3 100).2.2
       { cid := 7, expiration := 100 } rfl (by decide)).2.mp h) (by decide)⟩,
   ((softu2f_hid_is_unlocked_for_client_spec ctx_locked_7 7 100).2.2
       { cid := 7, expiration := 100 } rfl (by decide)).2.mpr rfl⟩

/-- C10. Handler lookup. For PING, LOCK, INIT and WINK the handler chosen is the
registered one when the slot is not `NULL` and the built-in one otherwise; for MSG
it is the registered one or none; for every other command it is none. A
registration for a command outside the five leaves the context unchanged, a
registration for one of the five replaces exactly that command's slot, and a
handler registered for one of the five is the one chosen for that command. -/
theorem softu2f_hid_msg_handler_spec (ctx : softu2f_ctx) (msg : softu2f_hid_message)
    (type : Nat) (handler : Option softu2f_hid_message_handler)
    (h : softu2f_hid_message_handler) :
    (msg.cmd = U2FHID_PING → softu2f_hid_msg_handler ctx msg =
      some (ctx.ping_handler.getD softu2f_hid_message_handler.handle_ping)) ∧
    (msg.cmd = U2FHID_LOCK → softu2f_hid_msg_handler ctx msg =
      some (ctx.lock_handler.getD softu2f_hid_message_handler.handle_lock)) ∧
    (msg.cmd = U2FHID_INIT → softu2f_hid_msg_handler ctx msg =
      some (ctx.init_handler.getD softu2f_hid_message_handler.handle_init)) ∧
    (msg.cmd = U2FHID_WINK → softu2f_hid_msg_handler ctx msg =
      some (ctx.wink_handler.getD softu2f_hid_message_handler.handle_wink)) ∧
    (msg.cmd = U2FHID_MSG → softu2f_hid_msg_handler ctx msg = ctx.msg_handler) ∧
    (msg.cmd ≠ U2FHID_PING → msg.cmd ≠ U2FHID_MSG → msg.cmd ≠ U2FHID_LOCK →
      msg.cmd ≠ U2FHID_INIT → msg.cmd ≠ U2FHID_WINK →
      softu2f_hid_msg_handler ctx msg = none) ∧
    (type ≠ U2FHID_PING → type ≠ U2FHID_MSG → type ≠ U2FHID_LOCK →
      type ≠ U2FHID_INIT → type ≠ U2FHID_WINK →
      softu2f_hid_msg_handler_register ctx type handler = ctx) ∧
    softu2f_hid_msg_handler_register ctx U2FHID_PING handler =
      { ctx with ping_handler := handler } ∧
    softu2f_hid_msg_handler_register ctx U2FHID_MSG handler =
      { ctx with msg_handler := handler } ∧
    softu2f_hid_msg_handler_register ctx U2FHID_LOCK handler =
      { ctx with lock_handler := handler } ∧
    softu2f_hid_msg_handler_register ctx U2FHID_INIT handler =
      { ctx with init_handler := handler } ∧
    softu2f_hid_msg_handler_register ctx U2FHID_WINK handler =
      { ctx with wink_handler := handler } ∧
    (msg.cmd = U2FHID_PING ∨ msg.cmd = U2FHID_MSG ∨ msg.cmd = U2FHID_LOCK ∨
      msg.cmd = U2FHID_INIT ∨ msg.cmd = U2FHID_WINK →
      softu2f_hid_msg_handler (softu2f_hid_msg_handler_register ctx msg.cmd (some h)) msg =
        some h) := by
  refine ⟨?_, ?_, ?_, ?_, ?_, ?_, ?_, ?_, ?_, ?_, ?_, ?_, ?_⟩
  · intro hc
    cases hs : ctx.ping_handler <;>
      simp [softu2f_hid_msg_handler, handler_slot, softu2f_hid_msg_handler_default, hc, hs,
        U2FHID_PING, U2FHID_MSG, U2FHID_LOCK, U2FHID_INIT, U2FHID_WINK]
  · intro hc
    cases hs : ctx.lock_handler <;>
      simp [softu2f_hid_msg_handler, handler_slot, softu2f_hid_msg_handler_default, hc, hs,
        U2FHID_PING, U2FHID_MSG, U2FHID_LOCK, U2FHID_INIT, U2FHID_WINK]
  · intro hc
    cases hs : ctx.init_handler <;>
      simp [softu2f_hid_msg_handler, handler_slot, softu2f_hid_msg_handler_default, hc, hs,
        U2FHID_PING, U2FHID_MSG, U2FHID_LOCK, U2FHID_INIT, U2FHID_WINK]
  · intro hc
    cases hs : ctx.wink_handler <;>
      simp [softu2f_hid_msg_handler, handler_slot, softu2f_hid_msg_handler_default, hc, hs,
        U2FHID_PING, U2FHID_MSG, U2FHID_LOCK, U2FHID_INIT, U2FHID_WINK]
  · intro hc
    cases hs : ctx.msg_handler <;>
      simp [softu2f_hid_msg_handler, handler_slot, softu2f_hid_msg_handler_default, hc, hs,
        U2FHID_PING, U2FHID_MSG, U2FHID_LOCK, U2FHID_INIT, U2FHID_WINK]
  · intro h1 h2 h3 h4 h5
    simp [softu2f_hid_msg_handler, handler_slot, softu2f_hid_msg_handler_default,
      h1, h2, h3, h4, h5]
  · intro h1 h2 h3 h4 h5
    simp [softu2f_hid_msg_handler_register, h1, h2, h3, h4, h5]
  · rfl
  · rfl
  · rfl
  · rfl
  · rfl
  · intro hc
    rcases hc with hc | hc | hc | hc | hc <;>
      simp [softu2f_hid_msg_handler, handler_slot, softu2f_hid_msg_handler_register, hc,
        U2FHID_PING, U2FHID_MSG, U2FHID_LOCK, U2FHID_INIT, U2FHID_WINK]

/-- Witness for `softu2f_hid_msg_handler_spec` on the fresh context: PING goes to
the built-in handler, MSG and the unknown command 0x90 to none, a registration for
0x90 changes nothing, and an external handler registered for MSG is chosen. -/
theorem softu2f_hid_msg_handler_spec_witness :
    softu2f_hid_msg_handler softu2f_init { calloc_msg with cmd := U2FHID_PING } =
      some softu2f_hid_message_handler.handle_ping ∧
    softu2f_hid_msg_handler softu2f_init { calloc_msg with cmd := U2FHID_MSG } = none ∧
    softu2f_hid_msg_handler softu2f_init { calloc_msg with cmd := 0x90 } = none ∧
    softu2f_hid_msg_handler_register softu2f_init 0x90
      (some (softu2f_hid_message_handler.external 42)) = softu2f_init ∧
    softu2f_hid_msg_handler
      (softu2f_hid_msg_handler_register softu2f_init U2FHID_MSG
        (some (softu2f_hid_message_handler.external 42)))
      { calloc_msg with cmd := U2FHID_MSG } = some (softu2f_hid_message_handler.external 42) :=
  ⟨(softu2f_hid_msg_handler_spec softu2f_init { calloc_msg with cmd := U2FHID_PING } 0 none
      softu2f_hid_message_handler.handle_ping).1 rfl,
   (softu2f_hid_msg_handler_spec softu2f_init { calloc_msg with cmd := U2FHID_MSG } 0 none
      softu2f_hid_message_handler.handle_ping).2.2.2.2.1 rfl,
   (softu2f_hid_msg_handler_spec softu2f_init { calloc_msg with cmd := 0x90 } 0 none
      softu2f_hid_message_handler.handle_ping).2.2.2.2.2.1
      (by decide) (by decide) (by decide) (by decide) (by decide),
   (softu2f_hid_msg_handler_spec softu2f_init calloc_msg 0x90
      (some (softu2f_hid_message_handler.external 42))
      softu2f_hid_message_handler.handle_ping).2.2.2.2.2.2.1
      (by decide) (by decide) (by decide) (by decide) (by decide),
   (softu2f_hid_msg_handler_spec softu2f_init { calloc_msg with cmd := U2FHID_MSG } 0 none
      (softu2f_hid_message_handler.external 42)).2.2.2.2.2.2.2.2.2.2.2.2 (Or.inr (Or.inl rfl))⟩

theorem lock_response_send (ctx : softu2f_ctx) (cid : Nat) :
    softu2f_hid_msg_send ctx
        { cmd := U2FHID_LOCK, cid := cid, bcnt := 0, buf := none, data := some [], lastSeq := 0 } 0 =
      SendFrame ctx (lock_response_frame cid) := by
  rw [softu2f_hid_msg_send_short ctx _ [] 0 rfl (by simp)]
  have h : init_frame cid U2FHID_LOCK [] = lock_response_frame cid := by
    simp [init_frame, lock_response_frame, U2FHID_LOCK, TYPE_INIT, List.replicate]
  exact congrArg (SendFrame ctx) h

/-- The LOCK handler as one step: the lock is set or cleared from the clamped
duration byte, then the empty LOCK response is handed to the sender. -/
theorem softu2f_hid_msg_handle_lock_eq (ctx : softu2f_ctx) (req : softu2f_hid_message)
    (d : Nat) (rest : List Nat) (now : Nat) (hdata : req.data = some (d :: rest)) :
    softu2f_hid_msg_handle_lock ctx req now =
      some (softu2f_hid_msg_send
        { ctx with lock := if min d 10 = 0 then none
                           else some { cid := req.cid, expiration := now + min d 10 } }
        { cmd := U2FHID_LOCK, cid := req.cid, bcnt := 0, buf := none, data := some [],
          lastSeq := 0 } 0) := by
  simp only [softu2f_hid_msg_handle_lock, hdata, Option.getD_some]
  have hmin : (if d > 10 then 10 else d) = min d 10 := by
    split <;> omega
  rw [hmin]
  by_cases hz : min d 10 = 0
  · simp only [hz, if_true]
    cases hl : ctx.lock with
    | none =>
      have : ({ ctx with lock := none } : softu2f_ctx) = ctx := by
        cases ctx; simp_all
      rw [this]
    | some l => rfl
  · simp only [hz, if_false]

/-- The lock and the frame log after the LOCK handler. -/
theorem softu2f_hid_msg_handle_lock_effect (ctx : softu2f_ctx) (req : softu2f_hid_message)
    (d : Nat) (rest : List Nat) (now : Nat) (hdata : req.data = some (d :: rest)) :
    ∃ r, softu2f_hid_msg_handle_lock ctx req now = some r ∧
      r.1.lock = (if min d 10 = 0 then none
                  else some { cid := req.cid, expiration := now + min d 10 }) ∧
      r.1.sent = ctx.sent ++ [lock_response_frame req.cid] := by
  refine ⟨_, softu2f_hid_msg_handle_lock_eq ctx req d rest now hdata, ?_, ?_⟩
  · rw [lock_response_send, SendFrame_lock]
  · rw [lock_response_send, SendFrame_sent]

/-- C9. The built-in LOCK handler on a request from channel `req.cid` whose first
payload byte is `d`, handled at time `now`, with `d' = min d 10`: the context
afterwards has no lock when `d' = 0` and the lock `(req.cid, now + d')` when
`d' > 0`; the response handed to the sender is a LOCK message on `req.cid` with
an empty payload, which goes out as one LOCK frame of declared length 0; and a
request with `d > 10` has exactly the outcome of the same request with `d = 10`. -/
theorem softu2f_hid_msg_handle_lock_spec (ctx : softu2f_ctx) (req : softu2f_hid_message)
    (d : Nat) (rest : List Nat) (now : Nat) (hdata : req.data = some (d :: rest)) :
    softu2f_hid_msg_handle_lock ctx req now =
      some (softu2f_hid_msg_send
        { ctx with lock := if min d 10 = 0 then none
                           else some { cid := req.cid, expiration := now + min d 10 } }
        { cmd := U2FHID_LOCK, cid := req.cid, bcnt := 0, buf := none, data := some [],
          lastSeq := 0 } 0) ∧
    (∃ r, softu2f_hid_msg_handle_lock ctx req now = some r ∧
      r.1.lock = (if min d 10 = 0 then none
                  else some { cid := req.cid, expiration := now + min d 10 }) ∧
      r.1.sent = ctx.sent ++ [lock_response_frame req.cid]) ∧
    (10 < d → softu2f_hid_msg_handle_lock ctx req now =
      softu2f_hid_msg_handle_lock ctx { req with data := some (10 :: rest) } now) := by
  refine ⟨softu2f_hid_msg_handle_lock_eq ctx req d rest now hdata,
    softu2f_hid_msg_handle_lock_effect ctx req d rest now hdata, ?_⟩
  · intro hd
    simp only [softu2f_hid_msg_handle_lock, hdata, Option.getD_some]
    have h1 : (if d > 10 then 10 else d) = 10 := by
      split <;> omega
    simp [h1]

/-- Witness for `softu2f_hid_msg_handle_lock_spec`: a LOCK request from channel 7
with duration byte 200, handled at time 90 on a fresh context. -/
theorem softu2f_hid_msg_handle_lock_spec_witness :
    (lock_request 7 200).data = some (200 :: []) ∧
    (softu2f_hid_msg_handle_lock softu2f_init (lock_request 7 200) 90 =
      some (softu2f_hid_msg_send
        { softu2f_init with
            lock := if min 200 10 = 0 then none
                    else some { cid := (lock_request 7 200).cid, expiration := 90 + min 200 10 } }
        { cmd := U2FHID_LOCK, cid := (lock_request 7 200).cid, bcnt := 0, buf := none,
          data := some [], lastSeq := 0 } 0) ∧
    (∃ r, softu2f_hid_msg_handle_lock softu2f_init (lock_request 7 200) 90 = some r ∧
      r.1.lock = (if min 200 10 = 0 then none
                  else some { cid := (lock_request 7 200).cid, expiration := 90 + min 200 10 }) ∧
      r.1.sent = softu2f_init.sent ++ [lock_response_frame (lock_request 7 200).cid]) ∧
    (10 < 200 → softu2f_hid_msg_handle_lock softu2f_init (lock_request 7 200) 90 =
      softu2f_hid_msg_handle_lock softu2f_init
        { lock_request 7 200 with data := some (10 :: []) } 90)) :=
  ⟨rfl, softu2f_hid_msg_handle_lock_spec softu2f_init (lock_request 7 200) 200 [] 90 rfl⟩

/-- C6 (counterexample). With a message in flight on channel 7, a SYNC INIT frame on
channel 7 is an INIT frame processed while a message is in flight, yet
`softu2f_hid_msg_frame_read` sends a SYNC response and not an ERROR frame, and
it reports failure. -/
theorem softu2f_hid_msg_frame_read_sync_not_busy :
    FRAME_TYPE sync_frame_7 = TYPE_INIT ∧ in_flight_7.buf.isSome = true ∧
    (softu2f_hid_msg_frame_read softu2f_init in_flight_7 sync_frame_7).1.sent =
      [sync_response_7] ∧
    (softu2f_hid_msg_frame_read softu2f_init in_flight_7 sync_frame_7).1.sent ≠
      softu2f_init.sent ++ [error_frame sync_frame_7.cid ERR_CHANNEL_BUSY] ∧
    (softu2f_hid_msg_frame_read softu2f_init in_flight_7 sync_frame_7).2.2 = false := by
  decide

/-- C6 (amended). For every INIT frame processed by `softu2f_hid_msg_frame_read`
while a message is in flight, other than a SYNC frame on the in-flight message's
own channel: exactly one ERROR frame carrying `ERR_CHANNEL_BUSY` is sent on the
frame's channel, the call reports success, and the message (command, channel id,
declared length, buffer, next expected sequence) is unchanged, so no second
message is started. -/
theorem softu2f_hid_msg_frame_read_init_busy (ctx : softu2f_ctx) (msg : softu2f_hid_message)
    (frame : U2FHID_FRAME) (hinit : FRAME_TYPE frame = TYPE_INIT)
    (hbuf : msg.buf.isSome = true)
    (hsync : ¬ (frame.type = U2FHID_SYNC ∧ msg.cid = frame.cid)) :
    (softu2f_hid_msg_frame_read ctx msg frame).1.sent =
      ctx.sent ++ [error_frame frame.cid ERR_CHANNEL_BUSY] ∧
    (softu2f_hid_msg_frame_read ctx msg frame).2.1 = msg ∧
    (softu2f_hid_msg_frame_read ctx msg frame).2.2 = true ∧
    (softu2f_hid_msg_frame_read ctx msg frame).1.lock = ctx.lock := by
  have hs : ¬ (frame.type = U2FHID_SYNC ∧ msg.buf.isSome = true ∧ msg.cid = frame.cid) := by
    intro h
    exact hsync ⟨h.1, h.2.2⟩
  have heq : softu2f_hid_msg_frame_read ctx msg frame =
      ((SendFrame ctx (error_frame frame.cid ERR_CHANNEL_BUSY)).1, msg, true) := by
    unfold softu2f_hid_msg_frame_read
    rw [if_pos hinit, if_neg hs, if_pos hbuf, softu2f_hid_err_send_eq]
  rw [heq]
  exact ⟨SendFrame_sent ctx _, rfl, rfl, SendFrame_lock ctx _⟩

/-- Witness for `softu2f_hid_msg_frame_read_init_busy`: a PING INIT frame on channel
9 while a message is in flight on channel 7. -/
theorem softu2f_hid_msg_frame_read_init_busy_witness :
    FRAME_TYPE ping_frame_9 = TYPE_INIT ∧ in_flight_7.buf.isSome = true ∧
    ¬ (ping_frame_9.type = U2FHID_SYNC ∧ in_flight_7.cid = ping_frame_9.cid) ∧
    ((softu2f_hid_msg_frame_read softu2f_init in_flight_7 ping_frame_9).1.sent =
      softu2f_init.sent ++ [error_frame ping_frame_9.cid ERR_CHANNEL_BUSY] ∧
    (softu2f_hid_msg_frame_read softu2f_init in_flight_7 ping_frame_9).2.1 = in_flight_7 ∧
    (softu2f_hid_msg_frame_read softu2f_init in_flight_7 ping_frame_9).2.2 = true ∧
    (softu2f_hid_msg_frame_read softu2f_init in_flight_7 ping_frame_9).1.lock =
      softu2f_init.lock) :=
  ⟨by decide, by decide, by decide,
   softu2f_hid_msg_frame_read_init_busy softu2f_init in_flight_7 ping_frame_9
     (by decide) (by decide) (by decide)⟩

theorem is_unlocked_sent (ctx : softu2f_ctx) (cid now : Nat) :
    (softu2f_hid_is_unlocked_for_client ctx cid now).1.sent = ctx.sent := by
  unfold softu2f_hid_is_unlocked_for_client
  cases ctx.lock with
  | none => rfl
  | some l =>
    by_cases h : l.expiration < now <;> simp [h]

/-- A channel that was admitted stays admitted at any later check, as long as the
lock is what the first check left. -/
theorem is_unlocked_again (ctx ctx' : softu2f_ctx) (cid now now2 : Nat)
    (h : (softu2f_hid_is_unlocked_for_client ctx cid now).2 = true)
    (hl : ctx'.lock = (softu2f_hid_is_unlocked_for_client ctx cid now).1.lock) :
    (softu2f_hid_is_unlocked_for_client ctx' cid now2).2 = true := by
  unfold softu2f_hid_is_unlocked_for_client at h hl ⊢
  cases hc : ctx.lock with
  | none =>
    simp only [hc] at hl
    simp [hl]
  | some l =>
    simp only [hc] at h hl
    by_cases he : l.expiration < now
    · simp only [he, if_true] at hl
      simp [hl]
    · simp only [he, if_false] at h hl
      simp only [hl, hc]
      by_cases he2 : l.expiration < now2
      · simp [he2]
      · simp only [he2, if_false]
        exact h

/-- Starting a message: an INIT frame read when no message is in flight. -/
theorem softu2f_hid_msg_frame_read_start (ctx : softu2f_ctx) (msg : softu2f_hid_message)
    (frame : U2FHID_FRAME) (hinit : FRAME_TYPE frame = TYPE_INIT) (hbuf : msg.buf = none) :
    softu2f_hid_msg_frame_read ctx msg frame =
      (ctx,
       { msg with cmd := frame.type, cid := frame.cid, bcnt := MSG_LEN frame % 65536,
                  buf := some (frame.init_data.take (init_ndata (MSG_LEN frame % 65536))) },
       true) := by
  unfold softu2f_hid_msg_frame_read
  simp [hinit, hbuf]

/-- A CONT frame on the channel of the message in flight whose sequence number
is not the expected one. -/
theorem softu2f_hid_msg_frame_read_bad_seq (ctx : softu2f_ctx) (msg : softu2f_hid_message)
    (buf : List Nat) (frame : U2FHID_FRAME) (hbuf : msg.buf = some buf)
    (hcont : FRAME_TYPE frame = TYPE_CONT) (hcid : frame.cid = msg.cid)
    (hseq : FRAME_SEQ frame ≠ msg.lastSeq) :
    softu2f_hid_msg_frame_read ctx msg frame =
      ((SendFrame ctx (error_frame msg.cid ERR_INVALID_SEQ)).1,
       { msg with lastSeq := (msg.lastSeq + 1) % 256 }, false) := by
  unfold softu2f_hid_msg_frame_read
  have h1 : ¬ FRAME_TYPE frame = TYPE_INIT := by
    rw [hcont]; decide
  rw [if_neg h1, if_pos hcont]
  simp only [hbuf]
  have h2 : ¬ frame.cid ≠ msg.cid := by simp [hcid]
  rw [if_neg h2, if_pos hseq, softu2f_hid_err_send_eq, hcid]

/-- C5. With a message in flight on channel `msg.cid` for which `n` CONT frames
have been accepted (`msg.lastSeq = n`), a CONT frame on that channel whose
sequence number differs from `n`, received while the channel is admitted and the
loop is running: `softu2f_hid_msg_frame_read` appends nothing, sends exactly one
ERROR frame carrying `ERR_INVALID_SEQ` on the channel and reports failure;
`softu2f_hid_msg_read` returns `NULL`, dropping the message; the next call of
`softu2f_hid_msg_read` starts from a zeroed message, so an INIT frame on the same
channel starts a new message without any frame being sent. -/
theorem softu2f_hid_msg_read_invalid_seq (ctx : softu2f_ctx) (msg : softu2f_hid_message)
    (buf : List Nat) (frame : U2FHID_FRAME) (n now : Nat) (rest : List read_event)
    (hshut : ctx.shutdown = false) (hbuf : msg.buf = some buf) (hn : msg.lastSeq = n)
    (hcont : FRAME_TYPE frame = TYPE_CONT) (hcid : frame.cid = msg.cid)
    (hseq : FRAME_SEQ frame ≠ n)
    (hunl : (softu2f_hid_is_unlocked_for_client ctx frame.cid now).2 = true) :
    ∃ ctx2 : softu2f_ctx,
      softu2f_hid_msg_frame_read (softu2f_hid_is_unlocked_for_client ctx frame.cid now).1
          msg frame = (ctx2, { msg with lastSeq := (n + 1) % 256 }, false) ∧
      ctx2.sent = ctx.sent ++ [error_frame msg.cid ERR_INVALID_SEQ] ∧
      softu2f_hid_msg_read_loop
          ({ now := now, ret := GetFrame.success HID_RPT_SIZE frame } :: rest) ctx msg =
        (ctx2, read_result.returned none, rest) ∧
      (∀ events, softu2f_hid_msg_read ctx2 events =
        softu2f_hid_msg_read_loop events ctx2 calloc_msg) ∧
      calloc_msg.buf = none ∧
      (∀ (f2 : U2FHID_FRAME) (now2 : Nat), FRAME_TYPE f2 = TYPE_INIT → f2.cid = msg.cid →
        ∃ ctx3 : softu2f_ctx, ctx3.sent = ctx2.sent ∧
          softu2f_hid_msg_read_body ctx2 calloc_msg
              { now := now2, ret := GetFrame.success HID_RPT_SIZE f2 } =
            (ctx3, softu2f_hid_msg_read_check
              { cmd := f2.type, cid := f2.cid, bcnt := MSG_LEN f2 % 65536,
                buf := some (f2.init_data.take (init_ndata (MSG_LEN f2 % 65536))),
                data := none, lastSeq := 0 })) := by
  subst hn
  have hfr := softu2f_hid_msg_frame_read_bad_seq
    (softu2f_hid_is_unlocked_for_client ctx frame.cid now).1 msg buf frame hbuf hcont hcid hseq
  refine ⟨_, hfr, ?_, ?_, fun _ => rfl, rfl, ?_⟩
  · rw [SendFrame_sent, is_unlocked_sent]
  · rw [softu2f_hid_msg_read_loop]
    simp only [hshut, Bool.false_eq_true, if_false, softu2f_hid_msg_read_body, ne_eq,
      not_true_eq_false]
    rcases hu : softu2f_hid_is_unlocked_for_client ctx frame.cid now with ⟨c1, b⟩
    rw [hu] at hunl hfr
    simp only at hunl hfr
    subst hunl
    simp only [hfr]
  · intro f2 now2 hinit2 hcid2
    have hu2 : (softu2f_hid_is_unlocked_for_client
        (SendFrame (softu2f_hid_is_unlocked_for_client ctx frame.cid now).1
          (error_frame msg.cid ERR_INVALID_SEQ)).1 f2.cid now2).2 = true := by
      rw [hcid2, ← hcid]
      exact is_unlocked_again ctx _ frame.cid now now2 hunl (SendFrame_lock _ _)
    rcases hu : softu2f_hid_is_unlocked_for_client
        (SendFrame (softu2f_hid_is_unlocked_for_client ctx frame.cid now).1
          (error_frame msg.cid ERR_INVALID_SEQ)).1 f2.cid now2 with ⟨c3, b⟩
    rw [hu] at hu2
    simp only at hu2
    subst hu2
    refine ⟨c3, ?_, ?_⟩
    · have := is_unlocked_sent
        (SendFrame (softu2f_hid_is_unlocked_for_client ctx frame.cid now).1
          (error_frame msg.cid ERR_INVALID_SEQ)).1 f2.cid now2
      rw [hu] at this
      exact this
    · simp only [softu2f_hid_msg_read_body, ne_eq, not_true_eq_false, if_false, hu]
      rw [softu2f_hid_msg_frame_read_start c3 calloc_msg f2 hinit2 rfl]
      rfl

/-- Witness for `softu2f_hid_msg_read_invalid_seq`: the message in flight on
channel 7 has accepted no CONT frame, and a CONT frame with sequence number 5
arrives on channel 7 (Scenario E). -/
theorem softu2f_hid_msg_read_invalid_seq_witness :
    softu2f_init.shutdown = false ∧ in_flight_7.buf = some [1, 2, 3] ∧
    in_flight_7.lastSeq = 0 ∧ FRAME_TYPE cont_frame_7_seq5 = TYPE_CONT ∧
    cont_frame_7_seq5.cid = in_flight_7.cid ∧ FRAME_SEQ cont_frame_7_seq5 ≠ 0 ∧
    (softu2f_hid_is_unlocked_for_client softu2f_init cont_frame_7_seq5.cid 0).2 = true ∧
    ∃ ctx2 : softu2f_ctx,
      softu2f_hid_msg_frame_read
          (softu2f_hid_is_unlocked_for_client softu2f_init cont_frame_7_seq5.cid 0).1
          in_flight_7 cont_frame_7_seq5 =
        (ctx2, { in_flight_7 with lastSeq := (0 + 1) % 256 }, false) ∧
      ctx2.sent = softu2f_init.sent ++ [error_frame in_flight_7.cid ERR_INVALID_SEQ] ∧
      softu2f_hid_msg_read_loop
          ({ now := 0, ret := GetFrame.success HID_RPT_SIZE cont_frame_7_seq5 } :: [])
          softu2f_init in_flight_7 =
        (ctx2, read_result.returned none, []) ∧
      (∀ events, softu2f_hid_msg_read ctx2 events =
        softu2f_hid_msg_read_loop events ctx2 calloc_msg) ∧
      calloc_msg.buf = none ∧
      (∀ (f2 : U2FHID_FRAME) (now2 : Nat), FRAME_TYPE f2 = TYPE_INIT →
        f2.cid = in_flight_7.cid →
        ∃ ctx3 : softu2f_ctx, ctx3.sent = ctx2.sent ∧
          softu2f_hid_msg_read_body ctx2 calloc_msg
              { now := now2, ret := GetFrame.success HID_RPT_SIZE f2 } =
            (ctx3, softu2f_hid_msg_read_check
              { cmd := f2.type, cid := f2.cid, bcnt := MSG_LEN f2 % 65536,
                buf := some (f2.init_data.take (init_ndata (MSG_LEN f2 % 65536))),
                data := none, lastSeq := 0 })) :=
  ⟨rfl, rfl, rfl, by decide, rfl, by decide, by decide,
   softu2f_hid_msg_read_invalid_seq softu2f_init in_flight_7 [1, 2, 3] cont_frame_7_seq5 0 0 []
     rfl rfl rfl (by decide) rfl (by decide) (by decide)⟩

/-- A CONT frame on the channel of the message in flight with the expected
sequence number is appended, clipped to the bytes still missing, and the
expected sequence number advances by one. -/
theorem softu2f_hid_msg_frame_read_append (ctx : softu2f_ctx) (msg : softu2f_hid_message)
    (buf : List Nat) (frame : U2FHID_FRAME) (hbuf : msg.buf = some buf)
    (hcont : FRAME_TYPE frame = TYPE_CONT) (hcid : frame.cid = msg.cid)
    (hseq : FRAME_SEQ frame = msg.lastSeq) :
    softu2f_hid_msg_frame_read ctx msg frame =
      (ctx,
       { msg with lastSeq := (msg.lastSeq + 1) % 256,
                  buf := some (buf ++ frame.cont_data.take (cont_ndata msg.bcnt buf.length)) },
       true) := by
  unfold softu2f_hid_msg_frame_read
  have h1 : ¬ FRAME_TYPE frame = TYPE_INIT := by
    rw [hcont]; decide
  rw [if_neg h1, if_pos hcont]
  simp only [hbuf]
  have h2 : ¬ frame.cid ≠ msg.cid := by simp [hcid]
  have h3 : ¬ FRAME_SEQ frame ≠ msg.lastSeq := by simp [hseq]
  rw [if_neg h2, if_neg h3]

/-- C8. After the built-in LOCK handler has handled, at time `t`, a request from
channel `req.cid` with duration byte `d`, `1 <= d <= 10`, the lock is
`(req.cid, t + d)`. In every context `c` that still holds this lock: a frame
from another channel that `softu2f_hid_msg_read` receives at a time
`now <= t + d` is answered with exactly one ERROR frame carrying
`ERR_CHANNEL_BUSY` on its channel and is not given to
`softu2f_hid_msg_frame_read`, the message in flight and the lock staying as they
are; a frame from another channel received at a time `now > t + d` clears the
lock and is given to `softu2f_hid_msg_frame_read` with no frame sent before.
Once a zero-duration LOCK request has been handled there is no lock, and every
frame is given to `softu2f_hid_msg_frame_read` with no frame sent before. -/
theorem softu2f_hid_msg_read_lock_gating (ctx : softu2f_ctx) (req : softu2f_hid_message)
    (d : Nat) (rest : List Nat) (t : Nat) (hdata : req.data = some (d :: rest))
    (hd1 : 1 ≤ d) (hd10 : d ≤ 10) :
    ∃ ctxL : softu2f_ctx, ∃ ok : Bool,
      softu2f_hid_msg_handle_lock ctx req t = some (ctxL, ok) ∧
      ctxL.lock = some { cid := req.cid, expiration := t + d } ∧
      (∀ (c : softu2f_ctx) (msg : softu2f_hid_message) (frame : U2FHID_FRAME) (now : Nat),
        c.lock = ctxL.lock → frame.cid ≠ req.cid → now ≤ t + d →
        ∃ ctxB : softu2f_ctx,
          softu2f_hid_msg_read_body c msg
              { now := now, ret := GetFrame.success HID_RPT_SIZE frame } =
            (ctxB, softu2f_hid_msg_read_check msg) ∧
          ctxB.sent = c.sent ++ [error_frame frame.cid ERR_CHANNEL_BUSY] ∧
          ctxB.lock = c.lock) ∧
      (∀ (c : softu2f_ctx) (msg : softu2f_hid_message) (frame : U2FHID_FRAME) (now : Nat),
        c.lock = ctxL.lock → frame.cid ≠ req.cid → t + d < now →
        softu2f_hid_msg_read_body c msg
            { now := now, ret := GetFrame.success HID_RPT_SIZE frame } =
          (match softu2f_hid_msg_frame_read { c with lock := none } msg frame with
           | (ctx2, _, false) => (ctx2, read_step.done)
           | (ctx2, msg2, true) => (ctx2, softu2f_hid_msg_read_check msg2))) ∧
      (∀ (c : softu2f_ctx) (req0 : softu2f_hid_message) (rest0 : List Nat) (t0 : Nat),
        req0.data = some (0 :: rest0) →
        ∃ ctx0 : softu2f_ctx, ∃ ok0 : Bool,
          softu2f_hid_msg_handle_lock c req0 t0 = some (ctx0, ok0) ∧
          ctx0.lock = none ∧
          ∀ (msg : softu2f_hid_message) (frame : U2FHID_FRAME) (now : Nat),
            softu2f_hid_msg_read_body ctx0 msg
                { now := now, ret := GetFrame.success HID_RPT_SIZE frame } =
              (match softu2f_hid_msg_frame_read ctx0 msg frame with
               | (ctx2, _, false) => (ctx2, read_step.done)
               | (ctx2, msg2, true) => (ctx2, softu2f_hid_msg_read_check msg2))) := by
  obtain ⟨r, hr, hrl, _⟩ := softu2f_hid_msg_handle_lock_effect ctx req d rest t hdata
  have hmin : min d 10 = d := by omega
  have hnz : ¬ min d 10 = 0 := by omega
  rw [if_neg hnz, hmin] at hrl
  refine ⟨r.1, r.2, hr, hrl, ?_, ?_, ?_⟩
  · intro c msg frame now hcl hne hnow
    rw [hrl] at hcl
    have hexp : ¬ t + d < now := by omega
    have hc : ¬ req.cid = frame.cid := fun h => hne h.symm
    refine ⟨(SendFrame c (error_frame frame.cid ERR_CHANNEL_BUSY)).1, ?_,
      SendFrame_sent _ _, SendFrame_lock _ _⟩
    simp [softu2f_hid_msg_read_body, softu2f_hid_is_unlocked_for_client, hcl, hexp, hc,
      softu2f_hid_err_send_eq]
  · intro c msg frame now hcl _ hnow
    rw [hrl] at hcl
    simp [softu2f_hid_msg_read_body, softu2f_hid_is_unlocked_for_client, hcl, hnow]
  · intro c req0 rest0 t0 hdata0
    obtain ⟨r0, hr0, hrl0, _⟩ :=
      softu2f_hid_msg_handle_lock_effect c req0 0 rest0 t0 hdata0
    have hz : min 0 10 = 0 := by decide
    rw [if_pos hz] at hrl0
    refine ⟨r0.1, r0.2, hr0, hrl0, ?_⟩
    intro msg frame now
    simp [softu2f_hid_msg_read_body, softu2f_hid_is_unlocked_for_client, hrl0]

/-- Witness for `softu2f_hid_msg_read_lock_gating`: LOCK with duration 3 from
channel 7, handled at time 100 on a fresh context (Scenario D). -/
theorem softu2f_hid_msg_read_lock_gating_witness :
    (lock_request 7 3).data = some (3 :: []) ∧ 1 ≤ 3 ∧ 3 ≤ 10 ∧
    ∃ ctxL : softu2f_ctx, ∃ ok : Bool,
      softu2f_hid_msg_handle_lock softu2f_init (lock_request 7 3) 100 = some (ctxL, ok) ∧
      ctxL.lock = some { cid := (lock_request 7 3).cid, expiration := 100 + 3 } ∧
      (∀ (c : softu2f_ctx) (msg : softu2f_hid_message) (frame : U2FHID_FRAME) (now : Nat),
        c.lock = ctxL.lock → frame.cid ≠ (lock_request 7 3).cid → now ≤ 100 + 3 →
        ∃ ctxB : softu2f_ctx,
          softu2f_hid_msg_read_body c msg
              { now := now, ret := GetFrame.success HID_RPT_SIZE frame } =
            (ctxB, softu2f_hid_msg_read_check msg) ∧
          ctxB.sent = c.sent ++ [error_frame frame.cid ERR_CHANNEL_BUSY] ∧
          ctxB.lock = c.lock) ∧
      (∀ (c : softu2f_ctx) (msg : softu2f_hid_message) (frame : U2FHID_FRAME) (now : Nat),
        c.lock = ctxL.lock → frame.cid ≠ (lock_request 7 3).cid → 100 + 3 < now →
        softu2f_hid_msg_read_body c msg
            { now := now, ret := GetFrame.success HID_RPT_SIZE frame } =
          (match softu2f_hid_msg_frame_read { c with lock := none } msg frame with
           | (ctx2, _, false) => (ctx2, read_step.done)
           | (ctx2, msg2, true) => (ctx2, softu2f_hid_msg_read_check msg2))) ∧
      (∀ (c : softu2f_ctx) (req0 : softu2f_hid_message) (rest0 : List Nat) (t0 : Nat),
        req0.data = some (0 :: rest0) →
        ∃ ctx0 : softu2f_ctx, ∃ ok0 : Bool,
          softu2f_hid_msg_handle_lock c req0 t0 = some (ctx0, ok0) ∧
          ctx0.lock = none ∧
          ∀ (msg : softu2f_hid_message) (frame : U2FHID_FRAME) (now : Nat),
            softu2f_hid_msg_read_body ctx0 msg
                { now := now, ret := GetFrame.success HID_RPT_SIZE frame } =
              (match softu2f_hid_msg_frame_read ctx0 msg frame with
               | (ctx2, _, false) => (ctx2, read_step.done)
               | (ctx2, msg2, true) => (ctx2, softu2f_hid_msg_read_check msg2))) :=
  ⟨rfl, by decide, by decide,
   softu2f_hid_msg_read_lock_gating softu2f_init (lock_request 7 3) 3 [] 100 rfl
     (by decide) (by decide)⟩

/-- An appended CONT frame advances the expected sequence number by exactly one:
the number it matched is below 128, so the `uint8_t` increment does not wrap. -/
theorem softu2f_hid_msg_frame_read_append_lastSeq (msg : softu2f_hid_message)
    (frame : U2FHID_FRAME) (hseq : FRAME_SEQ frame = msg.lastSeq) :
    (msg.lastSeq + 1) % 256 = msg.lastSeq + 1 := by
  have h := FRAME_SEQ_lt frame
  omega

theorem same_device_refl (a : softu2f_ctx) : same_device a a :=
  ⟨rfl, rfl, rfl, rfl, rfl, rfl, rfl, rfl⟩

theorem same_device_trans {a b c : softu2f_ctx} (h1 : same_device a b) (h2 : same_device b c) :
    same_device a c := by
  obtain ⟨a1, a2, a3, a4, a5, a6, a7, a8⟩ := h1
  obtain ⟨b1, b2, b3, b4, b5, b6, b7, b8⟩ := h2
  exact ⟨a1.trans b1, a2.trans b2, a3.trans b3, a4.trans b4, a5.trans b5, a6.trans b6,
    a7.trans b7, a8.trans b8⟩

theorem SendFrame_same_device (ctx : softu2f_ctx) (f : U2FHID_FRAME) :
    same_device ctx (SendFrame ctx f).1 := by
  unfold SendFrame
  split <;> exact ⟨rfl, rfl, rfl, rfl, rfl, rfl, rfl, rfl⟩

/-- The loop of the sender touches nothing but the connection, and what it logs
comes after what was logged before. -/
theorem softu2f_hid_msg_send_loop_device :
    ∀ (fuel : Nat) (ctx : softu2f_ctx) (frame : U2FHID_FRAME) (dst dst_end : Nat)
      (src : List Nat) (seq : Nat),
      same_device ctx (softu2f_hid_msg_send_loop fuel ctx frame dst dst_end src seq).1 ∧
      ∃ emitted, (softu2f_hid_msg_send_loop fuel ctx frame dst dst_end src seq).1.sent =
        ctx.sent ++ emitted := by
  intro fuel
  induction fuel with
  | zero =>
    intro ctx frame dst dst_end src seq
    exact ⟨same_device_refl ctx, [], by simp [softu2f_hid_msg_send_loop]⟩
  | succ fuel ih =>
    intro ctx frame dst dst_end src seq
    rw [softu2f_hid_msg_send_loop]
    simp only []
    generalize U2FHID_FRAME.mk frame.cid frame.type (memcpy frame.body dst
      (src.take (if src.length > dst_end - dst then dst_end - dst else src.length))) = f1
    have hdev := SendFrame_same_device ctx f1
    have hsent := SendFrame_sent ctx f1
    generalize SendFrame ctx f1 = sf at hdev hsent ⊢
    obtain ⟨c1, r⟩ := sf
    simp only at hdev hsent
    cases r with
    | false => exact ⟨hdev, _, hsent⟩
    | true =>
      simp only []
      by_cases hz : (List.drop (if src.length > dst_end - dst then dst_end - dst
          else src.length) src).length = 0
      · rw [if_pos hz]
        exact ⟨hdev, _, hsent⟩
      · rw [if_neg hz]
        obtain ⟨h1, em, h2⟩ := ih c1
          { cid := frame.cid, type := seq % 256, body := List.replicate 59 0 } 0 59
          (src.drop (if src.length > dst_end - dst then dst_end - dst else src.length))
          ((seq + 1) % 256)
        refine ⟨same_device_trans hdev h1, f1 :: em, ?_⟩
        rw [h2, hsent]
        simp

theorem softu2f_hid_msg_send_same_device (ctx : softu2f_ctx) (msg : softu2f_hid_message)
    (seq : Nat) : same_device ctx (softu2f_hid_msg_send ctx msg seq).1 :=
  (softu2f_hid_msg_send_loop_device _ ctx _ _ _ _ _).1

/-- Whatever the transport answers, the frames handed to it are an initial part
of the frames an accepting transport would get. -/
theorem softu2f_hid_msg_send_loop_prefix :
    ∀ (fuel : Nat) (ctx ctx' : softu2f_ctx) (frame : U2FHID_FRAME) (dst dst_end : Nat)
      (src : List Nat) (seq : Nat), ctx'.sent = ctx.sent → accepts_all ctx' →
      ∃ more, (softu2f_hid_msg_send_loop fuel ctx' frame dst dst_end src seq).1.sent =
        (softu2f_hid_msg_send_loop fuel ctx frame dst dst_end src seq).1.sent ++ more := by
  intro fuel
  induction fuel with
  | zero =>
    intro ctx ctx' frame dst dst_end src seq hs _
    exact ⟨[], by simp [softu2f_hid_msg_send_loop, hs]⟩
  | succ fuel ih =>
    intro ctx ctx' frame dst dst_end src seq hs hacc
    rw [softu2f_hid_msg_send_loop, softu2f_hid_msg_send_loop]
    simp only []
    rw [SendFrame_accepts ctx' _ hacc]
    generalize U2FHID_FRAME.mk frame.cid frame.type (memcpy frame.body dst
      (src.take (if src.length > dst_end - dst then dst_end - dst else src.length))) = f1
    have hsent := SendFrame_sent ctx f1
    generalize SendFrame ctx f1 = sf at hsent ⊢
    obtain ⟨c1, r⟩ := sf
    simp only at hsent
    simp only []
    by_cases hz : (List.drop (if src.length > dst_end - dst then dst_end - dst
        else src.length) src).length = 0
    · rw [if_pos hz]
      cases r with
      | false => exact ⟨[], by simp [after_sending, hs, hsent]⟩
      | true =>
        simp only []
        rw [if_pos hz]
        exact ⟨[], by simp [after_sending, hs, hsent]⟩
    · rw [if_neg hz]
      cases r with
      | false =>
        simp only []
        obtain ⟨_, em, h2⟩ := softu2f_hid_msg_send_loop_device fuel
          (after_sending ctx' [f1])
          { cid := frame.cid, type := seq % 256, body := List.replicate 59 0 } 0 59
          (src.drop (if src.length > dst_end - dst then dst_end - dst else src.length))
          ((seq + 1) % 256)
        refine ⟨em, ?_⟩
        rw [h2, hsent]
        simp [after_sending, hs]
      | true =>
        simp only []
        rw [if_neg hz]
        apply ih
        · simp [after_sending, hs, hsent]
        · exact after_sending_accepts ctx' _ hacc

/-- The frames handed to the transport for a message are an initial part of the
frames of the message, whatever the transport answers. -/
theorem softu2f_hid_msg_send_sent_prefix (ctx : softu2f_ctx) (msg : softu2f_hid_message)
    (payload : List Nat) (seq : Nat) (hdata : msg.data = some payload) :
    ∃ emitted, (softu2f_hid_msg_send ctx msg seq).1.sent = ctx.sent ++ emitted ∧
      emitted <+: message_frames msg.cid msg.cmd seq payload := by
  obtain ⟨_, em, hem⟩ := softu2f_hid_msg_send_loop_device ((msg.data.getD []).length + 1) ctx
    (U2FHID_FRAME.mk msg.cid ((0 ||| TYPE_INIT) ||| msg.cmd)
      (((List.replicate 59 0).set 0 (((msg.data.getD []).length <<< 8) % 256)).set 1
        ((msg.data.getD []).length &&& 0xff))) 2 59 (msg.data.getD []) seq
  have hacc : accepts_all { ctx with send_results := [] } := by
    intro b hb
    exact absurd hb (List.not_mem_nil b)
  obtain ⟨more, hmore⟩ := softu2f_hid_msg_send_loop_prefix ((msg.data.getD []).length + 1) ctx
    { ctx with send_results := [] }
    (U2FHID_FRAME.mk msg.cid ((0 ||| TYPE_INIT) ||| msg.cmd)
      (((List.replicate 59 0).set 0 (((msg.data.getD []).length <<< 8) % 256)).set 1
        ((msg.data.getD []).length &&& 0xff))) 2 59 (msg.data.getD []) seq rfl hacc
  have hfull := softu2f_hid_msg_send_accepts { ctx with send_results := [] } msg payload seq
    hdata hacc
  refine ⟨em, hem, more, ?_⟩
  have h1 : (softu2f_hid_msg_send { ctx with send_results := [] } msg seq).1.sent =
      ctx.sent ++ em ++ more := by
    unfold softu2f_hid_msg_send
    simp only []
    rw [hmore, hem]
  rw [hfull] at h1
  simp only [after_sending, List.append_assoc] at h1
  exact (List.append_cancel_left h1).symm

theorem init_frame_size (cid cmd : Nat) (payload : List Nat) :
    (init_frame cid cmd payload).size = HID_RPT_SIZE := by
  simp only [U2FHID_FRAME.size, init_frame, HID_RPT_SIZE, List.length_cons, List.length_append,
    List.length_take, List.length_replicate]
  omega

theorem cont_frame_size (cid seq : Nat) (payload : List Nat) (k : Nat) :
    (cont_frame cid seq payload k).size = HID_RPT_SIZE := by
  simp only [U2FHID_FRAME.size, cont_frame, HID_RPT_SIZE, List.length_append,
    List.length_take, List.length_drop, List.length_replicate]
  omega

theorem init_frame_zero (cid cmd : Nat) (payload : List Nat) (j : Nat)
    (h1 : min payload.length 57 ≤ j) (h2 : j < 57) :
    (init_frame cid cmd payload).init_data[j]? = some 0 := by
  simp only [init_frame, U2FHID_FRAME.init_data, List.drop_succ_cons, List.drop_zero]
  rw [List.getElem?_append_right (by simp only [List.length_take]; omega)]
  rw [List.getElem?_replicate]
  simp only [List.length_take]
  rw [if_pos (by omega)]

theorem cont_frame_zero (cid seq : Nat) (payload : List Nat) (k j : Nat)
    (h1 : min (payload.length - (57 + 59 * k)) 59 ≤ j) (h2 : j < 59) :
    (cont_frame cid seq payload k).cont_data[j]? = some 0 := by
  simp only [cont_frame, U2FHID_FRAME.cont_data]
  rw [List.getElem?_append_right (by simp only [List.length_take, List.length_drop]; omega)]
  rw [List.getElem?_replicate]
  simp only [List.length_take, List.length_drop]
  rw [if_pos (by omega)]

theorem prefix_getElem? {α : Type} {l m : List α} (h : l <+: m) (i : Nat) (a : α)
    (hi : l[i]? = some a) : m[i]? = some a := by
  obtain ⟨t, rfl⟩ := h
  have hlt : i < l.length := by
    rcases Nat.lt_or_ge i l.length with h | h
    · exact h
    · rw [List.getElem?_eq_none h] at hi
      exact absurd hi (by simp)
  rw [List.getElem?_append_left hlt]
  exact hi

theorem message_frames_succ (cid cmd seq : Nat) (payload : List Nat) (k : Nat)
    (f : U2FHID_FRAME) (h : (message_frames cid cmd seq payload)[k + 1]? = some f) :
    f = cont_frame cid seq payload k := by
  simp only [message_frames, List.getElem?_cons_succ, List.getElem?_map] at h
  rcases Nat.lt_or_ge k (cont_count payload.length) with hk | hk
  · rw [List.getElem?_range hk] at h
    simp only [Option.map_some', Option.some.injEq] at h
    exact h.symm
  · rw [List.getElem?_eq_none (by simpa using hk)] at h
    exact absurd h (by simp)

/-- C20. Zero fill. Every frame `softu2f_hid_msg_send` hands to the transport for a
message with payload length `L` has exactly 64 bytes. In the INIT frame every
byte of the 57-byte data area from offset `min L 57` on is zero. In the `k`-th
CONT frame every byte of the 59-byte data area (which starts where the INIT
frame held its two length bytes) from the number of payload bytes the frame
carries, `min (L - (57 + 59 k)) 59`, on is zero. This holds whatever the
transport answers. -/
theorem softu2f_hid_msg_send_zero_fill (ctx : softu2f_ctx) (msg : softu2f_hid_message)
    (payload : List Nat) (seq : Nat) (hdata : msg.data = some payload) :
    ∃ emitted : List U2FHID_FRAME,
      (softu2f_hid_msg_send ctx msg seq).1.sent = ctx.sent ++ emitted ∧
      (∀ f ∈ emitted, f.size = 64) ∧
      (∀ f, emitted[0]? = some f →
        ∀ j, min payload.length 57 ≤ j → j < 57 → f.init_data[j]? = some 0) ∧
      (∀ k f, emitted[k + 1]? = some f →
        ∀ j, min (payload.length - (57 + 59 * k)) 59 ≤ j → j < 59 →
          f.cont_data[j]? = some 0) := by
  obtain ⟨emitted, hsent, hpre⟩ := softu2f_hid_msg_send_sent_prefix ctx msg payload seq hdata
  refine ⟨emitted, hsent, ?_, ?_, ?_⟩
  · intro f hf
    have hm : f ∈ message_frames msg.cid msg.cmd seq payload := hpre.subset hf
    simp only [message_frames, List.mem_cons, List.mem_map] at hm
    rcases hm with rfl | ⟨k, _, rfl⟩
    · exact init_frame_size _ _ _
    · exact cont_frame_size _ _ _ _
  · intro f hf j h1 h2
    have hm := prefix_getElem? hpre 0 f hf
    simp only [message_frames, List.getElem?_cons_zero, Option.some.injEq] at hm
    rw [← hm]
    exact init_frame_zero _ _ _ j h1 h2
  · intro k f hf j h1 h2
    have hm := message_frames_succ _ _ _ _ k f (prefix_getElem? hpre (k + 1) f hf)
    rw [hm]
    exact cont_frame_zero _ _ _ k j h1 h2

/-- Witness for `softu2f_hid_msg_send_zero_fill`: the 481-byte PING on a fresh
context. -/
theorem softu2f_hid_msg_send_zero_fill_witness :
    really_long_ping.data = some ((List.range 481).map (fun i => (i * 7 + 3) % 256)) ∧
    ∃ emitted : List U2FHID_FRAME,
      (softu2f_hid_msg_send softu2f_init really_long_ping 0).1.sent =
        softu2f_init.sent ++ emitted ∧
      (∀ f ∈ emitted, f.size = 64) ∧
      (∀ f, emitted[0]? = some f →
        ∀ j, min ((List.range 481).map (fun i => (i * 7 + 3) % 256)).length 57 ≤ j → j < 57 →
          f.init_data[j]? = some 0) ∧
      (∀ k f, emitted[k + 1]? = some f →
        ∀ j, min (((List.range 481).map (fun i => (i * 7 + 3) % 256)).length - (57 + 59 * k)) 59
            ≤ j → j < 59 →
          f.cont_data[j]? = some 0) :=
  ⟨rfl, softu2f_hid_msg_send_zero_fill softu2f_init really_long_ping
    ((List.range 481).map (fun i => (i * 7 + 3) % 256)) 0 rfl⟩

/-- C12. For every complete PING request the built-in PING handler hands the sender
a response with command PING, the request's channel id and the request's
payload, byte for byte; on an accepting transport the frames that go out are
the frames of that message. The built-in WINK handler does the same with
command WINK. -/
theorem softu2f_hid_msg_handle_ping_echo (ctx : softu2f_ctx) (req : softu2f_hid_message)
    (payload : List Nat) (seq : Nat) (hdata : req.data = some payload) :
    (∃ resp : softu2f_hid_message,
      softu2f_hid_msg_handle_ping ctx req seq = softu2f_hid_msg_send ctx resp seq ∧
      resp.cmd = U2FHID_PING ∧ resp.cid = req.cid ∧ resp.data = some payload ∧
      resp.bcnt = req.bcnt) ∧
    (∃ resp : softu2f_hid_message,
      softu2f_hid_msg_handle_wink ctx req seq = softu2f_hid_msg_send ctx resp seq ∧
      resp.cmd = U2FHID_WINK ∧ resp.cid = req.cid ∧ resp.data = some payload ∧
      resp.bcnt = req.bcnt) ∧
    (accepts_all ctx →
      (softu2f_hid_msg_handle_ping ctx req seq).1.sent =
        ctx.sent ++ message_frames req.cid U2FHID_PING seq payload ∧
      (softu2f_hid_msg_handle_wink ctx req seq).1.sent =
        ctx.sent ++ message_frames req.cid U2FHID_WINK seq payload) := by
  refine ⟨⟨_, rfl, rfl, rfl, hdata, rfl⟩, ⟨_, rfl, rfl, rfl, hdata, rfl⟩, ?_⟩
  intro hacc
  constructor
  · unfold softu2f_hid_msg_handle_ping
    rw [softu2f_hid_msg_send_accepts ctx
      (softu2f_hid_message.mk U2FHID_PING req.cid req.bcnt none req.data 0) payload seq
      hdata hacc]
    rfl
  · unfold softu2f_hid_msg_handle_wink
    rw [softu2f_hid_msg_send_accepts ctx
      (softu2f_hid_message.mk U2FHID_WINK req.cid req.bcnt none req.data 0) payload seq
      hdata hacc]
    rfl

/-- Witness for `softu2f_hid_msg_handle_ping_echo`: the PING of `test_ping` on a
fresh context (Scenario A). -/
theorem softu2f_hid_msg_handle_ping_echo_witness :
    ping_hello.data = some [0x68, 0x65, 0x6c, 0x6c, 0x6f, 0] ∧
    ((∃ resp : softu2f_hid_message,
      softu2f_hid_msg_handle_ping softu2f_init ping_hello 0 =
        softu2f_hid_msg_send softu2f_init resp 0 ∧
      resp.cmd = U2FHID_PING ∧ resp.cid = ping_hello.cid ∧
      resp.data = some [0x68, 0x65, 0x6c, 0x6c, 0x6f, 0] ∧ resp.bcnt = ping_hello.bcnt) ∧
    (∃ resp : softu2f_hid_message,
      softu2f_hid_msg_handle_wink softu2f_init ping_hello 0 =
        softu2f_hid_msg_send softu2f_init resp 0 ∧
      resp.cmd = U2FHID_WINK ∧ resp.cid = ping_hello.cid ∧
      resp.data = some [0x68, 0x65, 0x6c, 0x6c, 0x6f, 0] ∧ resp.bcnt = ping_hello.bcnt) ∧
    (accepts_all softu2f_init →
      (softu2f_hid_msg_handle_ping softu2f_init ping_hello 0).1.sent =
        softu2f_init.sent ++
          message_frames ping_hello.cid U2FHID_PING 0 [0x68, 0x65, 0x6c, 0x6c, 0x6f, 0] ∧
      (softu2f_hid_msg_handle_wink softu2f_init ping_hello 0).1.sent =
        softu2f_init.sent ++
          message_frames ping_hello.cid U2FHID_WINK 0 [0x68, 0x65, 0x6c, 0x6c, 0x6f, 0])) :=
  ⟨rfl, softu2f_hid_msg_handle_ping_echo softu2f_init ping_hello
    [0x68, 0x65, 0x6c, 0x6c, 0x6f, 0] 0 rfl⟩

/-- The INIT handler as one step, for a request with at least 8 payload bytes:
the channel counter advances for a broadcast request, then the 17-byte response
is handed to the sender. -/
theorem softu2f_hid_msg_handle_init_eq (ctx : softu2f_ctx) (req : softu2f_hid_message)
    (payload : List Nat) (hdata : req.data = some payload) (hlen : 8 ≤ payload.length) :
    softu2f_hid_msg_handle_init ctx req =
      some (softu2f_hid_msg_send
        (if req.cid = CID_BROADCAST then { ctx with next_cid := (ctx.next_cid + 1) % 2 ^ 32 }
         else ctx)
        { cmd := U2FHID_INIT, cid := if req.cid = CID_BROADCAST then CID_BROADCAST else req.cid,
          bcnt := sizeof_U2FHID_INIT_RESP, buf := none,
          data := some (init_response
            (if req.cid = CID_BROADCAST then ctx.next_cid else req.cid) payload).bytes,
          lastSeq := 0 } 0) := by
  have h : ¬ payload.length < INIT_NONCE_SIZE := by
    unfold INIT_NONCE_SIZE; omega
  simp only [softu2f_hid_msg_handle_init, hdata, Option.getD_some, h, if_false]
  rfl

theorem init_response_length (assigned : Nat) (payload : List Nat) (hlen : 8 ≤ payload.length) :
    (init_response assigned payload).bytes.length = 17 := by
  simp only [U2FHID_INIT_RESP.bytes, init_response, uint32_bytes, List.length_append,
    List.length_take, List.length_cons, List.length_nil]
  omega

/-- The INIT response goes out as one frame. -/
theorem softu2f_hid_msg_handle_init_send (ctx : softu2f_ctx) (cid assigned : Nat)
    (payload : List Nat) (hlen : 8 ≤ payload.length) :
    softu2f_hid_msg_send ctx
        { cmd := U2FHID_INIT, cid := cid, bcnt := sizeof_U2FHID_INIT_RESP, buf := none,
          data := some (init_response assigned payload).bytes, lastSeq := 0 } 0 =
      SendFrame ctx (init_frame cid U2FHID_INIT (init_response assigned payload).bytes) := by
  rw [softu2f_hid_msg_send_short ctx _ (init_response assigned payload).bytes 0 rfl
    (by rw [init_response_length assigned payload hlen]; omega)]

/-- C13. For every INIT request whose payload has at least 8 bytes, the response
that `softu2f_hid_msg_handle_init` hands to the sender has command INIT and a
payload of exactly 17 bytes, the bytes of a `U2FHID_INIT_RESP` whose nonce is
the first 8 bytes of the request payload, whose interface version is
`U2FHID_IF_VERSION`, whose major, minor and build versions are 0 and whose
capability flags are exactly `CAPFLAG_WINK`. -/
theorem softu2f_hid_msg_handle_init_response (ctx : softu2f_ctx) (req : softu2f_hid_message)
    (payload : List Nat) (hdata : req.data = some payload) (hlen : 8 ≤ payload.length) :
    ∃ (ctx1 : softu2f_ctx) (resp : softu2f_hid_message) (resp_data : U2FHID_INIT_RESP),
      softu2f_hid_msg_handle_init ctx req = some (softu2f_hid_msg_send ctx1 resp 0) ∧
      resp.cmd = U2FHID_INIT ∧ resp.data = some resp_data.bytes ∧
      resp.bcnt = sizeof_U2FHID_INIT_RESP ∧
      resp_data.bytes.length = sizeof_U2FHID_INIT_RESP ∧ sizeof_U2FHID_INIT_RESP = 17 ∧
      resp_data.nonce = payload.take 8 ∧ resp_data.bytes.take 8 = payload.take 8 ∧
      resp_data.versionInterface = U2FHID_IF_VERSION ∧ resp_data.versionMajor = 0 ∧
      resp_data.versionMinor = 0 ∧ resp_data.versionBuild = 0 ∧
      resp_data.capFlags = CAPFLAG_WINK ∧
      resp_data.bytes.drop 12 = [U2FHID_IF_VERSION, 0, 0, 0, CAPFLAG_WINK] := by
  refine ⟨_, _, init_response (if req.cid = CID_BROADCAST then ctx.next_cid else req.cid) payload,
    softu2f_hid_msg_handle_init_eq ctx req payload hdata hlen, rfl, rfl, rfl,
    init_response_length _ payload hlen, rfl, rfl, ?_, rfl, rfl, rfl, rfl, rfl, ?_⟩
  · simp only [U2FHID_INIT_RESP.bytes, init_response, List.append_assoc]
    rw [List.take_append_of_le_length (by simp only [List.length_take]; omega)]
    simp
  · have h8 : (payload.take 8).length = 8 := by
      simp only [List.length_take]; omega
    simp only [U2FHID_INIT_RESP.bytes, init_response, uint32_bytes, List.append_assoc]
    rw [List.drop_append_eq_append_drop, h8]
    simp [List.drop_eq_nil_of_le, h8]

/-- Witness for `softu2f_hid_msg_handle_init_response`: the INIT request of
`test_init` on the broadcast channel, on a fresh context (Scenario C). -/
theorem softu2f_hid_msg_handle_init_response_witness :
    (init_request CID_BROADCAST).data =
      some [0x11, 0x22, 0x33, 0x44, 0x55, 0x66, 0x77, 0x88] ∧
    8 ≤ [0x11, 0x22, 0x33, 0x44, 0x55, 0x66, 0x77, 0x88].length ∧
    ∃ (ctx1 : softu2f_ctx) (resp : softu2f_hid_message) (resp_data : U2FHID_INIT_RESP),
      softu2f_hid_msg_handle_init softu2f_init (init_request CID_BROADCAST) =
        some (softu2f_hid_msg_send ctx1 resp 0) ∧
      resp.cmd = U2FHID_INIT ∧ resp.data = some resp_data.bytes ∧
      resp.bcnt = sizeof_U2FHID_INIT_RESP ∧
      resp_data.bytes.length = sizeof_U2FHID_INIT_RESP ∧ sizeof_U2FHID_INIT_RESP = 17 ∧
      resp_data.nonce = [0x11, 0x22, 0x33, 0x44, 0x55, 0x66, 0x77, 0x88].take 8 ∧
      resp_data.bytes.take 8 = [0x11, 0x22, 0x33, 0x44, 0x55, 0x66, 0x77, 0x88].take 8 ∧
      resp_data.versionInterface = U2FHID_IF_VERSION ∧ resp_data.versionMajor = 0 ∧
      resp_data.versionMinor = 0 ∧ resp_data.versionBuild = 0 ∧
      resp_data.capFlags = CAPFLAG_WINK ∧
      resp_data.bytes.drop 12 = [U2FHID_IF_VERSION, 0, 0, 0, CAPFLAG_WINK] :=
  ⟨rfl, by decide,
   softu2f_hid_msg_handle_init_response softu2f_init (init_request CID_BROADCAST)
     [0x11, 0x22, 0x33, 0x44, 0x55, 0x66, 0x77, 0x88] rfl (by decide)⟩

theorem init_frame_init_data_take (cid cmd : Nat) (bytes : List Nat)
    (h : bytes.length = 17) : (init_frame cid cmd bytes).init_data.take 17 = bytes := by
  simp only [init_frame, U2FHID_FRAME.init_data, List.drop_succ_cons, List.drop_zero]
  rw [List.take_append_of_le_length (by simp only [List.length_take]; omega)]
  rw [List.take_take]
  exact List.take_of_length_le (by omega)

theorem init_response_cid_bytes (assigned : Nat) (payload : List Nat)
    (hlen : 8 ≤ payload.length) :
    ((init_response assigned payload).bytes.drop 8).take 4 = uint32_bytes assigned := by
  have h8 : (payload.take 8).length = 8 := by
    simp only [List.length_take]; omega
  simp only [U2FHID_INIT_RESP.bytes, init_response, uint32_bytes, List.append_assoc]
  rw [List.drop_append_eq_append_drop, h8]
  simp [List.drop_eq_nil_of_le, h8]

theorem init_frame_type_init (cid : Nat) (bytes : List Nat) :
    (init_frame cid U2FHID_INIT bytes).type = U2FHID_INIT := by
  simp [init_frame, U2FHID_INIT, TYPE_INIT]

/-- C14. Channel allocation by `softu2f_hid_msg_handle_init` (request payload of at
least 8 bytes). The response goes out as one INIT-command frame whose payload
is the bytes of a `U2FHID_INIT_RESP`. For a request on the broadcast channel
the frame is on the broadcast channel, the channel-id field is the context's
`next_cid` before the call, and `next_cid` afterwards is that value plus one
modulo 2^32. For a request on any other channel `c` the frame is on `c`, the
channel-id field is `c`, and `next_cid` is unchanged. -/
theorem softu2f_hid_msg_handle_init_channel (ctx : softu2f_ctx) (req : softu2f_hid_message)
    (payload : List Nat) (hdata : req.data = some payload) (hlen : 8 ≤ payload.length) :
    ∃ (r : softu2f_ctx × Bool) (frame : U2FHID_FRAME) (resp_data : U2FHID_INIT_RESP),
      softu2f_hid_msg_handle_init ctx req = some r ∧
      r.1.sent = ctx.sent ++ [frame] ∧ frame.type = U2FHID_INIT ∧
      frame.init_data.take 17 = resp_data.bytes ∧
      (resp_data.bytes.drop 8).take 4 = uint32_bytes resp_data.cid ∧
      (req.cid = CID_BROADCAST →
        frame.cid = CID_BROADCAST ∧ resp_data.cid = ctx.next_cid ∧
        r.1.next_cid = (ctx.next_cid + 1) % 2 ^ 32) ∧
      (req.cid ≠ CID_BROADCAST →
        frame.cid = req.cid ∧ resp_data.cid = req.cid ∧ r.1.next_cid = ctx.next_cid) := by
  have heq := softu2f_hid_msg_handle_init_eq ctx req payload hdata hlen
  rw [softu2f_hid_msg_handle_init_send _ _ _ payload hlen] at heq
  by_cases hb : req.cid = CID_BROADCAST
  · simp only [hb, if_true] at heq
    refine ⟨_, _, init_response ctx.next_cid payload, heq, SendFrame_sent _ _,
      init_frame_type_init _ _,
      init_frame_init_data_take _ _ _ (init_response_length _ payload hlen),
      init_response_cid_bytes _ payload hlen, ?_, ?_⟩
    · intro _
      exact ⟨rfl, rfl, SendFrame_next_cid _ _⟩
    · intro hn
      exact absurd hb hn
  · simp only [hb, if_false] at heq
    refine ⟨_, _, init_response req.cid payload, heq, SendFrame_sent _ _,
      init_frame_type_init _ _,
      init_frame_init_data_take _ _ _ (init_response_length _ payload hlen),
      init_response_cid_bytes _ payload hlen, ?_, ?_⟩
    · intro hn
      exact absurd hn hb
    · intro _
      exact ⟨rfl, rfl, SendFrame_next_cid _ _⟩

/-- Witness for `softu2f_hid_msg_handle_init_channel`: the INIT request of
`test_init` on the broadcast channel, on a fresh context. -/
theorem softu2f_hid_msg_handle_init_channel_witness :
    (init_request CID_BROADCAST).data =
      some [0x11, 0x22, 0x33, 0x44, 0x55, 0x66, 0x77, 0x88] ∧
    8 ≤ [0x11, 0x22, 0x33, 0x44, 0x55, 0x66, 0x77, 0x88].length ∧
    ∃ (r : softu2f_ctx × Bool) (frame : U2FHID_FRAME) (resp_data : U2FHID_INIT_RESP),
      softu2f_hid_msg_handle_init softu2f_init (init_request CID_BROADCAST) = some r ∧
      r.1.sent = softu2f_init.sent ++ [frame] ∧ frame.type = U2FHID_INIT ∧
      frame.init_data.take 17 = resp_data.bytes ∧
      (resp_data.bytes.drop 8).take 4 = uint32_bytes resp_data.cid ∧
      ((init_request CID_BROADCAST).cid = CID_BROADCAST →
        frame.cid = CID_BROADCAST ∧ resp_data.cid = softu2f_init.next_cid ∧
        r.1.next_cid = (softu2f_init.next_cid + 1) % 2 ^ 32) ∧
      ((init_request CID_BROADCAST).cid ≠ CID_BROADCAST →
        frame.cid = (init_request CID_BROADCAST).cid ∧
        resp_data.cid = (init_request CID_BROADCAST).cid ∧
        r.1.next_cid = softu2f_init.next_cid) :=
  ⟨rfl, by decide,
   softu2f_hid_msg_handle_init_channel softu2f_init (init_request CID_BROADCAST)
     [0x11, 0x22, 0x33, 0x44, 0x55, 0x66, 0x77, 0x88] rfl (by decide)⟩

theorem no_handlers_of_same_device {a b : softu2f_ctx} (h : same_device a b)
    (ha : no_handlers a) : no_handlers b := by
  obtain ⟨_, _, _, h4, h5, h6, h7, h8⟩ := h
  obtain ⟨a1, a2, a3, a4, a5⟩ := ha
  exact ⟨h4 ▸ a1, h5 ▸ a2, h6 ▸ a3, h7 ▸ a4, h8 ▸ a5⟩

theorem softu2f_hid_msg_handler_no_handlers (ctx : softu2f_ctx) (msg : softu2f_hid_message)
    (h : no_handlers ctx) :
    softu2f_hid_msg_handler ctx msg = softu2f_hid_msg_handler_default ctx msg := by
  obtain ⟨a1, a2, a3, a4, a5⟩ := h
  have hs : handler_slot ctx msg.cmd = none := by
    unfold handler_slot
    rw [a1, a2, a3, a4, a5]
    simp
  unfold softu2f_hid_msg_handler
  rw [hs]

/-- The LOCK handler changes the lock and the connection only. -/
theorem softu2f_hid_msg_handle_lock_device (ctx : softu2f_ctx) (req : softu2f_hid_message)
    (now : Nat) (r : softu2f_ctx × Bool) (h : softu2f_hid_msg_handle_lock ctx req now = some r) :
    ∃ l, same_device { ctx with lock := l } r.1 := by
  cases hd : req.data.getD [] with
  | nil =>
    simp [softu2f_hid_msg_handle_lock, hd] at h
  | cons d rest =>
    have hdata : req.data = some (d :: rest) := by
      cases hq : req.data with
      | none => rw [hq] at hd; simp at hd
      | some x => rw [hq] at hd; simp at hd; rw [hd]
    rw [softu2f_hid_msg_handle_lock_eq ctx req d rest now hdata] at h
    simp only [Option.some.injEq] at h
    subst h
    exact ⟨_, softu2f_hid_msg_send_same_device _ _ _⟩

/-- The INIT handler changes the channel counter and the connection only: the
counter advances by one modulo 2^32 for a broadcast request and stays for any
other. -/
theorem softu2f_hid_msg_handle_init_device (ctx : softu2f_ctx) (req : softu2f_hid_message)
    (r : softu2f_ctx × Bool) (h : softu2f_hid_msg_handle_init ctx req = some r) :
    same_device
      { ctx with next_cid := if req.cid = CID_BROADCAST then (ctx.next_cid + 1) % 2 ^ 32
                             else ctx.next_cid } r.1 := by
  cases hq : req.data with
  | none =>
    simp [softu2f_hid_msg_handle_init, hq, INIT_NONCE_SIZE] at h
  | some payload =>
    by_cases hlen : 8 ≤ payload.length
    · rw [softu2f_hid_msg_handle_init_eq ctx req payload hq hlen] at h
      simp only [Option.some.injEq] at h
      subst h
      by_cases hb : req.cid = CID_BROADCAST
      · simp only [hb, if_true]
        exact softu2f_hid_msg_send_same_device _ _ _
      · simp only [hb, if_false]
        exact softu2f_hid_msg_send_same_device _ _ _
    · have : payload.length < INIT_NONCE_SIZE := by unfold INIT_NONCE_SIZE; omega
      simp [softu2f_hid_msg_handle_init, hq, this] at h

/-- One dispatched message in a context without registered handlers: still no
handler registered, and the channel counter advances exactly for an INIT
request on the broadcast channel. -/
theorem softu2f_run_dispatch_no_handlers (env : run_env) (n : Nat) (ctx ctx' : softu2f_ctx)
    (m : softu2f_hid_message) (hno : no_handlers ctx)
    (h : softu2f_run_dispatch env n ctx m = some ctx') :
    no_handlers ctx' ∧
    ctx'.next_cid = (if m.cmd = U2FHID_INIT ∧ m.cid = CID_BROADCAST
      then (ctx.next_cid + 1) % 2 ^ 32 else ctx.next_cid) := by
  unfold softu2f_run_dispatch at h
  rw [softu2f_hid_msg_handler_no_handlers ctx m hno] at h
  by_cases h4 : m.cmd = U2FHID_INIT
  · have hdef : softu2f_hid_msg_handler_default ctx m =
        some softu2f_hid_message_handler.handle_init := by
      simp [softu2f_hid_msg_handler_default, h4, U2FHID_INIT, U2FHID_PING, U2FHID_MSG,
        U2FHID_LOCK]
    rw [hdef] at h
    simp only [call_handler] at h
    cases hr : softu2f_hid_msg_handle_init ctx m with
    | none => rw [hr] at h; exact absurd h (by simp)
    | some r =>
      rw [hr] at h
      simp only [Option.some.injEq] at h
      subst h
      have hd := softu2f_hid_msg_handle_init_device ctx m r hr
      refine ⟨no_handlers_of_same_device hd hno, ?_⟩
      rw [← hd.1]
      by_cases hb : m.cid = CID_BROADCAST
      · simp [h4, hb]
      · simp [h4, hb]
  · have hni : ¬ (m.cmd = U2FHID_INIT ∧ m.cid = CID_BROADCAST) := fun hc => h4 hc.1
    rw [if_neg hni]
    by_cases h1 : m.cmd = U2FHID_PING
    · have hdef : softu2f_hid_msg_handler_default ctx m =
          some softu2f_hid_message_handler.handle_ping := by
        simp [softu2f_hid_msg_handler_default, h1]
      rw [hdef] at h
      simp only [call_handler, Option.some.injEq] at h
      subst h
      have hd := softu2f_hid_msg_send_same_device ctx
        (softu2f_hid_message.mk U2FHID_PING m.cid m.bcnt none m.data 0) (env.seq n)
      exact ⟨no_handlers_of_same_device hd hno, hd.1.symm⟩
    · by_cases h5 : m.cmd = U2FHID_WINK
      · have hdef : softu2f_hid_msg_handler_default ctx m =
            some softu2f_hid_message_handler.handle_wink := by
          simp [softu2f_hid_msg_handler_default, h5, U2FHID_INIT, U2FHID_PING, U2FHID_MSG,
            U2FHID_LOCK, U2FHID_WINK]
        rw [hdef] at h
        simp only [call_handler, Option.some.injEq] at h
        subst h
        have hd := softu2f_hid_msg_send_same_device ctx
          (softu2f_hid_message.mk U2FHID_WINK m.cid m.bcnt none m.data 0) (env.seq n)
        exact ⟨no_handlers_of_same_device hd hno, hd.1.symm⟩
      · by_cases h3 : m.cmd = U2FHID_LOCK
        · have hdef : softu2f_hid_msg_handler_default ctx m =
              some softu2f_hid_message_handler.handle_lock := by
            simp [softu2f_hid_msg_handler_default, h3, U2FHID_PING, U2FHID_MSG, U2FHID_LOCK]
          rw [hdef] at h
          simp only [call_handler] at h
          cases hr : softu2f_hid_msg_handle_lock ctx m (env.now n) with
          | none => rw [hr] at h; exact absurd h (by simp)
          | some r =>
            rw [hr] at h
            simp only [Option.some.injEq] at h
            subst h
            obtain ⟨l, hd⟩ := softu2f_hid_msg_handle_lock_device ctx m (env.now n) r hr
            exact ⟨no_handlers_of_same_device hd hno, hd.1.symm⟩
        · have hdef : softu2f_hid_msg_handler_default ctx m = none := by
            simp [softu2f_hid_msg_handler_default, h1, h3, h4, h5]
          rw [hdef] at h
          simp only [Option.some.injEq] at h
          subst h
          have hd := softu2f_hid_msg_send_same_device ctx
            (softu2f_hid_message.mk U2FHID_ERROR m.cid 1 none (some [ERR_OTHER]) 0) 0
          exact ⟨no_handlers_of_same_device hd hno, hd.1.symm⟩

theorem uint32_of_bytes_uint32_bytes (x : Nat) (h : x < 2 ^ 32) :
    uint32_of_bytes (uint32_bytes x) = x := by
  simp only [uint32_of_bytes, uint32_bytes, List.getD_cons_zero, List.getD_cons_succ]
  omega

/-- The channel id told in answer to a broadcast INIT request is the channel
counter of the context, when the handler answers at all. -/
theorem assigned_cid_broadcast (ctx : softu2f_ctx) (req : softu2f_hid_message)
    (payload : List Nat) (hcid : req.cid = CID_BROADCAST) (hdata : req.data = some payload)
    (hlen : 8 ≤ payload.length) (hnext : ctx.next_cid < 2 ^ 32) :
    assigned_cid ctx req = some ctx.next_cid := by
  unfold assigned_cid
  rw [softu2f_hid_msg_handle_init_eq ctx req payload hdata hlen,
    softu2f_hid_msg_handle_init_send _ _ _ payload hlen]
  have hlast : ∀ (l : List U2FHID_FRAME) (f : U2FHID_FRAME), (l ++ [f]).getLast? = some f := by
    intro l f
    simp
  simp only [hcid, if_true, SendFrame_sent, hlast, Option.map_some', Option.some.injEq]
  have h1 : ((init_frame CID_BROADCAST U2FHID_INIT
      (init_response ctx.next_cid payload).bytes).init_data.drop 8).take 4 =
      (((init_frame CID_BROADCAST U2FHID_INIT
        (init_response ctx.next_cid payload).bytes).init_data.take 17).drop 8).take 4 := by
    rw [List.drop_take, List.take_take]
    have : min 4 (17 - 8) = 4 := by decide
    rw [this]
  rw [h1, init_frame_init_data_take _ _ _ (init_response_length _ payload hlen),
    init_response_cid_bytes _ payload hlen, uint32_of_bytes_uint32_bytes _ hnext]

/-- An INIT request on the broadcast channel is either not answered or told the
channel counter of the context. -/
theorem assigned_cid_broadcast_cases (ctx : softu2f_ctx) (req : softu2f_hid_message)
    (hcid : req.cid = CID_BROADCAST) (hnext : ctx.next_cid < 2 ^ 32) :
    assigned_cid ctx req = none ∨ assigned_cid ctx req = some ctx.next_cid := by
  cases hq : req.data with
  | none =>
    left
    simp [assigned_cid, softu2f_hid_msg_handle_init, hq, INIT_NONCE_SIZE]
  | some payload =>
    by_cases hlen : 8 ≤ payload.length
    · right
      exact assigned_cid_broadcast ctx req payload hcid hq hlen hnext
    · left
      have : payload.length < INIT_NONCE_SIZE := by unfold INIT_NONCE_SIZE; omega
      simp [assigned_cid, softu2f_hid_msg_handle_init, hq, this]

theorem broadcast_inits_cons (m : softu2f_hid_message) (ms : List softu2f_hid_message) :
    broadcast_inits (m :: ms) =
      (if m.cmd = U2FHID_INIT ∧ m.cid = CID_BROADCAST then 1 else 0) + broadcast_inits ms := by
  unfold broadcast_inits
  by_cases h : m.cmd = U2FHID_INIT ∧ m.cid = CID_BROADCAST
  · rw [List.filter_cons_of_pos (by simpa using h), if_pos h, List.length_cons]
    omega
  · rw [List.filter_cons_of_neg (by simpa using h), if_neg h]
    omega

theorem broadcast_inits_append (pre post : List softu2f_hid_message) :
    broadcast_inits (pre ++ post) = broadcast_inits pre + broadcast_inits post := by
  simp [broadcast_inits, List.filter_append]

/-- From a context without registered handlers, handling messages keeps the
channel counter at its start value plus the number of broadcast INIT requests
handled, modulo 2^32. -/
theorem handle_messages_next_cid (env : run_env) :
    ∀ (ms : List softu2f_hid_message) (n : Nat) (ctx ctx' : softu2f_ctx),
      no_handlers ctx → ctx.next_cid < 2 ^ 32 → handle_messages env n ctx ms = some ctx' →
      no_handlers ctx' ∧ ctx'.next_cid = (ctx.next_cid + broadcast_inits ms) % 2 ^ 32 := by
  intro ms
  induction ms with
  | nil =>
    intro n ctx ctx' hno hlt h
    simp only [handle_messages, Option.some.injEq] at h
    subst h
    refine ⟨hno, ?_⟩
    simp only [broadcast_inits, List.filter_nil, List.length_nil, Nat.add_zero]
    omega
  | cons m ms ih =>
    intro n ctx ctx' hno hlt h
    simp only [handle_messages] at h
    cases hd : softu2f_run_dispatch env n ctx m with
    | none => rw [hd] at h; exact absurd h (by simp)
    | some c1 =>
      rw [hd] at h
      simp only at h
      obtain ⟨hno1, hn1⟩ := softu2f_run_dispatch_no_handlers env n ctx c1 m hno hd
      have hlt1 : c1.next_cid < 2 ^ 32 := by
        rw [hn1]; split <;> omega
      obtain ⟨hno', hn'⟩ := ih (n + 1) c1 ctx' hno1 hlt1 h
      refine ⟨hno', ?_⟩
      rw [hn', hn1, broadcast_inits_cons]
      split <;> omega

theorem handle_messages_append (env : run_env) :
    ∀ (pre post : List softu2f_hid_message) (n : Nat) (ctx : softu2f_ctx),
      handle_messages env n ctx (pre ++ post) =
        (handle_messages env n ctx pre).bind
          (fun c => handle_messages env (n + pre.length) c post) := by
  intro pre
  induction pre with
  | nil => intro post n ctx; simp [handle_messages]
  | cons m ms ih =>
    intro post n ctx
    show handle_messages env n ctx (m :: (ms ++ post)) = _
    rw [handle_messages, handle_messages]
    cases softu2f_run_dispatch env n ctx m with
    | none => rfl
    | some c1 =>
      simp only []
      rw [ih post (n + 1) c1]
      have hl : n + (m :: ms).length = n + 1 + ms.length := by
        simp only [List.length_cons]; omega
      rw [hl]

theorem fresh_ctx_no_handlers (rs : List Bool) : no_handlers (fresh_ctx rs) :=
  ⟨rfl, rfl, rfl, rfl, rfl⟩

theorem broadcast_inits_replicate (k : Nat) :
    broadcast_inits (List.replicate k (init_request CID_BROADCAST)) = k := by
  induction k with
  | zero => rfl
  | succ k ih =>
    rw [List.replicate_succ, broadcast_inits_cons, ih]
    have : (init_request CID_BROADCAST).cmd = U2FHID_INIT ∧
        (init_request CID_BROADCAST).cid = CID_BROADCAST := ⟨rfl, rfl⟩
    rw [if_pos this]
    omega

/-- A context without registered handlers answers any number of broadcast INIT
requests with an 8-byte nonce. -/
theorem handle_messages_replicate_init (env : run_env) :
    ∀ (k n : Nat) (ctx : softu2f_ctx), no_handlers ctx →
      ∃ ctx', handle_messages env n ctx (List.replicate k (init_request CID_BROADCAST)) =
        some ctx' := by
  intro k
  induction k with
  | zero => intro n ctx _; exact ⟨ctx, rfl⟩
  | succ k ih =>
    intro n ctx hno
    rw [List.replicate_succ, handle_messages]
    have hdisp : ∃ c1, softu2f_run_dispatch env n ctx (init_request CID_BROADCAST) = some c1 := by
      unfold softu2f_run_dispatch
      rw [softu2f_hid_msg_handler_no_handlers ctx _ hno]
      have hdef : softu2f_hid_msg_handler_default ctx (init_request CID_BROADCAST) =
          some softu2f_hid_message_handler.handle_init := rfl
      rw [hdef]
      simp only [call_handler]
      rw [softu2f_hid_msg_handle_init_eq ctx (init_request CID_BROADCAST)
        [0x11, 0x22, 0x33, 0x44, 0x55, 0x66, 0x77, 0x88] rfl (by decide)]
      exact ⟨_, rfl⟩
    obtain ⟨c1, hc1⟩ := hdisp
    rw [hc1]
    simp only []
    exact ih (n + 1) c1 (softu2f_run_dispatch_no_handlers env n ctx c1 _ hno hc1).1

/-- C15 (counterexample). A fresh context that has handled 0xffffffff INIT requests
on the broadcast channel answers the next one with the broadcast id
0xffffffff as the assigned channel id. -/
theorem broadcast_init_assigns_broadcast_cid :
    (handle_messages quiet_env 0 softu2f_init
        (List.replicate 0xffffffff (init_request CID_BROADCAST))).bind
      (fun ctx => assigned_cid ctx (init_request CID_BROADCAST)) = some CID_BROADCAST := by
  have hno : no_handlers softu2f_init := ⟨rfl, rfl, rfl, rfl, rfl⟩
  obtain ⟨ctx', h⟩ := handle_messages_replicate_init quiet_env 0xffffffff 0 softu2f_init hno
  have hlt : softu2f_init.next_cid < 2 ^ 32 := by decide
  obtain ⟨_, hn⟩ := handle_messages_next_cid quiet_env _ 0 softu2f_init ctx' hno hlt h
  rw [broadcast_inits_replicate] at hn
  have hn' : ctx'.next_cid = CID_BROADCAST := by
    rw [hn]; decide
  rw [h]
  show assigned_cid ctx' (init_request CID_BROADCAST) = some CID_BROADCAST
  rw [assigned_cid_broadcast ctx' (init_request CID_BROADCAST)
    [0x11, 0x22, 0x33, 0x44, 0x55, 0x66, 0x77, 0x88] rfl rfl (by decide)
    (by rw [hn']; decide), hn']

/-- C15 (amended). For every context reached from a freshly initialised one by
handling a sequence of messages that holds fewer than 0xffffffff INIT requests
on the broadcast channel, the channel id assigned in answer to an INIT request
on the broadcast channel is the number of broadcast INIT requests handled
before; it is not the broadcast id, and it differs from the id assigned to
every earlier broadcast INIT request of the sequence. -/
theorem broadcast_init_assigns_fresh_cid (env : run_env) (rs : List Bool)
    (ms : List softu2f_hid_message) (ctx : softu2f_ctx) (req : softu2f_hid_message)
    (payload : List Nat)
    (hrun : handle_messages env 0 (fresh_ctx rs) ms = some ctx)
    (hcount : broadcast_inits ms < 0xffffffff)
    (hcid : req.cid = CID_BROADCAST) (hdata : req.data = some payload)
    (hlen : 8 ≤ payload.length) :
    assigned_cid ctx req = some (broadcast_inits ms) ∧
    assigned_cid ctx req ≠ some CID_BROADCAST ∧
    (∀ (pre : List softu2f_hid_message) (m : softu2f_hid_message)
        (post : List softu2f_hid_message) (ctxp : softu2f_ctx),
      ms = pre ++ m :: post → m.cmd = U2FHID_INIT → m.cid = CID_BROADCAST →
      handle_messages env 0 (fresh_ctx rs) pre = some ctxp →
      assigned_cid ctxp m ≠ assigned_cid ctx req) := by
  have h0 : (fresh_ctx rs).next_cid = 0 := rfl
  have hlt0 : (fresh_ctx rs).next_cid < 2 ^ 32 := by
    rw [h0]; decide
  obtain ⟨_, hn⟩ := handle_messages_next_cid env ms 0 (fresh_ctx rs) ctx
    (fresh_ctx_no_handlers rs) hlt0 hrun
  have hbc : CID_BROADCAST = 0xffffffff := rfl
  have hnext : ctx.next_cid = broadcast_inits ms := by
    rw [hn, h0]; omega
  have hassigned : assigned_cid ctx req = some (broadcast_inits ms) := by
    rw [assigned_cid_broadcast ctx req payload hcid hdata hlen (by omega), hnext]
  refine ⟨hassigned, ?_, ?_⟩
  · rw [hassigned, hbc]
    intro h
    simp only [Option.some.injEq] at h
    omega
  · intro pre m post ctxp hms hmcmd hmcid hpre
    obtain ⟨_, hnp⟩ := handle_messages_next_cid env pre 0 (fresh_ctx rs) ctxp
      (fresh_ctx_no_handlers rs) hlt0 hpre
    have hcnt : broadcast_inits ms = broadcast_inits pre + 1 + broadcast_inits post := by
      rw [hms, broadcast_inits_append, broadcast_inits_cons, if_pos ⟨hmcmd, hmcid⟩]
      omega
    have hnextp : ctxp.next_cid = broadcast_inits pre := by
      rw [hnp, h0]; omega
    rw [hassigned]
    rcases assigned_cid_broadcast_cases ctxp m hmcid (by omega) with h | h
    · rw [h]; simp
    · rw [h, hnextp]
      intro heq
      simp only [Option.some.injEq] at heq
      omega

/-- Witness for `broadcast_init_assigns_fresh_cid`: a fresh context has handled
the broadcast INIT request of `test_init` and the PING of `test_ping`; the
next broadcast INIT request is assigned channel id 1. -/
theorem broadcast_init_assigns_fresh_cid_witness :
    handle_messages quiet_env 0 (fresh_ctx []) [init_request CID_BROADCAST, ping_hello] =
      some ctx_after_init_and_ping ∧
    broadcast_inits [init_request CID_BROADCAST, ping_hello] < 0xffffffff ∧
    (init_request CID_BROADCAST).cid = CID_BROADCAST ∧
    (init_request CID_BROADCAST).data =
      some [0x11, 0x22, 0x33, 0x44, 0x55, 0x66, 0x77, 0x88] ∧
    8 ≤ [0x11, 0x22, 0x33, 0x44, 0x55, 0x66, 0x77, 0x88].length ∧
    (assigned_cid ctx_after_init_and_ping (init_request CID_BROADCAST) =
      some (broadcast_inits [init_request CID_BROADCAST, ping_hello]) ∧
    assigned_cid ctx_after_init_and_ping (init_request CID_BROADCAST) ≠ some CID_BROADCAST ∧
    (∀ (pre : List softu2f_hid_message) (m : softu2f_hid_message)
        (post : List softu2f_hid_message) (ctxp : softu2f_ctx),
      [init_request CID_BROADCAST, ping_hello] = pre ++ m :: post → m.cmd = U2FHID_INIT →
      m.cid = CID_BROADCAST →
      handle_messages quiet_env 0 (fresh_ctx []) pre = some ctxp →
      assigned_cid ctxp m ≠
        assigned_cid ctx_after_init_and_ping (init_request CID_BROADCAST))) :=
  ⟨by decide, by decide, rfl, rfl, by decide,
   broadcast_init_assigns_fresh_cid quiet_env [] [init_request CID_BROADCAST, ping_hello]
     ctx_after_init_and_ping (init_request CID_BROADCAST)
     [0x11, 0x22, 0x33, 0x44, 0x55, 0x66, 0x77, 0x88] (by decide) (by decide) rfl rfl
     (by decide)⟩

/-- A CONT frame with no message in flight, or from another channel than the
message in flight, changes nothing. -/
theorem softu2f_hid_msg_frame_read_stray (ctx : softu2f_ctx) (msg : softu2f_hid_message)
    (frame : U2FHID_FRAME) (hcont : FRAME_TYPE frame = TYPE_CONT)
    (hstray : msg.buf = none ∨ frame.cid ≠ msg.cid) :
    softu2f_hid_msg_frame_read ctx msg frame = (ctx, msg, true) := by
  have h1 : ¬ FRAME_TYPE frame = TYPE_INIT := by
    rw [hcont]; decide
  unfold softu2f_hid_msg_frame_read
  rw [if_neg h1, if_pos hcont]
  cases hb : msg.buf with
  | none => rfl
  | some buf =>
    rcases hstray with h | h
    · rw [hb] at h; exact absurd h (by simp)
    · simp only []
      rw [if_pos h]

/-- C19. Silent discard of stray CONT frames. A CONT frame processed by
`softu2f_hid_msg_frame_read` when no message is in flight, or whose channel id
differs from that of the message in flight, leaves the context as it is (so
no frame is sent), leaves the message (command, channel id, declared length,
buffer, next expected sequence) as it is, and reports success. -/
theorem softu2f_hid_msg_frame_read_stray_cont (ctx : softu2f_ctx) (msg : softu2f_hid_message)
    (frame : U2FHID_FRAME) (hcont : FRAME_TYPE frame = TYPE_CONT)
    (hstray : msg.buf = none ∨ frame.cid ≠ msg.cid) :
    softu2f_hid_msg_frame_read ctx msg frame = (ctx, msg, true) ∧
    (softu2f_hid_msg_frame_read ctx msg frame).1.sent = ctx.sent := by
  have heq := softu2f_hid_msg_frame_read_stray ctx msg frame hcont hstray
  exact ⟨heq, by rw [heq]⟩

/-- Witness for `softu2f_hid_msg_frame_read_stray_cont`: a CONT frame on channel 9
while a message is in flight on channel 7. -/
theorem softu2f_hid_msg_frame_read_stray_cont_witness :
    FRAME_TYPE cont_frame_9_seq0 = TYPE_CONT ∧
    (in_flight_7.buf = none ∨ cont_frame_9_seq0.cid ≠ in_flight_7.cid) ∧
    (softu2f_hid_msg_frame_read softu2f_init in_flight_7 cont_frame_9_seq0 =
      (softu2f_init, in_flight_7, true) ∧
    (softu2f_hid_msg_frame_read softu2f_init in_flight_7 cont_frame_9_seq0).1.sent =
      softu2f_init.sent) :=
  ⟨by decide, Or.inr (by decide),
   softu2f_hid_msg_frame_read_stray_cont softu2f_init in_flight_7 cont_frame_9_seq0
     (by decide) (Or.inr (by decide))⟩

/-- An INIT frame read while a message is in flight, other than a SYNC frame on
the channel of that message: one `ERR_CHANNEL_BUSY` frame, message untouched. -/
theorem softu2f_hid_msg_frame_read_busy (ctx : softu2f_ctx) (msg : softu2f_hid_message)
    (frame : U2FHID_FRAME) (hinit : FRAME_TYPE frame = TYPE_INIT)
    (hbuf : msg.buf.isSome = true)
    (hsync : ¬ (frame.type = U2FHID_SYNC ∧ msg.cid = frame.cid)) :
    softu2f_hid_msg_frame_read ctx msg frame =
      ((SendFrame ctx (error_frame frame.cid ERR_CHANNEL_BUSY)).1, msg, true) := by
  have hs : ¬ (frame.type = U2FHID_SYNC ∧ msg.buf.isSome = true ∧ msg.cid = frame.cid) :=
    fun h => hsync ⟨h.1, h.2.2⟩
  unfold softu2f_hid_msg_frame_read
  rw [if_pos hinit, if_neg hs, if_pos hbuf, softu2f_hid_err_send_eq]

/-- A SYNC INIT frame on the channel of the message in flight: the SYNC response
goes out and the call reports failure. -/
theorem softu2f_hid_msg_frame_read_sync (ctx : softu2f_ctx) (msg : softu2f_hid_message)
    (frame : U2FHID_FRAME) (hsync : frame.type = U2FHID_SYNC)
    (hbuf : msg.buf.isSome = true) (hcid : msg.cid = frame.cid) :
    softu2f_hid_msg_frame_read ctx msg frame =
      ((softu2f_hid_msg_frame_handle_sync ctx frame).1, msg, false) := by
  have hinit : FRAME_TYPE frame = TYPE_INIT := by
    unfold FRAME_TYPE
    rw [hsync]
    decide
  unfold softu2f_hid_msg_frame_read
  rw [if_pos hinit, if_pos ⟨hsync, hbuf, hcid⟩]

/-- One pass of the loop of `softu2f_hid_msg_read` for a full-size frame from an
admitted channel: the frame goes to `softu2f_hid_msg_frame_read` in the
context the lock check leaves. -/
theorem softu2f_hid_msg_read_body_admitted (ctx : softu2f_ctx) (msg : softu2f_hid_message)
    (frame : U2FHID_FRAME) (now : Nat)
    (hunl : (softu2f_hid_is_unlocked_for_client ctx frame.cid now).2 = true) :
    softu2f_hid_msg_read_body ctx msg { now := now, ret := GetFrame.success HID_RPT_SIZE frame } =
      (match softu2f_hid_msg_frame_read
          (softu2f_hid_is_unlocked_for_client ctx frame.cid now).1 msg frame with
       | (ctx2, _, false) => (ctx2, read_step.done)
       | (ctx2, msg2, true) => (ctx2, softu2f_hid_msg_read_check msg2)) := by
  simp only [softu2f_hid_msg_read_body, ne_eq, not_true_eq_false, if_false]
  rcases hu : softu2f_hid_is_unlocked_for_client ctx frame.cid now with ⟨c1, b⟩
  rw [hu] at hunl
  simp only at hunl
  subst hunl
  rfl

/-- The SYNC response goes out as one frame: command SYNC on the frame's channel,
the one-byte nonce of the request as payload. -/
theorem softu2f_hid_msg_frame_handle_sync_eq (ctx : softu2f_ctx) (frame : U2FHID_FRAME) :
    softu2f_hid_msg_frame_handle_sync ctx frame =
      SendFrame ctx (init_frame frame.cid U2FHID_SYNC
        (frame.init_data.take sizeof_U2FHID_SYNC_RESP)) := by
  unfold softu2f_hid_msg_frame_handle_sync
  rw [softu2f_hid_msg_send_short ctx _ (frame.init_data.take sizeof_U2FHID_SYNC_RESP) 0 rfl
    (by simp only [List.length_take, sizeof_U2FHID_SYNC_RESP]; omega)]

/-- C16. SYNC cancel. An INIT frame with command SYNC arriving (from an admitted
channel, the loop running) while a message is in flight. On the channel of that
message: `softu2f_hid_msg_frame_read` answers with the SYNC response and
reports failure, and `softu2f_hid_msg_read` returns `NULL`, so the message is
dropped and nothing is dispatched. On another channel: it is handled as an
out-of-order INIT frame, one `ERR_CHANNEL_BUSY` frame on its channel, and the
loop goes on with the message in flight as it was. -/
theorem softu2f_hid_msg_read_sync (ctx : softu2f_ctx) (msg : softu2f_hid_message)
    (buf : List Nat) (frame : U2FHID_FRAME) (now : Nat) (rest : List read_event)
    (hshut : ctx.shutdown = false) (hbuf : msg.buf = some buf)
    (hinc : buf.length ≠ msg.bcnt) (hsync : frame.type = U2FHID_SYNC)
    (hunl : (softu2f_hid_is_unlocked_for_client ctx frame.cid now).2 = true) :
    (frame.cid = msg.cid →
      (softu2f_hid_msg_frame_read (softu2f_hid_is_unlocked_for_client ctx frame.cid now).1
        msg frame).2.2 = false ∧
      ∃ ctx2 : softu2f_ctx,
        ctx2.sent = ctx.sent ++
          [init_frame frame.cid U2FHID_SYNC (frame.init_data.take sizeof_U2FHID_SYNC_RESP)] ∧
        softu2f_hid_msg_read_loop
            ({ now := now, ret := GetFrame.success HID_RPT_SIZE frame } :: rest) ctx msg =
          (ctx2, read_result.returned none, rest)) ∧
    (frame.cid ≠ msg.cid →
      ∃ ctx2 : softu2f_ctx,
        softu2f_hid_msg_frame_read (softu2f_hid_is_unlocked_for_client ctx frame.cid now).1
          msg frame = (ctx2, msg, true) ∧
        ctx2.sent = ctx.sent ++ [error_frame frame.cid ERR_CHANNEL_BUSY] ∧
        softu2f_hid_msg_read_loop
            ({ now := now, ret := GetFrame.success HID_RPT_SIZE frame } :: rest) ctx msg =
          softu2f_hid_msg_read_loop rest ctx2 msg) := by
  have hsome : msg.buf.isSome = true := by rw [hbuf]; rfl
  have hcheck : softu2f_hid_msg_read_check msg = read_step.next msg := by
    unfold softu2f_hid_msg_read_check
    rw [hbuf]
    simp only []
    rw [if_neg hinc]
  constructor
  · intro hcid
    have hfr := softu2f_hid_msg_frame_read_sync
      (softu2f_hid_is_unlocked_for_client ctx frame.cid now).1 msg frame hsync hsome hcid.symm
    refine ⟨by rw [hfr], (softu2f_hid_msg_frame_handle_sync
      (softu2f_hid_is_unlocked_for_client ctx frame.cid now).1 frame).1, ?_, ?_⟩
    · rw [softu2f_hid_msg_frame_handle_sync_eq, SendFrame_sent, is_unlocked_sent]
    · rw [softu2f_hid_msg_read_loop]
      simp only [hshut, Bool.false_eq_true, if_false]
      rw [softu2f_hid_msg_read_body_admitted ctx msg frame now hunl, hfr]
  · intro hcid
    have hfr := softu2f_hid_msg_frame_read_busy
      (softu2f_hid_is_unlocked_for_client ctx frame.cid now).1 msg frame
      (by unfold FRAME_TYPE; rw [hsync]; decide) hsome (fun h => hcid h.2.symm)
    refine ⟨_, hfr, by rw [SendFrame_sent, is_unlocked_sent], ?_⟩
    rw [softu2f_hid_msg_read_loop]
    simp only [hshut, Bool.false_eq_true, if_false]
    rw [softu2f_hid_msg_read_body_admitted ctx msg frame now hunl, hfr]
    simp only []
    rw [hcheck]

/-- Witness for `softu2f_hid_msg_read_sync`: a SYNC frame on channel 7 while a
message is in flight on channel 7. -/
theorem softu2f_hid_msg_read_sync_witness :
    softu2f_init.shutdown = false ∧ in_flight_7.buf = some [1, 2, 3] ∧
    [1, 2, 3].length ≠ in_flight_7.bcnt ∧ sync_frame_7.type = U2FHID_SYNC ∧
    (softu2f_hid_is_unlocked_for_client softu2f_init sync_frame_7.cid 0).2 = true ∧
    ((sync_frame_7.cid = in_flight_7.cid →
      (softu2f_hid_msg_frame_read
        (softu2f_hid_is_unlocked_for_client softu2f_init sync_frame_7.cid 0).1
        in_flight_7 sync_frame_7).2.2 = false ∧
      ∃ ctx2 : softu2f_ctx,
        ctx2.sent = softu2f_init.sent ++
          [init_frame sync_frame_7.cid U2FHID_SYNC
            (sync_frame_7.init_data.take sizeof_U2FHID_SYNC_RESP)] ∧
        softu2f_hid_msg_read_loop
            ({ now := 0, ret := GetFrame.success HID_RPT_SIZE sync_frame_7 } :: [])
            softu2f_init in_flight_7 =
          (ctx2, read_result.returned none, [])) ∧
    (sync_frame_7.cid ≠ in_flight_7.cid →
      ∃ ctx2 : softu2f_ctx,
        softu2f_hid_msg_frame_read
          (softu2f_hid_is_unlocked_for_client softu2f_init sync_frame_7.cid 0).1
          in_flight_7 sync_frame_7 = (ctx2, in_flight_7, true) ∧
        ctx2.sent = softu2f_init.sent ++ [error_frame sync_frame_7.cid ERR_CHANNEL_BUSY] ∧
        softu2f_hid_msg_read_loop
            ({ now := 0, ret := GetFrame.success HID_RPT_SIZE sync_frame_7 } :: [])
            softu2f_init in_flight_7 =
          softu2f_hid_msg_read_loop [] ctx2 in_flight_7)) :=
  ⟨rfl, rfl, by decide, rfl, by decide,
   softu2f_hid_msg_read_sync softu2f_init in_flight_7 [1, 2, 3] sync_frame_7 0 []
     rfl rfl (by decide) rfl (by decide)⟩

theorem MSG_LEN_lt (f : U2FHID_FRAME) (hwf : f.wf) : MSG_LEN f < 65536 := by
  obtain ⟨_, _, hlen, hb⟩ := hwf
  have h0 : f.init_bcnth < 256 := by
    unfold U2FHID_FRAME.init_bcnth
    cases hbody : f.body with
    | nil => simp
    | cons a t =>
      rw [hbody] at hb
      simpa using hb a (by simp)
  have h1 : f.init_bcntl < 256 := by
    unfold U2FHID_FRAME.init_bcntl
    cases hbody : f.body with
    | nil => simp
    | cons a t =>
      cases t with
      | nil => simp
      | cons b t2 =>
        rw [hbody] at hb
        simpa using hb b (by simp)
  unfold MSG_LEN
  omega

theorem init_data_length (f : U2FHID_FRAME) (hwf : f.wf) : f.init_data.length = 57 := by
  obtain ⟨_, _, hlen, _⟩ := hwf
  simp only [U2FHID_FRAME.init_data, List.length_drop, hlen]

theorem init_ndata_eq_min (n : Nat) : init_ndata n = min n 57 := by
  unfold init_ndata
  split <;> omega

/-- The completeness test at the end of a pass of `softu2f_hid_msg_read`. -/
theorem softu2f_hid_msg_read_check_spec (msg : softu2f_hid_message) (buf : List Nat)
    (hbuf : msg.buf = some buf) :
    (buf.length = msg.bcnt →
      softu2f_hid_msg_read_check msg =
        read_step.complete { msg with data := some buf, buf := none }) ∧
    (buf.length ≠ msg.bcnt → softu2f_hid_msg_read_check msg = read_step.next msg) := by
  unfold softu2f_hid_msg_read_check
  rw [hbuf]
  constructor
  · intro h
    simp only []
    rw [if_pos h]
  · intro h
    simp only []
    rw [if_neg h]

/-- C18. Starting a message. For a well-formed INIT frame with declared length
`n = bcnth * 256 + bcntl`, read when no message is in flight: the message gets
the frame's command and channel id, declared length `n` and a buffer equal to
the first `min n 57` bytes of the frame's data area, the expected sequence
number staying as it was (0 in `softu2f_hid_msg_read`, which starts from a
zeroed message). A pass of `softu2f_hid_msg_read` returns the message exactly
when the buffer length equals the declared length: for `n <= 57` the call
returns at once a message whose payload is those `n` bytes, and for `n > 57`
it returns nothing and goes on with the message in flight. -/
theorem softu2f_hid_msg_read_start (ctx : softu2f_ctx) (frame : U2FHID_FRAME) (now : Nat)
    (rest : List read_event) (hwf : frame.wf) (hinit : FRAME_TYPE frame = TYPE_INIT)
    (hshut : ctx.shutdown = false)
    (hunl : (softu2f_hid_is_unlocked_for_client ctx frame.cid now).2 = true) :
    MSG_LEN frame = frame.init_bcnth * 256 + frame.init_bcntl ∧
    (∀ (c : softu2f_ctx) (msg : softu2f_hid_message), msg.buf = none →
      softu2f_hid_msg_frame_read c msg frame =
        (c, softu2f_hid_message.mk frame.type frame.cid (MSG_LEN frame)
              (some (frame.init_data.take (min (MSG_LEN frame) 57))) msg.data msg.lastSeq,
         true)) ∧
    (frame.init_data.take (min (MSG_LEN frame) 57)).length = min (MSG_LEN frame) 57 ∧
    (∀ (msg : softu2f_hid_message) (buf : List Nat), msg.buf = some buf →
      (buf.length = msg.bcnt →
        softu2f_hid_msg_read_check msg =
          read_step.complete { msg with data := some buf, buf := none }) ∧
      (buf.length ≠ msg.bcnt → softu2f_hid_msg_read_check msg = read_step.next msg)) ∧
    (MSG_LEN frame ≤ 57 →
      softu2f_hid_msg_read ctx
          ({ now := now, ret := GetFrame.success HID_RPT_SIZE frame } :: rest) =
        ((softu2f_hid_is_unlocked_for_client ctx frame.cid now).1,
         read_result.returned (some (softu2f_hid_message.mk frame.type frame.cid (MSG_LEN frame)
           none (some (frame.init_data.take (MSG_LEN frame))) 0)),
         rest)) ∧
    (57 < MSG_LEN frame →
      softu2f_hid_msg_read ctx
          ({ now := now, ret := GetFrame.success HID_RPT_SIZE frame } :: rest) =
        softu2f_hid_msg_read_loop rest (softu2f_hid_is_unlocked_for_client ctx frame.cid now).1
          (softu2f_hid_message.mk frame.type frame.cid (MSG_LEN frame)
            (some (frame.init_data.take 57)) none 0)) := by
  have hlt := MSG_LEN_lt frame hwf
  have hmod : MSG_LEN frame % 65536 = MSG_LEN frame := Nat.mod_eq_of_lt hlt
  have hdl := init_data_length frame hwf
  have hstart : ∀ (c : softu2f_ctx) (msg : softu2f_hid_message), msg.buf = none →
      softu2f_hid_msg_frame_read c msg frame =
        (c, softu2f_hid_message.mk frame.type frame.cid (MSG_LEN frame)
              (some (frame.init_data.take (min (MSG_LEN frame) 57))) msg.data msg.lastSeq,
         true) := by
    intro c msg hb
    rw [softu2f_hid_msg_frame_read_start c msg frame hinit hb, hmod, init_ndata_eq_min]
  have hpass : softu2f_hid_msg_read ctx
      ({ now := now, ret := GetFrame.success HID_RPT_SIZE frame } :: rest) =
      (match softu2f_hid_msg_read_check (softu2f_hid_message.mk frame.type frame.cid
          (MSG_LEN frame) (some (frame.init_data.take (min (MSG_LEN frame) 57))) none 0) with
       | read_step.done =>
         ((softu2f_hid_is_unlocked_for_client ctx frame.cid now).1,
          read_result.returned none, rest)
       | read_step.complete m =>
         ((softu2f_hid_is_unlocked_for_client ctx frame.cid now).1,
          read_result.returned (some m), rest)
       | read_step.next m =>
         softu2f_hid_msg_read_loop rest
           (softu2f_hid_is_unlocked_for_client ctx frame.cid now).1 m) := by
    have hs0 : softu2f_hid_msg_frame_read
        (softu2f_hid_is_unlocked_for_client ctx frame.cid now).1 calloc_msg frame =
        ((softu2f_hid_is_unlocked_for_client ctx frame.cid now).1,
         softu2f_hid_message.mk frame.type frame.cid (MSG_LEN frame)
           (some (frame.init_data.take (min (MSG_LEN frame) 57))) none 0, true) :=
      hstart _ calloc_msg rfl
    unfold softu2f_hid_msg_read
    rw [softu2f_hid_msg_read_loop]
    simp only [hshut, Bool.false_eq_true, if_false]
    rw [softu2f_hid_msg_read_body_admitted ctx calloc_msg frame now hunl, hs0]
    simp only []
    generalize softu2f_hid_msg_read_check (softu2f_hid_message.mk frame.type frame.cid
      (MSG_LEN frame) (some (frame.init_data.take (min (MSG_LEN frame) 57))) none 0) = st
    cases st <;> rfl
  refine ⟨rfl, hstart, ?_, fun msg buf hb => softu2f_hid_msg_read_check_spec msg buf hb, ?_, ?_⟩
  · rw [List.length_take, hdl]
    omega
  · intro hn
    have hmin : min (MSG_LEN frame) 57 = MSG_LEN frame := by omega
    rw [hpass, hmin]
    have hc := (softu2f_hid_msg_read_check_spec
      (softu2f_hid_message.mk frame.type frame.cid (MSG_LEN frame)
        (some (frame.init_data.take (MSG_LEN frame))) none 0)
      (frame.init_data.take (MSG_LEN frame)) rfl).1
      (by simp only [List.length_take, hdl]; omega)
    rw [hc]
  · intro hn
    have hmin : min (MSG_LEN frame) 57 = 57 := by omega
    rw [hpass, hmin]
    have hc := (softu2f_hid_msg_read_check_spec
      (softu2f_hid_message.mk frame.type frame.cid (MSG_LEN frame)
        (some (frame.init_data.take 57)) none 0)
      (frame.init_data.take 57) rfl).2
      (by simp only [List.length_take, hdl]; omega)
    rw [hc]

/-- Witness for `softu2f_hid_msg_read_start`: a PING INIT frame on channel 7 that
declares 2 bytes, read by a fresh context. -/
theorem softu2f_hid_msg_read_start_witness :
    ping_frame_7.wf ∧ FRAME_TYPE ping_frame_7 = TYPE_INIT ∧ softu2f_init.shutdown = false ∧
    (softu2f_hid_is_unlocked_for_client softu2f_init ping_frame_7.cid 0).2 = true ∧
    (MSG_LEN ping_frame_7 = ping_frame_7.init_bcnth * 256 + ping_frame_7.init_bcntl ∧
    (∀ (c : softu2f_ctx) (msg : softu2f_hid_message), msg.buf = none →
      softu2f_hid_msg_frame_read c msg ping_frame_7 =
        (c, softu2f_hid_message.mk ping_frame_7.type ping_frame_7.cid (MSG_LEN ping_frame_7)
              (some (ping_frame_7.init_data.take (min (MSG_LEN ping_frame_7) 57)))
              msg.data msg.lastSeq,
         true)) ∧
    (ping_frame_7.init_data.take (min (MSG_LEN ping_frame_7) 57)).length =
      min (MSG_LEN ping_frame_7) 57 ∧
    (∀ (msg : softu2f_hid_message) (buf : List Nat), msg.buf = some buf →
      (buf.length = msg.bcnt →
        softu2f_hid_msg_read_check msg =
          read_step.complete { msg with data := some buf, buf := none }) ∧
      (buf.length ≠ msg.bcnt → softu2f_hid_msg_read_check msg = read_step.next msg)) ∧
    (MSG_LEN ping_frame_7 ≤ 57 →
      softu2f_hid_msg_read softu2f_init
          ({ now := 0, ret := GetFrame.success HID_RPT_SIZE ping_frame_7 } :: []) =
        ((softu2f_hid_is_unlocked_for_client softu2f_init ping_frame_7.cid 0).1,
         read_result.returned (some (softu2f_hid_message.mk ping_frame_7.type ping_frame_7.cid
           (MSG_LEN ping_frame_7) none
           (some (ping_frame_7.init_data.take (MSG_LEN ping_frame_7))) 0)),
         [])) ∧
    (57 < MSG_LEN ping_frame_7 →
      softu2f_hid_msg_read softu2f_init
          ({ now := 0, ret := GetFrame.success HID_RPT_SIZE ping_frame_7 } :: []) =
        softu2f_hid_msg_read_loop []
          (softu2f_hid_is_unlocked_for_client softu2f_init ping_frame_7.cid 0).1
          (softu2f_hid_message.mk ping_frame_7.type ping_frame_7.cid (MSG_LEN ping_frame_7)
            (some (ping_frame_7.init_data.take 57)) none 0))) :=
  ⟨⟨by decide, by decide, by decide, by decide⟩, by decide, rfl, by decide,
   softu2f_hid_msg_read_start softu2f_init ping_frame_7 0 []
     ⟨by decide, by decide, by decide, by decide⟩ (by decide) rfl (by decide)⟩

/-- Inside `softu2f_hid_msg_read`, a pass that starts with no message in flight
(the zeroed message) and goes on leaves either the zeroed message or a message
in flight, so a message always starts with expected sequence number 0. -/
theorem softu2f_hid_msg_read_body_idle (ctx c : softu2f_ctx) (ev : read_event)
    (m : softu2f_hid_message)
    (h : softu2f_hid_msg_read_body ctx calloc_msg ev = (c, read_step.next m)) :
    m = calloc_msg ∨ (m.buf.isSome = true ∧ m.lastSeq = 0) := by
  have hcheck : ∀ msg m', softu2f_hid_msg_read_check msg = read_step.next m' → m' = msg := by
    intro msg m' hc
    unfold softu2f_hid_msg_read_check at hc
    cases hb : msg.buf with
    | none => rw [hb] at hc; simp only [read_step.next.injEq] at hc; exact hc.symm
    | some buf =>
      rw [hb] at hc
      simp only [] at hc
      split at hc
      · exact absurd hc (by simp)
      · simp only [read_step.next.injEq] at hc; exact hc.symm
  unfold softu2f_hid_msg_read_body at h
  cases hret : ev.ret with
  | noFrames =>
    rw [hret] at h
    simp only [Prod.mk.injEq] at h
    exact Or.inl (hcheck _ _ h.2)
  | failure r =>
    rw [hret] at h
    simp only [Prod.mk.injEq] at h
    exact absurd h.2 (by simp)
  | success size frame =>
    rw [hret] at h
    simp only [] at h
    split at h
    · simp only [Prod.mk.injEq] at h
      exact absurd h.2 (by simp)
    · rcases hu : softu2f_hid_is_unlocked_for_client ctx frame.cid ev.now with ⟨c1, b⟩
      rw [hu] at h
      cases b with
      | false =>
        simp only [Prod.mk.injEq] at h
        exact Or.inl (hcheck _ _ h.2)
      | true =>
        simp only [] at h
        by_cases hinit : FRAME_TYPE frame = TYPE_INIT
        · rw [softu2f_hid_msg_frame_read_start c1 calloc_msg frame hinit rfl] at h
          simp only [Prod.mk.injEq] at h
          have hm := hcheck _ _ h.2
          right
          rw [hm]
          exact ⟨rfl, rfl⟩
        · by_cases hcont : FRAME_TYPE frame = TYPE_CONT
          · rw [softu2f_hid_msg_frame_read_stray c1 calloc_msg frame hcont (Or.inl rfl)] at h
            simp only [Prod.mk.injEq] at h
            exact Or.inl (hcheck _ _ h.2)
          · have hfr : softu2f_hid_msg_frame_read c1 calloc_msg frame =
                (c1, calloc_msg, false) := by
              unfold softu2f_hid_msg_frame_read
              rw [if_neg hinit, if_neg hcont]
            rw [hfr] at h
            simp only [Prod.mk.injEq] at h
            exact absurd h.2 (by simp)

theorem is_unlocked_shutdown (ctx : softu2f_ctx) (cid now : Nat) :
    (softu2f_hid_is_unlocked_for_client ctx cid now).1.shutdown = ctx.shutdown := by
  unfold softu2f_hid_is_unlocked_for_client
  cases ctx.lock with
  | none => rfl
  | some l =>
    by_cases h : l.expiration < now <;> simp [h]

/-- The reassembler leaves the context alone or sends one frame. -/
theorem softu2f_hid_msg_frame_read_ctx (ctx : softu2f_ctx) (msg : softu2f_hid_message)
    (frame : U2FHID_FRAME) :
    (softu2f_hid_msg_frame_read ctx msg frame).1 = ctx ∨
    ∃ f, (softu2f_hid_msg_frame_read ctx msg frame).1 = (SendFrame ctx f).1 := by
  unfold softu2f_hid_msg_frame_read
  split
  · split
    · right
      exact ⟨_, by rw [softu2f_hid_msg_frame_handle_sync_eq]⟩
    · split
      · right
        exact ⟨_, by rw [softu2f_hid_err_send_eq]⟩
      · left; rfl
  · split
    · cases msg.buf with
      | none => left; rfl
      | some buf =>
        simp only []
        split
        · left; rfl
        · split
          · right
            exact ⟨_, by rw [softu2f_hid_err_send_eq]⟩
          · left; rfl
    · left; rfl

theorem softu2f_hid_msg_frame_read_shutdown (ctx : softu2f_ctx) (msg : softu2f_hid_message)
    (frame : U2FHID_FRAME) :
    (softu2f_hid_msg_frame_read ctx msg frame).1.shutdown = ctx.shutdown := by
  rcases softu2f_hid_msg_frame_read_ctx ctx msg frame with h | ⟨f, h⟩
  · rw [h]
  · rw [h, SendFrame_shutdown]

theorem softu2f_hid_msg_read_body_shutdown (ctx : softu2f_ctx) (msg : softu2f_hid_message)
    (ev : read_event) :
    (softu2f_hid_msg_read_body ctx msg ev).1.shutdown = ctx.shutdown := by
  unfold softu2f_hid_msg_read_body
  cases ev.ret with
  | noFrames => rfl
  | failure r => rfl
  | success size frame =>
    simp only []
    split
    · rfl
    · have h1 := is_unlocked_shutdown ctx frame.cid ev.now
      generalize softu2f_hid_is_unlocked_for_client ctx frame.cid ev.now = u at h1 ⊢
      obtain ⟨c1, b⟩ := u
      simp only at h1
      cases b with
      | false =>
        simp only []
        rw [softu2f_hid_err_send_eq, SendFrame_shutdown, h1]
      | true =>
        simp only []
        have h2 := softu2f_hid_msg_frame_read_shutdown c1 msg frame
        generalize softu2f_hid_msg_frame_read c1 msg frame = fr at h2 ⊢
        obtain ⟨c2, m2, r⟩ := fr
        simp only at h2
        cases r <;> simp only [] <;> rw [h2, h1]

/-- A call of `softu2f_hid_msg_read` that starts with the shutdown flag clear and
returns has consumed at least one event, and the flag is still clear. -/
theorem softu2f_hid_msg_read_loop_progress :
    ∀ (events : List read_event) (ctx : softu2f_ctx) (msg : softu2f_hid_message)
      (c : softu2f_ctx) (r : Option softu2f_hid_message) (rest : List read_event),
      ctx.shutdown = false →
      softu2f_hid_msg_read_loop events ctx msg = (c, read_result.returned r, rest) →
      rest.length < events.length ∧ c.shutdown = false := by
  intro events
  induction events with
  | nil =>
    intro ctx msg c r rest hs h
    rw [softu2f_hid_msg_read_loop] at h
    simp only [hs, Bool.false_eq_true, if_false, Prod.mk.injEq] at h
    exact absurd h.2.1 (by simp)
  | cons ev evs ih =>
    intro ctx msg c r rest hs h
    rw [softu2f_hid_msg_read_loop] at h
    simp only [hs, Bool.false_eq_true, if_false] at h
    have hb := softu2f_hid_msg_read_body_shutdown ctx msg ev
    generalize softu2f_hid_msg_read_body ctx msg ev = bd at hb h
    obtain ⟨c1, st⟩ := bd
    simp only at hb
    cases st with
    | done =>
      simp only [Prod.mk.injEq] at h
      obtain ⟨h1, _, h3⟩ := h
      subst h1 h3
      exact ⟨by simp, by rw [hb, hs]⟩
    | complete m =>
      simp only [Prod.mk.injEq] at h
      obtain ⟨h1, _, h3⟩ := h
      subst h1 h3
      exact ⟨by simp, by rw [hb, hs]⟩
    | next m =>
      simp only [] at h
      obtain ⟨h1, h2⟩ := ih c1 m c r rest (by rw [hb, hs]) h
      exact ⟨by simp only [List.length_cons]; omega, h2⟩

/-- A call of `softu2f_hid_msg_read` that returns a message started with the
shutdown flag clear. -/
theorem softu2f_hid_msg_read_loop_some (events : List read_event) (ctx : softu2f_ctx)
    (msg : softu2f_hid_message) (c : softu2f_ctx) (m : softu2f_hid_message)
    (rest : List read_event)
    (h : softu2f_hid_msg_read_loop events ctx msg = (c, read_result.returned (some m), rest)) :
    ctx.shutdown = false := by
  cases hs : ctx.shutdown with
  | false => rfl
  | true =>
    cases events with
    | nil =>
      rw [softu2f_hid_msg_read_loop] at h
      simp [hs] at h
    | cons ev evs =>
      rw [softu2f_hid_msg_read_loop] at h
      simp [hs] at h

/-- The dispatch block for a message without a handler: one `ERR_OTHER` frame. -/
theorem softu2f_run_dispatch_none (env : run_env) (n : Nat) (ctx : softu2f_ctx)
    (m : softu2f_hid_message) (hnone : softu2f_hid_msg_handler ctx m = none) :
    softu2f_run_dispatch env n ctx m = some (SendFrame ctx (error_frame m.cid ERR_OTHER)).1 := by
  unfold softu2f_run_dispatch
  rw [hnone]
  simp only []
  rw [softu2f_hid_err_send_eq]

/-- C11. Unsupported command. When `softu2f_hid_msg_read` returns a complete message
for which the handler lookup finds no handler, the pass of `softu2f_run` calls
no handler (its outcome does not depend on the handlers' environment) and
hands exactly one frame to the transport: an INIT-type frame with command
ERROR on the message's channel id, declared length 1, first payload byte
`ERR_OTHER` and all other payload bytes zero. The shutdown flag is still clear,
so the loop does not stop: it goes on to its next pass. -/
theorem softu2f_run_unsupported_command (env : run_env) (n fuel : Nat) (ctx ctx1 : softu2f_ctx)
    (events rest : List read_event) (m : softu2f_hid_message)
    (hread : softu2f_hid_msg_read ctx events = (ctx1, read_result.returned (some m), rest))
    (hnone : softu2f_hid_msg_handler ctx1 m = none) :
    ∃ (ctx2 : softu2f_ctx) (frame : U2FHID_FRAME),
      (∀ (env' : run_env) (n' : Nat),
        softu2f_run_body env' n' ctx events = run_step.next ctx2 rest) ∧
      ctx2.sent = ctx1.sent ++ [frame] ∧
      FRAME_TYPE frame = TYPE_INIT ∧ frame.type = U2FHID_ERROR ∧ frame.cid = m.cid ∧
      MSG_LEN frame = 1 ∧ frame.init_data = ERR_OTHER :: List.replicate 56 0 ∧
      frame.size = 64 ∧
      ctx2.shutdown = false ∧
      softu2f_run_loop env (fuel + 2) n ctx events =
        (match softu2f_run_body env (n + 1) ctx2 rest with
         | run_step.next ctx3 rest3 => softu2f_run_loop env fuel (n + 1 + 1) ctx3 rest3
         | run_step.blocked ctx3 msg => run_state.Running ctx3 msg
         | run_step.fault => run_state.fault) := by
  have hs0 : ctx.shutdown = false := softu2f_hid_msg_read_loop_some events ctx calloc_msg _ _ _ hread
  have hs1 : ctx1.shutdown = false :=
    (softu2f_hid_msg_read_loop_progress events ctx calloc_msg _ _ _ hs0 hread).2
  have hbody : ∀ (env' : run_env) (n' : Nat), softu2f_run_body env' n' ctx events =
      run_step.next (SendFrame ctx1 (error_frame m.cid ERR_OTHER)).1 rest := by
    intro env' n'
    unfold softu2f_run_body
    rw [hread]
    simp only []
    rw [softu2f_run_dispatch_none env' n' ctx1 m hnone]
  have hs2 : (SendFrame ctx1 (error_frame m.cid ERR_OTHER)).1.shutdown = false := by
    rw [SendFrame_shutdown, hs1]
  refine ⟨_, error_frame m.cid ERR_OTHER, hbody, SendFrame_sent _ _, ?_, rfl, rfl, ?_, ?_,
    ?_, hs2, ?_⟩
  · simp only [FRAME_TYPE, error_frame, U2FHID_ERROR, TYPE_MASK, TYPE_INIT]
    decide
  · simp [MSG_LEN, error_frame, U2FHID_FRAME.init_bcnth, U2FHID_FRAME.init_bcntl]
  · simp [error_frame, U2FHID_FRAME.init_data]
  · simp [U2FHID_FRAME.size, error_frame]
  · rw [softu2f_run_loop]
    simp only [hs0, Bool.false_eq_true, if_false]
    rw [hbody env n]
    simp only []
    rw [softu2f_run_loop]
    simp only [hs2, Bool.false_eq_true, if_false]

/-- Witness for `softu2f_run_unsupported_command`: a one-frame MSG message on
channel 7 read by a fresh context, which has no MSG handler. -/
theorem softu2f_run_unsupported_command_witness :
    softu2f_hid_msg_read softu2f_init (deliver 0 [msg_frame_7]) =
      (softu2f_init, read_result.returned (some msg_message_7), []) ∧
    softu2f_hid_msg_handler softu2f_init msg_message_7 = none ∧
    ∃ (ctx2 : softu2f_ctx) (frame : U2FHID_FRAME),
      (∀ (env' : run_env) (n' : Nat),
        softu2f_run_body env' n' softu2f_init (deliver 0 [msg_frame_7]) =
          run_step.next ctx2 []) ∧
      ctx2.sent = softu2f_init.sent ++ [frame] ∧
      FRAME_TYPE frame = TYPE_INIT ∧ frame.type = U2FHID_ERROR ∧ frame.cid = msg_message_7.cid ∧
      MSG_LEN frame = 1 ∧ frame.init_data = ERR_OTHER :: List.replicate 56 0 ∧
      frame.size = 64 ∧
      ctx2.shutdown = false ∧
      softu2f_run_loop quiet_env (0 + 2) 0 softu2f_init (deliver 0 [msg_frame_7]) =
        (match softu2f_run_body quiet_env (0 + 1) ctx2 [] with
         | run_step.next ctx3 rest3 => softu2f_run_loop quiet_env 0 (0 + 1 + 1) ctx3 rest3
         | run_step.blocked ctx3 msg => run_state.Running ctx3 msg
         | run_step.fault => run_state.fault) :=
  ⟨by decide, by decide,
   softu2f_run_unsupported_command quiet_env 0 0 softu2f_init softu2f_init
     (deliver 0 [msg_frame_7]) [] msg_message_7 (by decide) (by decide)⟩

/-- The bound on the passes of `softu2f_run` is never used up: with more passes
allowed than there are events, the loop ends in another state. -/
theorem softu2f_run_loop_fuel (env : run_env) :
    ∀ (fuel n : Nat) (ctx : softu2f_ctx) (events : List read_event),
      events.length < fuel → softu2f_run_loop env fuel n ctx events ≠ run_state.unfinished := by
  intro fuel
  induction fuel with
  | zero => intro n ctx events h; omega
  | succ fuel ih =>
    intro n ctx events hlen
    rw [softu2f_run_loop]
    cases hs : ctx.shutdown with
    | true => simp
    | false =>
      simp only [Bool.false_eq_true, if_false]
      unfold softu2f_run_body
      rcases hr : softu2f_hid_msg_read ctx events with ⟨c1, res, rest⟩
      cases res with
      | waiting msg => simp
      | returned r =>
        have hp := (softu2f_hid_msg_read_loop_progress events ctx calloc_msg c1 r rest hs hr).1
        cases r with
        | none =>
          simp only []
          exact ih (n + 1) c1 rest (by omega)
        | some m =>
          simp only []
          cases softu2f_run_dispatch env n c1 m with
          | none => simp
          | some c2 =>
            simp only []
            exact ih (n + 1) c2 rest (by omega)

/-- The loop of `softu2f_run` is left only with the shutdown flag set. -/
theorem softu2f_run_loop_stopped (env : run_env) :
    ∀ (fuel n : Nat) (ctx : softu2f_ctx) (events : List read_event) (c : softu2f_ctx)
      (e : List read_event),
      softu2f_run_loop env fuel n ctx events = run_state.Stopped c e → c.shutdown = true := by
  intro fuel
  induction fuel with
  | zero =>
    intro n ctx events c e h
    rw [softu2f_run_loop] at h
    exact absurd h (by simp)
  | succ fuel ih =>
    intro n ctx events c e h
    rw [softu2f_run_loop] at h
    cases hs : ctx.shutdown with
    | true =>
      simp only [hs, if_true, run_state.Stopped.injEq] at h
      rw [← h.1, hs]
    | false =>
      simp only [hs, Bool.false_eq_true, if_false] at h
      cases hb : softu2f_run_body env n ctx events with
      | next c1 rest =>
        rw [hb] at h
        exact ih (n + 1) c1 rest c e h
      | blocked c1 msg =>
        rw [hb] at h
        exact absurd h (by simp)
      | fault =>
        rw [hb] at h
        exact absurd h (by simp)

/-- A pass of `softu2f_run` in which `softu2f_hid_msg_read` returns `NULL`: the loop
goes on with the context the read left. -/
theorem softu2f_run_loop_null (env : run_env) (fuel n : Nat) (ctx c1 : softu2f_ctx)
    (events rest : List read_event) (hs : ctx.shutdown = false)
    (hread : softu2f_hid_msg_read ctx events = (c1, read_result.returned none, rest)) :
    softu2f_run_loop env (fuel + 1) n ctx events = softu2f_run_loop env fuel (n + 1) c1 rest := by
  rw [softu2f_run_loop]
  simp only [hs, Bool.false_eq_true, if_false, softu2f_run_body, hread]

/-- A failed `GetFrame` call makes `softu2f_hid_msg_read` return `NULL` with the
context as it was. -/
theorem softu2f_hid_msg_read_failure (ctx : softu2f_ctx) (now ret : Nat)
    (rest : List read_event) (hs : ctx.shutdown = false) :
    softu2f_hid_msg_read ctx ({ now := now, ret := GetFrame.failure ret } :: rest) =
      (ctx, read_result.returned none, rest) := by
  unfold softu2f_hid_msg_read
  rw [softu2f_hid_msg_read_loop]
  simp only [hs, Bool.false_eq_true, if_false, softu2f_hid_msg_read_body]

set_option maxRecDepth 100000 in
/-- C17 (counterexample). On a fresh context the first `GetFrame` call fails with
`kIOReturnError` and the second delivers a two-byte PING on channel 7: the run
loop is not stopped by the read failure; it reads and answers the PING and is
still running, waiting for frames, when the script ends. -/
theorem softu2f_run_survives_read_failure :
    softu2f_run quiet_env softu2f_init failure_then_ping =
      run_state.Running
        { softu2f_init with sent := [init_frame 7 U2FHID_PING [0x68, 0x69]] } calloc_msg := by
  decide

/-- C17 (amended). The run loop of `softu2f_run`, starting in Running: it is
Stopped when the shutdown flag is set at the top of a pass, and it is never
Stopped with the flag clear. With the flag clear, a failed `GetFrame` call, any
other `NULL` result of `softu2f_hid_msg_read` (such as a reassembly failure)
and a handler that reports failure each leave it Running: the loop goes on to
its next pass. On a finite script the loop ends Stopped, waiting for frames, or
in a handler's read outside its request, never by using up the pass bound. -/
theorem softu2f_run_state_machine (env : run_env) (fuel n : Nat) (ctx : softu2f_ctx)
    (events : List read_event) :
    (ctx.shutdown = true →
      softu2f_run_loop env (fuel + 1) n ctx events = run_state.Stopped ctx events) ∧
    (∀ (c : softu2f_ctx) (e : List read_event),
      softu2f_run_loop env fuel n ctx events = run_state.Stopped c e → c.shutdown = true) ∧
    (ctx.shutdown = false →
      ∀ (now ret : Nat) (rest : List read_event),
        softu2f_run_loop env (fuel + 1) n ctx
            ({ now := now, ret := GetFrame.failure ret } :: rest) =
          softu2f_run_loop env fuel (n + 1) ctx rest) ∧
    (ctx.shutdown = false →
      ∀ (c1 : softu2f_ctx) (rest : List read_event),
        softu2f_hid_msg_read ctx events = (c1, read_result.returned none, rest) →
        softu2f_run_loop env (fuel + 1) n ctx events =
          softu2f_run_loop env fuel (n + 1) c1 rest) ∧
    (ctx.shutdown = false →
      ∀ (c1 c2 : softu2f_ctx) (m : softu2f_hid_message) (rest : List read_event)
        (handler : softu2f_hid_message_handler),
        softu2f_hid_msg_read ctx events = (c1, read_result.returned (some m), rest) →
        softu2f_hid_msg_handler c1 m = some handler →
        call_handler env n handler c1 m = some (c2, false) →
        softu2f_run_loop env (fuel + 1) n ctx events =
          softu2f_run_loop env fuel (n + 1) c2 rest) ∧
    softu2f_run env ctx events ≠ run_state.unfinished := by
  refine ⟨?_, softu2f_run_loop_stopped env fuel n ctx events, ?_, ?_, ?_, ?_⟩
  · intro hs
    rw [softu2f_run_loop]
    simp only [hs, if_true]
  · intro hs now ret rest
    exact softu2f_run_loop_null env fuel n ctx ctx _ rest hs
      (softu2f_hid_msg_read_failure ctx now ret rest hs)
  · intro hs c1 rest hread
    exact softu2f_run_loop_null env fuel n ctx c1 events rest hs hread
  · intro hs c1 c2 m rest handler hread hlook hcall
    rw [softu2f_run_loop]
    simp only [hs, Bool.false_eq_true, if_false, softu2f_run_body, hread,
      softu2f_run_dispatch, hlook, hcall]
  · exact softu2f_run_loop_fuel env _ 0 ctx events (by omega)

/-- Witness for `softu2f_run_state_machine`: with the shutdown flag set the loop
stops at once, leaving the script untouched; with the flag clear a failed
`GetFrame` call is followed by the next pass. -/
theorem softu2f_run_state_machine_witness :
    softu2f_run_loop quiet_env (2 + 1) 0 { softu2f_init with shutdown := true }
        failure_then_ping =
      run_state.Stopped { softu2f_init with shutdown := true } failure_then_ping ∧
    softu2f_run_loop quiet_env (2 + 1) 0 softu2f_init
        ({ now := 0, ret := GetFrame.failure 0xe00002bc } ::
          [{ now := 5, ret := GetFrame.success HID_RPT_SIZE ping_frame_7 }]) =
      softu2f_run_loop quiet_env 2 (0 + 1) softu2f_init
        [{ now := 5, ret := GetFrame.success HID_RPT_SIZE ping_frame_7 }] :=
  ⟨(softu2f_run_state_machine quiet_env 2 0 { softu2f_init with shutdown := true }
      failure_then_ping).1 rfl,
   (softu2f_run_state_machine quiet_env 2 0 softu2f_init failure_then_ping).2.2.1 rfl
      0 0xe00002bc [{ now := 5, ret := GetFrame.success HID_RPT_SIZE ping_frame_7 }]⟩

/-- Under the bound, the byte count taken for a CONT frame is the plain
difference when fewer than 59 bytes are missing: the `uint16_t` cast and the
`unsigned int` subtraction lose nothing. -/
theorem cont_ndata_exact (bcnt buflen : Nat) (h1 : buflen ≤ bcnt) (h2 : bcnt < 65536) :
    cont_ndata bcnt buflen = (if buflen + 59 > bcnt then bcnt - buflen else 59) ∧
    buflen % 65536 = buflen ∧ cont_ndata bcnt buflen ≤ 59 ∧
    buflen + cont_ndata bcnt buflen ≤ bcnt := by
  unfold cont_ndata
  have hm : buflen % 65536 = buflen := Nat.mod_eq_of_lt (by omega)
  rw [hm]
  by_cases h : buflen + 59 > bcnt
  · rw [if_pos h, if_pos h]
    have : (bcnt + 2 ^ 32 - buflen) % 2 ^ 32 = bcnt - buflen := by omega
    rw [this]
    omega
  · rw [if_neg h, if_neg h]
    omega

theorem init_ndata_le (bcnt : Nat) : init_ndata bcnt ≤ 57 ∧ init_ndata bcnt ≤ bcnt := by
  unfold init_ndata
  split <;> omega

/-- One call of `softu2f_hid_msg_frame_read` keeps the bound. -/
theorem softu2f_hid_msg_frame_read_within (ctx : softu2f_ctx) (msg : softu2f_hid_message)
    (frame : U2FHID_FRAME) (h : within_declared msg) :
    within_declared (softu2f_hid_msg_frame_read ctx msg frame).2.1 := by
  unfold softu2f_hid_msg_frame_read
  split
  · split
    · exact h
    · split
      · exact h
      · intro buf hb
        simp only [Option.some.injEq] at hb
        subst hb
        simp only [List.length_take]
        have := init_ndata_le (MSG_LEN frame % 65536)
        omega
  · split
    · cases hbuf : msg.buf with
      | none =>
        simp only []
        exact h
      | some b =>
        obtain ⟨hle, hlt⟩ := h b hbuf
        simp only []
        split
        · exact h
        · split
          · intro buf hb
            simp only [Option.some.injEq] at hb
            subst hb
            exact ⟨hle, hlt⟩
          · intro buf hb
            simp only [Option.some.injEq] at hb
            subst hb
            have hc := (cont_ndata_exact msg.bcnt b.length hle hlt).2.2.2
            simp only [List.length_append, List.length_take]
            exact ⟨by omega, hlt⟩
    · exact h

theorem feed_frames_within :
    ∀ (frames : List U2FHID_FRAME) (ctx : softu2f_ctx) (msg : softu2f_hid_message),
      within_declared msg → within_declared (feed_frames ctx msg frames).2 := by
  intro frames
  induction frames with
  | nil => intro ctx msg h; exact h
  | cons f fs ih =>
    intro ctx msg h
    rw [feed_frames]
    exact ih _ _ (softu2f_hid_msg_frame_read_within ctx msg f h)

theorem calloc_msg_within : within_declared calloc_msg := by
  intro buf hb
  exact absurd hb (by simp [calloc_msg])

/-- C21. Reassembly bound. After any sequence of frames fed to
`softu2f_hid_msg_frame_read` from the empty message, the buffer in flight is no
longer than the declared length, which fits 16 bits. So for a CONT frame read
next the `uint16_t` cast of the buffer length loses nothing, the subtraction
`bcnt - length` does not underflow (the byte count is the plain difference when
fewer than 59 bytes are missing and 59 otherwise), at most 59 bytes are copied
and the buffer stays within the declared length; and for an INIT frame read
next at most 57 bytes are copied. -/
theorem softu2f_hid_msg_frame_read_bound (ctx : softu2f_ctx) (frames : List U2FHID_FRAME) :
    (∀ buf, (feed_frames ctx calloc_msg frames).2.buf = some buf →
      buf.length ≤ (feed_frames ctx calloc_msg frames).2.bcnt ∧
      (feed_frames ctx calloc_msg frames).2.bcnt < 65536 ∧
      buf.length % 65536 = buf.length ∧
      buf.length % 65536 ≤ (feed_frames ctx calloc_msg frames).2.bcnt ∧
      cont_ndata (feed_frames ctx calloc_msg frames).2.bcnt buf.length =
        (if buf.length + 59 > (feed_frames ctx calloc_msg frames).2.bcnt
         then (feed_frames ctx calloc_msg frames).2.bcnt - buf.length else 59) ∧
      cont_ndata (feed_frames ctx calloc_msg frames).2.bcnt buf.length ≤ 59 ∧
      buf.length + cont_ndata (feed_frames ctx calloc_msg frames).2.bcnt buf.length ≤
        (feed_frames ctx calloc_msg frames).2.bcnt) ∧
    (∀ frame : U2FHID_FRAME, init_ndata (MSG_LEN frame % 65536) ≤ 57 ∧
      init_ndata (MSG_LEN frame % 65536) ≤ MSG_LEN frame % 65536) := by
  constructor
  · intro buf hb
    obtain ⟨hle, hlt⟩ := feed_frames_within frames ctx calloc_msg calloc_msg_within buf hb
    obtain ⟨h1, h2, h3, h4⟩ :=
      cont_ndata_exact (feed_frames ctx calloc_msg frames).2.bcnt buf.length hle hlt
    exact ⟨hle, hlt, h2, by omega, h1, h3, h4⟩
  · intro frame
    exact init_ndata_le _

/-- The read `*duration` of the LOCK handler is inside the request payload
exactly when the payload has a first byte. -/
theorem softu2f_hid_msg_handle_lock_read (ctx : softu2f_ctx) (req : softu2f_hid_message)
    (payload : List Nat) (now : Nat) (hdata : req.data = some payload) :
    softu2f_hid_msg_handle_lock ctx req now = none ↔ payload.length < 1 := by
  cases payload with
  | nil =>
    simp [softu2f_hid_msg_handle_lock, hdata]
  | cons d rest =>
    rw [softu2f_hid_msg_handle_lock_eq ctx req d rest now hdata]
    simp

/-- The 8-byte nonce read of the INIT handler is inside the request payload
exactly when the payload has 8 bytes. -/
theorem softu2f_hid_msg_handle_init_read (ctx : softu2f_ctx) (req : softu2f_hid_message)
    (payload : List Nat) (hdata : req.data = some payload) :
    softu2f_hid_msg_handle_init ctx req = none ↔ payload.length < 8 := by
  by_cases hlen : 8 ≤ payload.length
  · rw [softu2f_hid_msg_handle_init_eq ctx req payload hdata hlen]
    constructor
    · intro h; exact absurd h (by simp)
    · intro h; omega
  · have hlt : payload.length < INIT_NONCE_SIZE := by unfold INIT_NONCE_SIZE; omega
    constructor
    · intro _; omega
    · intro _
      simp [softu2f_hid_msg_handle_init, hdata, hlt]

set_option maxRecDepth 100000 in
/-- C22 (defect). A LOCK frame that declares 0 bytes is delivered by
`softu2f_hid_msg_read` as a complete message with an empty payload, the lookup
picks the built-in LOCK handler, and its read of the duration byte is outside
the payload. An INIT frame that declares 3 bytes is delivered as a complete
3-byte message, the lookup picks the built-in INIT handler, and its 8-byte
nonce read runs 5 bytes past the payload. In both cases the run loop ends in
the handler's out-of-payload read. -/
theorem softu2f_handlers_read_outside_payload :
    softu2f_hid_msg_read softu2f_init (deliver 0 [empty_lock_frame_7]) =
      (softu2f_init, read_result.returned (some empty_lock_message_7), []) ∧
    empty_lock_message_7.data = some [] ∧
    softu2f_hid_msg_handler softu2f_init empty_lock_message_7 =
      some softu2f_hid_message_handler.handle_lock ∧
    softu2f_hid_msg_handle_lock softu2f_init empty_lock_message_7 0 = none ∧
    softu2f_run quiet_env softu2f_init (deliver 0 [empty_lock_frame_7]) = run_state.fault ∧
    softu2f_hid_msg_read softu2f_init (deliver 0 [short_init_frame]) =
      (softu2f_init, read_result.returned (some short_init_message), []) ∧
    short_init_message.data = some [0x11, 0x22, 0x33] ∧
    softu2f_hid_msg_handler softu2f_init short_init_message =
      some softu2f_hid_message_handler.handle_init ∧
    softu2f_hid_msg_handle_init softu2f_init short_init_message = none ∧
    softu2f_run quiet_env softu2f_init (deliver 0 [short_init_frame]) = run_state.fault := by
  decide

end SoftU2F
